import Mathlib

/-!
# Verification development for the `legacy-fetch` authenticated HTTP client

Shallow embedding of the session cache (`internal/auth/session.go`), the browser
authentication flows, their login-completion detectors and the browser launch
(`internal/auth/browser.go`, `internal/auth/browser_config.go`), the page storage reader
(`internal/auth/localstorage.go`), the token extractor and output formatter
(`internal/auth/token.go`) and the cookie-injecting client (`internal/client/client.go`),
followed by theorems about them.

Conventions of the embedding:

* Go strings are lists of characters (`GoString`).
* `error` values are `GoString` messages; a Go result `(v, err)` is an `Except`.
* Stateful code threads an explicit `World` (file system plus a log of the
  externally visible actions).
* Calls into libraries that are not part of the repository (`encoding/json`,
  `net/url`, `net/http`, `os.ReadDir`, the browser) are fields of an environment
  record or function arguments.
* A Go map is given by its entries in the order `range` visits them.
* Times and durations are integers, in nanoseconds.
* The goroutines of the login wait are an interleaving: a step function on the joint
  state, run under a schedule.
-/

namespace Fetch

/-! ## Strings -/

/-- Go `string`, modelled as a list of characters. -/
abbrev GoString := List Char

/-- Go `strings.HasPrefix`: `len(s) >= len(prefix) && s[:len(prefix)] == prefix`. -/
def hasPrefix (s pfx : GoString) : Bool :=
  decide (pfx.length ≤ s.length) && (s.take pfx.length == pfx)

/-- Go `strings.HasSuffix`: `len(s) >= len(suffix) && s[len(s)-len(suffix):] == suffix`. -/
def hasSuffix (s suffix : GoString) : Bool :=
  decide (suffix.length ≤ s.length) && (s.drop (s.length - suffix.length) == suffix)

/-- Go `strings.TrimPrefix`: drops `prefix` once when `s` starts with it. -/
def trimPrefix (s pfx : GoString) : GoString :=
  if hasPrefix s pfx then s.drop pfx.length else s

/-! ## Cookies -/

/-- Go `http.SameSite`. -/
inductive SameSite where
  | SameSiteDefaultMode
  | SameSiteLaxMode
  | SameSiteStrictMode
  | SameSiteNoneMode
  deriving DecidableEq, Repr

/-- Go `http.Cookie`, with the fields the session file records. `Expires` is kept
as seconds since the epoch. -/
structure Cookie where
  Name : GoString := []
  Value : GoString := []
  Path : GoString := []
  Domain : GoString := []
  Expires : Int := 0
  MaxAge : Int := 0
  Secure : Bool := false
  HttpOnly : Bool := false
  SameSite : SameSite := .SameSiteDefaultMode
  deriving DecidableEq, Repr

/-- The function `cookieMatchesDomain` of `client.go`: should the cookie be sent to `host`? -/
def cookieMatchesDomain (cookie : Cookie) (host : GoString) : Bool :=
  let domain := cookie.Domain
  if domain == [] then
    true
  else
    let domain := trimPrefix domain ['.']
    let host := trimPrefix host ['.']
    if domain == host then
      true
    else if hasSuffix host ('.' :: domain) then
      true
    else
      false

/-- The specification's "remove at most one leading dot". -/
def stripLeadingDot : GoString → GoString
  | '.' :: rest => rest
  | s => s

/-- The Domain Matcher as the specification words it: the cookie domain is empty, or
after stripping one leading dot from both sides the two are equal, or the host ends
with a dot followed by the domain. -/
def MatchesSpec (cookieDomain requestHost : GoString) : Prop :=
  cookieDomain = [] ∨
    stripLeadingDot cookieDomain = stripLeadingDot requestHost ∨
    ∃ pre, stripLeadingDot requestHost = pre ++ '.' :: stripLeadingDot cookieDomain

/-! ## Errors, files and the log of visible actions -/

/-- Go `error`, kept as its message. -/
abbrev Error := GoString

/-- The call `fmt.Errorf(msg + ": %w", err)`: one layer of context around `err`. -/
def wrapError (msg : String) (err : Error) : Error :=
  msg.toList ++ ": ".toList ++ err

/-- Simplified `net/url.URL`. -/
structure URL where
  Scheme : GoString := []
  Host : GoString := []
  Path : GoString := []
  RawQuery : GoString := []
  deriving DecidableEq, Repr

/-- Go `http.Request` as the client builds it. `Cookies` are the cookies attached with
`AddCookie`, in the order they were added. -/
structure Request where
  Method : GoString
  URL : URL
  ContentType : Option GoString := none
  Body : Option GoString := none
  Cookies : List Cookie := []
  deriving DecidableEq, Repr

/-- Go `http.Response`: status code and body. -/
structure Response where
  StatusCode : Nat
  Body : GoString := []
  deriving DecidableEq, Repr

/-- Go `http.StatusUnauthorized`. -/
def StatusUnauthorized : Nat := 401

/-- Externally visible actions, recorded with their outcome: a call of
`BrowserAuth.Authenticate`, and a request handed to `httpClient.Do`. -/
inductive Event where
  | authenticate (targetURL : GoString) (result : Except Error Unit)
  | httpDo (req : Request) (result : Except Error Response)

/-- State threaded through the stateful code: the files on disk (by path), which paths
`os.WriteFile` can write, and the log of visible actions so far. -/
structure World where
  files : GoString → Option GoString
  writable : GoString → Bool
  log : List Event

/-- Append an event to the log. -/
def World.record (w : World) (e : Event) : World :=
  { w with log := w.log ++ [e] }

/-- Go `os.WriteFile(path, data, 0600)`: replaces the whole content of the file. -/
def writeFile (w : World) (path data : GoString) : Except Error Unit × World :=
  if w.writable path then
    (.ok (), { w with files := Function.update w.files path (some data) })
  else
    (.error ("open ".toList ++ path ++ ": permission denied".toList), w)

/-- Go `os.Stat` followed by `os.IsNotExist(err)`: true when there is no file at `path`. -/
def statIsNotExist (w : World) (path : GoString) : Bool :=
  (w.files path).isNone

/-- Go `os.ReadFile`. -/
def readFile (w : World) (path : GoString) : Except Error GoString :=
  match w.files path with
  | some data => .ok data
  | none => .error ("open ".toList ++ path ++ ": no such file or directory".toList)

/-- Go `os.Remove` on a file. -/
def removeFile (w : World) (path : GoString) : Except Error Unit × World :=
  match w.files path with
  | some _ =>
    if w.writable path then
      (.ok (), { w with files := Function.update w.files path none })
    else
      (.error ("remove ".toList ++ path ++ ": permission denied".toList), w)
  | none => (.error ("remove ".toList ++ path ++ ": no such file or directory".toList), w)

/-! ## Paths: Go `filepath.Join` with `/` as separator -/

/-- One step of Go `filepath.Clean` over the path elements; `stack` holds the elements
kept so far, last one first. -/
def cleanStep (rooted : Bool) (stack : List GoString) (elem : GoString) : List GoString :=
  if elem = [] ∨ elem = ['.'] then
    stack
  else if elem = ['.', '.'] then
    match stack with
    | top :: rest => if top = ['.', '.'] then elem :: stack else rest
    | [] => if rooted then [] else [elem]
  else
    elem :: stack

/-- Go `filepath.Clean` for `/`-separated paths. -/
def filepathClean (path : GoString) : GoString :=
  if path = [] then
    ['.']
  else
    let rooted := path.head? = some '/'
    let stack := (path.splitOn '/').foldl (cleanStep rooted) []
    let out := (if rooted then ['/'] else []) ++ List.intercalate ['/'] stack.reverse
    if out = [] then ['.'] else out

/-- Go `filepath.Join(dir, file)`: joins the non-empty elements with `/` and cleans. -/
def filepathJoin (dir file : GoString) : GoString :=
  if dir ≠ [] then
    filepathClean (dir ++ '/' :: file)
  else if file ≠ [] then
    filepathClean file
  else
    []

/-! ## `encoding/json` -/

/-- The two `encoding/json` calls of `session.go`, on a slice of cookies:
`json.MarshalIndent(cookies, "", "  ")` and `json.Unmarshal(data, &cookies)`. -/
structure JsonLib where
  marshalIndent : List Cookie → Except Error GoString
  unmarshal : GoString → Except Error (List Cookie)

/-- The fields of a cookie the session file is compared on: name, value, domain, path,
secure, http-only and same-site. -/
def SameRecorded (a b : Cookie) : Prop :=
  a.Name = b.Name ∧ a.Value = b.Value ∧ a.Domain = b.Domain ∧ a.Path = b.Path ∧
    a.Secure = b.Secure ∧ a.HttpOnly = b.HttpOnly ∧ a.SameSite = b.SameSite

/-- Contract of `encoding/json` at one cookie list: what `MarshalIndent` writes for it,
`Unmarshal` reads back as a list with the same recorded fields, in the same order. -/
def JsonLib.RoundTripsAt (js : JsonLib) (cookies : List Cookie) : Prop :=
  ∀ data, js.marshalIndent cookies = .ok data →
    ∃ loaded, js.unmarshal data = .ok loaded ∧ List.Forall₂ SameRecorded cookies loaded

/-! ## Credential store: `internal/auth/session.go` -/

/-- The struct `SessionManager`. -/
structure SessionManager where
  cacheDir : GoString
  deriving DecidableEq, Repr

/-- The method `getCookiePath`: `filepath.Join(s.cacheDir, fmt.Sprintf("%s.json", host))`. -/
def SessionManager.getCookiePath (s : SessionManager) (host : GoString) : GoString :=
  filepathJoin s.cacheDir (host ++ ".json".toList)

/-- The method `SaveCookies`. -/
def SessionManager.SaveCookies (js : JsonLib) (s : SessionManager) (w : World)
    (host : GoString) (cookies : List Cookie) : Except Error Unit × World :=
  let cookiePath := s.getCookiePath host
  match js.marshalIndent cookies with
  | .error err => (.error (wrapError "failed to marshal cookies" err), w)
  | .ok data =>
    match writeFile w cookiePath data with
    | (.error err, w) => (.error (wrapError "failed to write cookie file" err), w)
    | (.ok (), w) => (.ok (), w)

/-- The method `LoadCookies`. -/
def SessionManager.LoadCookies (js : JsonLib) (s : SessionManager) (w : World)
    (host : GoString) : Except Error (List Cookie) × World :=
  let cookiePath := s.getCookiePath host
  if statIsNotExist w cookiePath then
    (.ok [], w)
  else
    match readFile w cookiePath with
    | .error err => (.error (wrapError "failed to read cookie file" err), w)
    | .ok data =>
      match js.unmarshal data with
      | .error err => (.error (wrapError "failed to unmarshal cookies" err), w)
      | .ok cookies => (.ok cookies, w)

/-- The method `Clear`. -/
def SessionManager.Clear (s : SessionManager) (w : World) (host : GoString) :
    Except Error Unit × World :=
  let cookiePath := s.getCookiePath host
  if statIsNotExist w cookiePath then
    (.ok (), w)
  else
    match removeFile w cookiePath with
    | (.error err, w) => (.error (wrapError "failed to delete cookie file" err), w)
    | (.ok (), w) => (.ok (), w)

/-! ## Browser authentication: `internal/auth/browser.go` -/

/-- The struct `BrowserConfig`. -/
structure BrowserConfig where
  /-- The field `Type` of the source. -/
  BrowserType : GoString
  ExePath : GoString
  UserDataDir : GoString
  DebugPort : Nat
  deriving DecidableEq, Repr

/-- The struct `rawCookie`; `Expires` holds the value of `int64(c.Expires)`. -/
structure rawCookie where
  Name : GoString := []
  Value : GoString := []
  Domain : GoString := []
  Path : GoString := []
  Expires : Int := 0
  Secure : Bool := false
  HTTPOnly : Bool := false
  SameSite : GoString := []
  deriving DecidableEq, Repr

/-- What the browser and the operating system answer during an authentication. Each
answer may depend on the log of actions so far. The wait for login completion
(`<-loginComplete`) is taken to return. -/
structure BrowserLib where
  /-- Results of `findEdgePath()` and `findChromePath()`. -/
  findEdgePath : GoString
  findChromePath : GoString
  /-- Go `os.ExpandEnv`. -/
  expandEnv : GoString → GoString
  /-- Outcome of `b.getOrLaunchBrowser(config)`: the needs-close flag, or the error. -/
  getOrLaunchBrowser : List Event → BrowserConfig → Except Error Bool
  /-- Outcome of `browser.Call(ctx, "", "Storage.getCookies", nil)`. -/
  storageGetCookies : List Event → Except Error GoString
  /-- The call `json.Unmarshal(result, &response)`, giving `response.Cookies`. -/
  parseCookiesResponse : GoString → Except Error (List rawCookie)

/-- The constant `BrowserEdge`. -/
def BrowserEdge : GoString := "edge".toList

/-- The constant `BrowserChrome`. -/
def BrowserChrome : GoString := "chrome".toList

/-- The function `GetBrowserConfig` of `browser_config.go`. -/
def GetBrowserConfig (lib : BrowserLib) (browserType : GoString) : Except Error BrowserConfig :=
  if browserType = BrowserEdge then
    .ok { BrowserType := BrowserEdge, ExePath := lib.findEdgePath,
          UserDataDir := lib.expandEnv "$LOCALAPPDATA/Microsoft/EdgeDebug".toList,
          DebugPort := 9222 }
  else if browserType = BrowserChrome then
    .ok { BrowserType := BrowserChrome, ExePath := lib.findChromePath,
          UserDataDir := lib.expandEnv "$LOCALAPPDATA/Google/ChromeDebug".toList,
          DebugPort := 9223 }
  else
    .error ("unsupported browser type: ".toList ++ browserType)

/-- The struct `BrowserAuth`. -/
structure BrowserAuth where
  sessionManager : SessionManager
  browserType : GoString
  deriving DecidableEq, Repr

/-- The function `NewBrowserAuth`. -/
def NewBrowserAuth (sessionManager : SessionManager) : BrowserAuth :=
  { sessionManager := sessionManager, browserType := BrowserEdge }

/-- The same-site switch inside `extractCookies`. -/
def sameSiteOfString (s : GoString) : SameSite :=
  if s = "Strict".toList then .SameSiteStrictMode
  else if s = "Lax".toList then .SameSiteLaxMode
  else if s = "None".toList then .SameSiteNoneMode
  else .SameSiteDefaultMode

/-- The method `extractCookies`: all cookies of the browser, converted to `http.Cookie`. -/
def BrowserAuth.extractCookies (lib : BrowserLib) (_b : BrowserAuth) (log : List Event)
    (_host : GoString) : Except Error (List Cookie) :=
  match lib.storageGetCookies log with
  | .error err => .error (wrapError "failed to get cookies from browser" err)
  | .ok result =>
    match lib.parseCookiesResponse result with
    | .error err => .error (wrapError "failed to parse cookies response" err)
    | .ok cookies =>
      .ok (cookies.map fun c =>
        { Name := c.Name, Value := c.Value, Path := c.Path, Domain := c.Domain,
          Expires := c.Expires, Secure := c.Secure, HttpOnly := c.HTTPOnly,
          SameSite := sameSiteOfString c.SameSite })

/-- Everything the client calls outside the repository. -/
structure Env where
  json : JsonLib
  browser : BrowserLib
  /-- Go `url.Parse`. -/
  urlParse : GoString → Except Error URL
  /-- Go `(*url.URL).String`. -/
  urlString : URL → GoString
  /-- The `URL` field `http.NewRequest` gives the request it builds from a URL string,
  or its error. -/
  newRequestURL : GoString → Except Error URL
  /-- Go `httpClient.Do`: the answer may depend on the log of actions so far. -/
  httpDo : List Event → Request → Except Error Response

/-- Body of the method `Authenticate`, before its outcome is logged. -/
def BrowserAuth.authenticateFlow (env : Env) (b : BrowserAuth) (w : World)
    (targetURL : GoString) : Except Error Unit × World :=
  match env.urlParse targetURL with
  | .error err => (.error (wrapError "failed to parse target URL" err), w)
  | .ok parsedURL =>
    let host := parsedURL.Host
    match GetBrowserConfig env.browser b.browserType with
    | .error err => (.error (wrapError "failed to get browser config" err), w)
    | .ok config =>
      match env.browser.getOrLaunchBrowser w.log config with
      | .error err => (.error (wrapError "failed to get browser" err), w)
      | .ok _needsClose =>
        match b.extractCookies env.browser w.log host with
        | .error err => (.error (wrapError "failed to extract cookies" err), w)
        | .ok cookies =>
          if cookies.length = 0 then
            (.error "no cookies captured - login may have failed".toList, w)
          else
            match b.sessionManager.SaveCookies env.json w host cookies with
            | (.error err, w) => (.error (wrapError "failed to save cookies" err), w)
            | (.ok (), w) => (.ok (), w)

/-- The method `Authenticate`: the flow above, then the call and its outcome are logged. -/
def BrowserAuth.Authenticate (env : Env) (b : BrowserAuth) (w : World)
    (targetURL : GoString) : Except Error Unit × World :=
  let out := b.authenticateFlow env w targetURL
  (out.1, out.2.record (.authenticate targetURL out.1))

/-! ## Authenticated client: `internal/client/client.go` -/

/-- The struct `Client`; its `httpClient` is `Env.httpDo`. -/
structure Client where
  sessionManager : SessionManager
  browserAuth : BrowserAuth
  deriving DecidableEq, Repr

/-- Go `http.NewRequest(method, url, body)`, with the content type the caller then sets. -/
def newRequest (env : Env) (method targetURL : GoString) (contentType : GoString)
    (body : Option GoString) : Except Error Request :=
  match env.newRequestURL targetURL with
  | .error err => .error err
  | .ok u =>
    .ok { Method := method, URL := u,
          ContentType := if contentType ≠ [] then some contentType else none,
          Body := body, Cookies := [] }

/-- The loop of `do` that injects the matching cookies with `req.AddCookie`. -/
def addMatchingCookies (req : Request) (cookies : List Cookie) (host : GoString) : Request :=
  cookies.foldl
    (fun req cookie =>
      if cookieMatchesDomain cookie host then
        { req with Cookies := req.Cookies ++ [cookie] }
      else req)
    req

/-- The method `do`. -/
def Client.do (env : Env) (c : Client) (w : World) (req : Request) :
    Except Error Response × World :=
  match env.urlParse (env.urlString req.URL) with
  | .error err => (.error (wrapError "failed to parse URL" err), w)
  | .ok parsedURL =>
    let host := parsedURL.Host
    match c.sessionManager.LoadCookies env.json w host with
    | (.error err, w) => (.error (wrapError "failed to load cookies" err), w)
    | (.ok cookies, w) =>
      let req := addMatchingCookies req cookies host
      let result := env.httpDo w.log req
      let w := w.record (.httpDo req result)
      match result with
      | .error err => (.error (wrapError "request failed" err), w)
      | .ok resp =>
        if resp.StatusCode = StatusUnauthorized then
          (.ok resp, w)
        else
          (.ok resp, w)

/-- The method `Get`. -/
def Client.Get (env : Env) (c : Client) (w : World) (targetURL : GoString) :
    Except Error Response × World :=
  match newRequest env "GET".toList targetURL [] none with
  | .error err => (.error (wrapError "failed to create request" err), w)
  | .ok req => c.do env w req

/-- The method `Post`. -/
def Client.Post (env : Env) (c : Client) (w : World) (targetURL contentType body : GoString) :
    Except Error Response × World :=
  match newRequest env "POST".toList targetURL contentType (some body) with
  | .error err => (.error (wrapError "failed to create request" err), w)
  | .ok req => c.do env w req

/-- The method `Put`. -/
def Client.Put (env : Env) (c : Client) (w : World) (targetURL contentType body : GoString) :
    Except Error Response × World :=
  match newRequest env "PUT".toList targetURL contentType (some body) with
  | .error err => (.error (wrapError "failed to create request" err), w)
  | .ok req => c.do env w req

/-- The method `Delete`. -/
def Client.Delete (env : Env) (c : Client) (w : World) (targetURL : GoString) :
    Except Error Response × World :=
  match newRequest env "DELETE".toList targetURL [] none with
  | .error err => (.error (wrapError "failed to create request" err), w)
  | .ok req => c.do env w req

/-- The method `GetWithAuth`. -/
def Client.GetWithAuth (env : Env) (c : Client) (w : World) (targetURL : GoString) :
    Except Error Response × World :=
  match env.urlParse targetURL with
  | .error err => (.error (wrapError "failed to parse URL" err), w)
  | .ok parsedURL =>
    let host := parsedURL.Host
    match c.sessionManager.LoadCookies env.json w host with
    | (.error err, w) => (.error (wrapError "failed to load cookies" err), w)
    | (.ok cookies, w) =>
      match (if cookies.length = 0 then c.browserAuth.Authenticate env w targetURL
             else (.ok (), w)) with
      | (.error err, w) => (.error (wrapError "authentication failed" err), w)
      | (.ok (), w) =>
        match newRequest env "GET".toList targetURL [] none with
        | .error err => (.error (wrapError "failed to create request" err), w)
        | .ok req =>
          match c.do env w req with
          | (.error err, w) => (.error err, w)
          | (.ok resp, w) =>
            if resp.StatusCode = StatusUnauthorized then
              match c.browserAuth.Authenticate env w targetURL with
              | (.error err, w) => (.error (wrapError "re-authentication failed" err), w)
              | (.ok (), w) =>
                match newRequest env "GET".toList targetURL [] none with
                | .error err => (.error (wrapError "failed to create retry request" err), w)
                | .ok req => c.do env w req
            else
              (.ok resp, w)

/-- The method `PostWithAuth`. -/
def Client.PostWithAuth (env : Env) (c : Client) (w : World)
    (targetURL contentType body : GoString) : Except Error Response × World :=
  match env.urlParse targetURL with
  | .error err => (.error (wrapError "failed to parse URL" err), w)
  | .ok parsedURL =>
    let host := parsedURL.Host
    match c.sessionManager.LoadCookies env.json w host with
    | (.error err, w) => (.error (wrapError "failed to load cookies" err), w)
    | (.ok cookies, w) =>
      match (if cookies.length = 0 then c.browserAuth.Authenticate env w targetURL
             else (.ok (), w)) with
      | (.error err, w) => (.error (wrapError "authentication failed" err), w)
      | (.ok (), w) =>
        match newRequest env "POST".toList targetURL contentType (some body) with
        | .error err => (.error (wrapError "failed to create request" err), w)
        | .ok req =>
          match c.do env w req with
          | (.error err, w) => (.error err, w)
          | (.ok resp, w) =>
            if resp.StatusCode = StatusUnauthorized then
              match c.browserAuth.Authenticate env w targetURL with
              | (.error err, w) => (.error (wrapError "re-authentication failed" err), w)
              | (.ok (), w) =>
                match newRequest env "POST".toList targetURL contentType (some body) with
                | .error err => (.error (wrapError "failed to create retry request" err), w)
                | .ok req => c.do env w req
            else
              (.ok resp, w)

/-! ## Reading the log -/

/-- Is the event a request handed to `httpClient.Do`? -/
def Event.isHttp : Event → Bool
  | .httpDo _ _ => true
  | .authenticate _ _ => false

/-- Is the event a call of `Authenticate`? -/
def Event.isAuth : Event → Bool
  | .authenticate _ _ => true
  | .httpDo _ _ => false

/-- Number of HTTP requests issued in a stretch of the log. -/
def httpCount (evs : List Event) : Nat := evs.countP Event.isHttp

/-- Number of `Authenticate` calls in a stretch of the log. -/
def authCount (evs : List Event) : Nat := evs.countP Event.isAuth

/-- How `httpClient.Do`'s answer becomes the result of `do`. -/
def doResult (result : Except Error Response) : Except Error Response :=
  match result with
  | .error err => .error (wrapError "request failed" err)
  | .ok resp => .ok resp

/-- A run of the plain request path from the world `w`: the log grows by `evs`, which
holds no `Authenticate` call and at most one HTTP request; the files are untouched; and
a response the transport returned is the result, unchanged and with no error. -/
def PlainRun (w : World) (out : Except Error Response × World) : Prop :=
  ∃ evs, out.2.log = w.log ++ evs ∧ out.2.files = w.files ∧
    authCount evs = 0 ∧ httpCount evs ≤ 1 ∧
    ∀ req resp, Event.httpDo req (.ok resp) ∈ evs → out.1 = .ok resp

/-! ## Shape of a run of the `*WithAuth` methods -/

/-- The part of `GetWithAuth` and `PostWithAuth` after the session check, `mk` being the
request they build (twice, from the same arguments). -/
def Client.withAuthCore (env : Env) (c : Client) (w : World) (targetURL : GoString)
    (mk : Except Error Request) : Except Error Response × World :=
  match mk with
  | .error err => (.error (wrapError "failed to create request" err), w)
  | .ok req =>
    match c.do env w req with
    | (.error err, w) => (.error err, w)
    | (.ok resp, w) =>
      if resp.StatusCode = StatusUnauthorized then
        match c.browserAuth.Authenticate env w targetURL with
        | (.error err, w) => (.error (wrapError "re-authentication failed" err), w)
        | (.ok (), w) =>
          match mk with
          | .error err => (.error (wrapError "failed to create retry request" err), w)
          | .ok req => c.do env w req
      else
        (.ok resp, w)

/-- The common body of `GetWithAuth` and `PostWithAuth`. -/
def Client.withAuth (env : Env) (c : Client) (w : World) (targetURL : GoString)
    (mk : Except Error Request) : Except Error Response × World :=
  match env.urlParse targetURL with
  | .error err => (.error (wrapError "failed to parse URL" err), w)
  | .ok parsedURL =>
    let host := parsedURL.Host
    match c.sessionManager.LoadCookies env.json w host with
    | (.error err, w) => (.error (wrapError "failed to load cookies" err), w)
    | (.ok cookies, w) =>
      match (if cookies.length = 0 then c.browserAuth.Authenticate env w targetURL
             else (.ok (), w)) with
      | (.error err, w) => (.error (wrapError "authentication failed" err), w)
      | (.ok (), w) => c.withAuthCore env w targetURL mk

/-- The first HTTP request of a stretch of the log, with its outcome and the events
after it. -/
def firstHttp : List Event → Option (Request × Except Error Response × List Event)
  | [] => none
  | .httpDo req res :: rest => some (req, res, rest)
  | .authenticate _ _ :: rest => firstHttp rest

/-- Two requests with the same method, URL, content type and body. -/
def SameRequestLine (a b : Request) : Prop :=
  a.Method = b.Method ∧ a.URL = b.URL ∧ a.ContentType = b.ContentType ∧ a.Body = b.Body

/-- What a run of `withAuthCore` logs (`evs`) and returns. -/
inductive CoreRun (targetURL : GoString) : List Event → Except Error Response → Prop
  | notSent (e : Error) : CoreRun targetURL [] (.error e)
  | sent (req : Request) (res : Except Error Response)
      (h : ∀ resp, res = .ok resp → resp.StatusCode ≠ StatusUnauthorized) :
      CoreRun targetURL [.httpDo req res] (doResult res)
  | reauthFailed (req : Request) (resp : Response) (e : Error)
      (h : resp.StatusCode = StatusUnauthorized) :
      CoreRun targetURL [.httpDo req (.ok resp), .authenticate targetURL (.error e)]
        (.error (wrapError "re-authentication failed" e))
  | retryNotSent (req : Request) (resp : Response) (e : Error)
      (h : resp.StatusCode = StatusUnauthorized) :
      CoreRun targetURL [.httpDo req (.ok resp), .authenticate targetURL (.ok ())] (.error e)
  | retried (req : Request) (resp : Response) (req₂ : Request) (res₂ : Except Error Response)
      (h : resp.StatusCode = StatusUnauthorized) (hsame : SameRequestLine req req₂) :
      CoreRun targetURL
        [.httpDo req (.ok resp), .authenticate targetURL (.ok ()), .httpDo req₂ res₂]
        (doResult res₂)

/-- The retry discipline of a `*WithAuth` run from the world `w`: at most two HTTP
requests are logged; and when the first request was answered with 401, exactly one
`Authenticate` call follows it, after which either the call failed and the run ends in
the re-authentication error with no retry, or the call succeeded and the run ends
either without a further request (and in an error) or with exactly one further request,
for the same method, URL and body, whose outcome is the result as `do` returns it. -/
def RetriesAtMostOnce (targetURL : GoString) (w : World)
    (out : Except Error Response × World) : Prop :=
  ∃ evs, out.2.log = w.log ++ evs ∧ httpCount evs ≤ 2 ∧
    ∀ req resp post, firstHttp evs = some (req, .ok resp, post) →
      resp.StatusCode = StatusUnauthorized →
      ∃ ares rest, post = .authenticate targetURL ares :: rest ∧ authCount rest = 0 ∧
        (∀ e, ares = .error e →
          rest = [] ∧ out.1 = .error (wrapError "re-authentication failed" e)) ∧
        (ares = .ok () →
          (rest = [] ∧ ∃ e, out.1 = .error e) ∨
          ∃ req₂ res₂, rest = [.httpDo req₂ res₂] ∧ SameRequestLine req req₂ ∧
            out.1 = doResult res₂)

/-- The order of authentication and first request in a `*WithAuth` run from the world `w`
in which `cookies` is what the store holds for the URL's host: with no cookies the log
starts with the `Authenticate` call, and if that call failed nothing follows it and the
run ends in the authentication error; with at least one cookie the first logged event,
if there is one, is the HTTP request. -/
def AuthBeforeRequest (env : Env) (c : Client) (targetURL : GoString) (w : World)
    (cookies : List Cookie) (out : Except Error Response × World) : Prop :=
  ∃ evs, out.2.log = w.log ++ evs ∧
    (cookies = [] →
      ∃ rest, evs = .authenticate targetURL (c.browserAuth.Authenticate env w targetURL).1
          :: rest ∧
        ∀ e, (c.browserAuth.Authenticate env w targetURL).1 = .error e →
          rest = [] ∧ out.1 = .error (wrapError "authentication failed" e)) ∧
    (cookies ≠ [] → ∀ e rest, evs = e :: rest → e.isHttp = true)

/-! ## Concrete inputs used to exercise the embedding -/

/-- A store with no files in which every path can be written, and an empty log. -/
def emptyWorld : World :=
  { files := fun _ => none, writable := fun _ => true, log := [] }

/-- A session manager over the cache directory `/home/u/.omatic/auth`. -/
def sampleManager : SessionManager :=
  { cacheDir := "/home/u/.omatic/auth".toList }

/-- One captured cookie list: a session cookie and a preference cookie. -/
def sampleCookies : List Cookie :=
  [ { Name := "session_id".toList, Value := "abc123".toList, Domain := ".example.com".toList,
      Path := "/".toList, Secure := true, HttpOnly := true },
    { Name := "user_pref".toList, Value := "dark_mode".toList, Domain := "other.com".toList,
      Path := "/".toList } ]

/-- A second cookie list, with one cookie. -/
def otherCookies : List Cookie :=
  [ { Name := "auth_token".toList, Value := "abc456".toList } ]

/-- A small JSON library: it knows the documents of the empty list, of `sampleCookies`
and of `otherCookies`, and rejects every other text and value. -/
def sampleJson : JsonLib where
  marshalIndent cookies :=
    if cookies = [] then .ok "[]".toList
    else if cookies = sampleCookies then .ok "[session_id,user_pref]".toList
    else if cookies = otherCookies then .ok "[auth_token]".toList
    else .error "json: unsupported value".toList
  unmarshal data :=
    if data = "[]".toList then .ok []
    else if data = "[session_id,user_pref]".toList then .ok sampleCookies
    else if data = "[auth_token]".toList then .ok otherCookies
    else .error "invalid character".toList

/-- The one URL text the sample parser accepts. -/
def sampleURLText : GoString := "https://app.example.com/api".toList

/-- The parsed form of `sampleURLText`. -/
def sampleURL : URL :=
  { Scheme := "https".toList, Host := "app.example.com".toList, Path := "/api".toList }

/-- A URL parser that accepts `sampleURLText` only. -/
def sampleUrlParse (s : GoString) : Except Error URL :=
  if s = sampleURLText then .ok sampleURL else .error "parse: invalid URL".toList

/-- Rendering of a URL as `scheme://host/path`. -/
def sampleUrlString (u : URL) : GoString :=
  u.Scheme ++ "://".toList ++ u.Host ++ u.Path

/-- A browser that cannot be reached: `getOrLaunchBrowser` times out. -/
def brokenBrowser : BrowserLib where
  findEdgePath := "msedge.exe".toList
  findChromePath := "chrome.exe".toList
  expandEnv := id
  getOrLaunchBrowser _ _ := .error "browser debug port did not open after 15 seconds".toList
  storageGetCookies _ := .error "not connected".toList
  parseCookiesResponse _ := .ok []

/-- A browser in which the login completes and one cookie, `auth_token`, is captured. -/
def workingBrowser : BrowserLib where
  findEdgePath := "msedge.exe".toList
  findChromePath := "chrome.exe".toList
  expandEnv := id
  getOrLaunchBrowser _ _ := .ok false
  storageGetCookies _ := .ok "cookies".toList
  parseCookiesResponse _ := .ok [{ Name := "auth_token".toList, Value := "abc456".toList }]

/-- A server that answers every request with 401. -/
def server401 (_log : List Event) (_req : Request) : Except Error Response :=
  .ok { StatusCode := 401, Body := "unauthorized".toList }

/-- A server that answers every request with 200. -/
def server200 (_log : List Event) (_req : Request) : Except Error Response :=
  .ok { StatusCode := 200, Body := "ok".toList }

/-- The sample environment around a browser and a server. -/
def sampleEnv (browser : BrowserLib)
    (server : List Event → Request → Except Error Response) : Env where
  json := sampleJson
  browser := browser
  urlParse := sampleUrlParse
  urlString := sampleUrlString
  newRequestURL := sampleUrlParse
  httpDo := server

/-- A client over `sampleManager` authenticating with Edge. -/
def sampleClient : Client :=
  { sessionManager := sampleManager, browserAuth := NewBrowserAuth sampleManager }

/-- The GET request for `sampleURLText`, as `http.NewRequest` builds it. -/
def sampleRequest : Request :=
  { Method := "GET".toList, URL := sampleURL }

/-- A store holding `sampleCookies` for `app.example.com`. -/
def cachedWorld : World :=
  (sampleManager.SaveCookies sampleJson emptyWorld "app.example.com".toList sampleCookies).2

/-- A store whose file for `app.example.com` is not a JSON document. -/
def malformedWorld : World :=
  { files := fun p =>
      if p = sampleManager.getCookiePath "app.example.com".toList then some "not json".toList
      else none,
    writable := fun _ => true,
    log := [] }

/-! ## Token output: `FormatTokenOutput` of `internal/auth/token.go` -/

/-- Go `strings.Join(elems, sep)`. -/
def stringsJoin : List GoString → GoString → GoString
  | [], _ => []
  | [a], _ => a
  | a :: b :: rest, sep => a ++ sep ++ stringsJoin (b :: rest) sep

/-- Go `strings.Contains(s, substr)`: does `substr` occur at some position of `s`? -/
def stringsContains : GoString → GoString → Bool
  | [], substr => hasPrefix [] substr
  | c :: rest, substr => hasPrefix (c :: rest) substr || stringsContains rest substr

/-- The function `FormatTokenOutput`. -/
def FormatTokenOutput (jwt : GoString) (cookies : List Cookie) : GoString :=
  let lines : List GoString := []
  let lines := if jwt ≠ [] then lines ++ ["JWT=".toList ++ jwt] else lines
  let lines :=
    if cookies.length > 0 then
      let parts := cookies.foldl (fun parts c => parts ++ [c.Name ++ "=".toList ++ c.Value]) []
      lines ++ ["COOKIE=".toList ++ stringsJoin parts "; ".toList]
    else lines
  stringsJoin lines ['\n']

/-- The cookies' `name=value` pairs, in list order, joined by `"; "`. -/
def cookiePairsText : List Cookie → GoString
  | [] => []
  | [c] => c.Name ++ '=' :: c.Value
  | c :: d :: rest => c.Name ++ '=' :: c.Value ++ "; ".toList ++ cookiePairsText (d :: rest)

/-- The output format as the specification words it: the `JWT=` line when the token is
non-empty, then the `COOKIE=` line when the cookie list is non-empty, joined by a single
newline; the empty string when both are absent. -/
def FormatSpec (token : GoString) (cookies : List Cookie) : GoString :=
  if token ≠ [] ∧ cookies ≠ [] then
    "JWT=".toList ++ token ++ ['\n'] ++ ("COOKIE=".toList ++ cookiePairsText cookies)
  else if token ≠ [] then
    "JWT=".toList ++ token
  else if cookies ≠ [] then
    "COOKIE=".toList ++ cookiePairsText cookies
  else
    []

/-! ## Token extraction: `ParseAuth0Token` of `internal/auth/token.go` -/

/-- The inner struct `Body` of `auth0CacheEntry`. -/
structure auth0CacheBody where
  AccessToken : GoString := []
  ExpiresIn : Int := 0
  TokenType : GoString := []
  deriving DecidableEq, Repr

/-- The struct `auth0CacheEntry`. -/
structure auth0CacheEntry where
  Body : auth0CacheBody := {}
  ExpiresAt : Int := 0
  deriving DecidableEq, Repr

/-- The key prefix of the Auth0 SPA SDK cache entries. -/
def auth0KeyPrefix : GoString := "@@auth0spajs@@".toList

/-- The function `ParseAuth0Token`. The map `localStorage` is given by its entries in the
order `range` visits them; `unmarshal` is `json.Unmarshal([]byte(value), &entry)`. The
result is the pair `(token, err)`. -/
def ParseAuth0Token (unmarshal : GoString → Except Error auth0CacheEntry) :
    List (GoString × GoString) → GoString × Option Error
  | [] => ([], some "no Auth0 token found in localStorage".toList)
  | (key, value) :: rest =>
    if !hasPrefix key auth0KeyPrefix then
      ParseAuth0Token unmarshal rest
    else
      match unmarshal value with
      | .error err => ([], some (wrapError "failed to parse Auth0 cache entry" err))
      | .ok entry =>
        if entry.Body.AccessToken = [] then
          ([], some "Auth0 cache entry has no access_token".toList)
        else
          (entry.Body.AccessToken, none)

/-- What `ParseAuth0Token` returns once it has reached a key with the prefix whose value
is `value`. -/
def entryOutcome (unmarshal : GoString → Except Error auth0CacheEntry) (value : GoString) :
    GoString × Option Error :=
  match unmarshal value with
  | .error err => ([], some (wrapError "failed to parse Auth0 cache entry" err))
  | .ok entry =>
    if entry.Body.AccessToken = [] then
      ([], some "Auth0 cache entry has no access_token".toList)
    else
      (entry.Body.AccessToken, none)

/-- A decoder for cache entries that knows three values: two entries with a token, one
entry whose body has no `access_token`; every other text is malformed. -/
def sampleAuth0Unmarshal (value : GoString) : Except Error auth0CacheEntry :=
  if value = "entry with access_token my-jwt-token".toList then
    .ok { Body := { AccessToken := "my-jwt-token".toList, ExpiresIn := 3600,
                    TokenType := "Bearer".toList },
          ExpiresAt := 9999999999 }
  else if value = "entry with access_token other-token".toList then
    .ok { Body := { AccessToken := "other-token".toList, ExpiresIn := 3600,
                    TokenType := "Bearer".toList },
          ExpiresAt := 9999999999 }
  else if value = "entry without access_token".toList then
    .ok { Body := { ExpiresIn := 86400, TokenType := "Bearer".toList },
          ExpiresAt := 1740600000 }
  else
    .error "invalid character".toList

/-- A cache entry for the audience `api.example.com`, holding `my-jwt-token`. -/
def sampleAuth0Entry : GoString × GoString :=
  ("@@auth0spajs@@::abc::https://api.example.com::openid".toList,
   "entry with access_token my-jwt-token".toList)

/-- A second cache entry, for another audience, holding `other-token`. -/
def otherAuth0Entry : GoString × GoString :=
  ("@@auth0spajs@@::abc::https://other.example.com::openid".toList,
   "entry with access_token other-token".toList)

/-- An entry of the storage map that is not an Auth0 cache entry. -/
def plainStorageEntry : GoString × GoString :=
  ("some_other_key".toList, "some_value".toList)

/-! ## Path elements -/

/-- A name that is a single path element: non-empty, without `/`, and neither `.` nor
`..`. -/
def IsPathElement (name : GoString) : Prop :=
  name ≠ [] ∧ '/' ∉ name ∧ name ≠ ['.'] ∧ name ≠ ['.', '.']

/-- A store holding a session file for `app.example.com` that cannot be deleted or
rewritten (no path is writable). -/
def lockedWorld : World :=
  { files := fun p =>
      if p = sampleManager.getCookiePath "app.example.com".toList then
        some "[auth_token]".toList
      else none,
    writable := fun _ => false,
    log := [] }

/-! ## Listing sessions: `ListSessions` of `internal/auth/session.go` -/

/-- Go `strings.TrimSuffix`: drops `suffix` once when `s` ends with it. -/
def trimSuffix (s suffix : GoString) : GoString :=
  if hasSuffix s suffix then s.take (s.length - suffix.length) else s

/-- Go `os.DirEntry`: the name of the entry and whether it is a directory. -/
structure DirEntry where
  Name : GoString
  IsDir : Bool
  deriving DecidableEq, Repr

/-- Go `os.IsNotExist(err)`, read off the message of the error. -/
def isNotExist (err : Error) : Bool :=
  hasSuffix err ": no such file or directory".toList

/-- The method `ListSessions`; `readDir` is `os.ReadDir`. -/
def SessionManager.ListSessions (readDir : World → GoString → Except Error (List DirEntry))
    (s : SessionManager) (w : World) : Except Error (List GoString) × World :=
  match readDir w s.cacheDir with
  | .error err =>
    if isNotExist err then
      (.ok [], w)
    else
      (.error (wrapError "failed to read cache directory" err), w)
  | .ok entries =>
    let hosts := entries.foldl
      (fun hosts entry =>
        if entry.IsDir then hosts
        else
          let filename := entry.Name
          if hasSuffix filename ".json".toList then
            hosts ++ [trimSuffix filename ".json".toList]
          else hosts)
      []
    (.ok hosts, w)

/-- Contract of `os.ReadDir` against the files of the world: the entries have distinct
names, each a single path element, and a name is listed as a file exactly when a file
exists at that name inside the directory. -/
def IsDirListing (w : World) (dir : GoString) (entries : List DirEntry) : Prop :=
  (entries.map DirEntry.Name).Nodup ∧
  (∀ e ∈ entries, IsPathElement e.Name) ∧
  ∀ name, IsPathElement name →
    (({ Name := name, IsDir := false } : DirEntry) ∈ entries ↔
      (w.files (filepathJoin dir name)).isSome = true)

/-- Saving a list of sessions one after the other, stopping at the first error, as the
loop of `TestSessionManager_ListSessions` does. -/
def SessionManager.saveAll (js : JsonLib) (s : SessionManager) (w : World) :
    List (GoString × List Cookie) → Except Error Unit × World
  | [] => (.ok (), w)
  | (host, cookies) :: rest =>
    match s.SaveCookies js w host cookies with
    | (.error err, w) => (.error err, w)
    | (.ok (), w) => s.saveAll js w rest

/-- A directory reader over a known list of file names: it lists those of them at which
the world has a file. -/
def sampleReadDir (names : List GoString) (w : World) (dir : GoString) :
    Except Error (List DirEntry) :=
  .ok ((names.filter fun n => (w.files (filepathJoin dir n)).isSome).map
    fun n => { Name := n, IsDir := false })

/-- An empty store in which no path can be written. -/
def readOnlyWorld : World :=
  { files := fun _ => none, writable := fun _ => false, log := [] }

/-! ## Browser-side cookie helpers of `internal/auth/browser.go` -/

/-- Simplified `proto.NetworkCookie` of go-rod; `Expires` holds `int64(c.Expires)`. -/
structure NetworkCookie where
  Name : GoString := []
  Value : GoString := []
  Domain : GoString := []
  Path : GoString := []
  Expires : Int := 0
  Secure : Bool := false
  HTTPOnly : Bool := false
  SameSite : GoString := []
  deriving DecidableEq, Repr

/-- Modelled from the spec: the constants `proto.NetworkCookieSameSiteStrict`,
`proto.NetworkCookieSameSiteLax` and `proto.NetworkCookieSameSiteNone` of go-rod, which
the repository imports; the spec gives the browser's same-site strings as `Strict`,
`Lax` and `None`. -/
def NetworkCookieSameSiteStrict : GoString := "Strict".toList

/-- Modelled from the spec: see `NetworkCookieSameSiteStrict`. -/
def NetworkCookieSameSiteLax : GoString := "Lax".toList

/-- Modelled from the spec: see `NetworkCookieSameSiteStrict`. -/
def NetworkCookieSameSiteNone : GoString := "None".toList

/-- The method `convertSameSite`. -/
def convertSameSite (sameSite : GoString) : SameSite :=
  if sameSite = NetworkCookieSameSiteStrict then .SameSiteStrictMode
  else if sameSite = NetworkCookieSameSiteLax then .SameSiteLaxMode
  else if sameSite = NetworkCookieSameSiteNone then .SameSiteNoneMode
  else .SameSiteDefaultMode

/-- The method `convertCookies`. -/
def convertCookies (rodCookies : List NetworkCookie) : List Cookie :=
  rodCookies.foldl
    (fun httpCookies c =>
      httpCookies ++
        [{ Name := c.Name, Value := c.Value, Path := c.Path, Domain := c.Domain,
           Expires := c.Expires, Secure := c.Secure, HttpOnly := c.HTTPOnly,
           SameSite := convertSameSite c.SameSite }])
    []

/-- The method `isCookieRelevant`. -/
def isCookieRelevant (cookie : NetworkCookie) (targetHost : GoString) : Bool :=
  if cookie.Domain == [] then
    true
  else
    let cookieDomain := trimPrefix cookie.Domain ['.']
    let targetHost := trimPrefix targetHost ['.']
    targetHost == cookieDomain || hasSuffix targetHost ('.' :: cookieDomain)

/-- The same-site mapping as the specification words it: `Strict`, `Lax` and `None` map
to their policies, every other string, the empty one included, to Unspecified. -/
def IsSameSiteMapping (f : GoString → SameSite) : Prop :=
  f "Strict".toList = .SameSiteStrictMode ∧
  f "Lax".toList = .SameSiteLaxMode ∧
  f "None".toList = .SameSiteNoneMode ∧
  f [] = .SameSiteDefaultMode ∧
  ∀ s, s ≠ "Strict".toList → s ≠ "Lax".toList → s ≠ "None".toList →
    f s = .SameSiteDefaultMode

/-! ## Capturing credentials: `AuthenticateAndCapture` and `internal/auth/localstorage.go` -/

/-- The struct `AuthResult`; the map `LocalStorage` is given by its entries. -/
structure AuthResult where
  Cookies : List Cookie
  LocalStorage : List (GoString × GoString)
  deriving DecidableEq, Repr

/-- What the page answers when its storage is read. -/
structure PageLib where
  /-- Outcome of `page.Eval(localStorageJS)`: the string `result.Value.Str()`, or the
  error. -/
  evalLocalStorage : List Event → Except Error GoString
  /-- The call `json.Unmarshal([]byte(jsonStr), &entries)` into a `map[string]string`. -/
  unmarshalStorage : GoString → Except Error (List (GoString × GoString))

/-- The function `ParseLocalStorageJSON`. -/
def ParseLocalStorageJSON (page : PageLib) (jsonStr : GoString) :
    Except Error (List (GoString × GoString)) :=
  match page.unmarshalStorage jsonStr with
  | .error err => .error (wrapError "failed to parse localStorage JSON" err)
  | .ok entries => .ok entries

/-- The function `ExtractLocalStorage`. -/
def ExtractLocalStorage (page : PageLib) (log : List Event) :
    Except Error (List (GoString × GoString)) :=
  match page.evalLocalStorage log with
  | .error err => .error (wrapError "failed to read localStorage" err)
  | .ok jsonStr => ParseLocalStorageJSON page jsonStr

/-- The method `AuthenticateAndCapture`. The wait for login completion is taken to
return, as in `Authenticate`. -/
def BrowserAuth.AuthenticateAndCapture (env : Env) (page : PageLib) (b : BrowserAuth)
    (w : World) (targetURL : GoString) : Except Error AuthResult × World :=
  match env.urlParse targetURL with
  | .error err => (.error (wrapError "failed to parse target URL" err), w)
  | .ok parsedURL =>
    let host := parsedURL.Host
    match GetBrowserConfig env.browser b.browserType with
    | .error err => (.error (wrapError "failed to get browser config" err), w)
    | .ok config =>
      match env.browser.getOrLaunchBrowser w.log config with
      | .error err => (.error (wrapError "failed to get browser" err), w)
      | .ok _needsClose =>
        match b.extractCookies env.browser w.log host with
        | .error err => (.error (wrapError "failed to extract cookies" err), w)
        | .ok cookies =>
          let localStorage :=
            match ExtractLocalStorage page w.log with
            | .error _ => []
            | .ok localStorage => localStorage
          (.ok { Cookies := cookies, LocalStorage := localStorage }, w)

/-- The method `AuthenticateAndCapture` of `Client`. -/
def Client.AuthenticateAndCapture (env : Env) (page : PageLib) (c : Client) (w : World)
    (targetURL : GoString) : Except Error AuthResult × World :=
  c.browserAuth.AuthenticateAndCapture env page w targetURL

/-- A browser in which the login completes but no cookie is captured. -/
def emptyBrowser : BrowserLib where
  findEdgePath := "msedge.exe".toList
  findChromePath := "chrome.exe".toList
  expandEnv := id
  getOrLaunchBrowser _ _ := .ok false
  storageGetCookies _ := .ok "cookies".toList
  parseCookiesResponse _ := .ok []

/-- A page whose storage holds one Auth0 cache entry and one plain key. -/
def workingPage : PageLib where
  evalLocalStorage _ := .ok "storage".toList
  unmarshalStorage _ := .ok [sampleAuth0Entry, plainStorageEntry]

/-- A page that does not allow script evaluation. -/
def brokenPage : PageLib where
  evalLocalStorage _ := .error "eval failed".toList
  unmarshalStorage _ := .ok []

/-- A page whose storage script returns text that is not a JSON object of strings. -/
def malformedPage : PageLib where
  evalLocalStorage _ := .ok "not json".toList
  unmarshalStorage _ := .error "invalid character".toList

/-- The configuration `GetBrowserConfig` gives for Edge with the sample browsers. -/
def sampleConfig : BrowserConfig :=
  { BrowserType := BrowserEdge, ExePath := "msedge.exe".toList,
    UserDataDir := "$LOCALAPPDATA/Microsoft/EdgeDebug".toList, DebugPort := 9222 }

/-! ## Attaching to or launching the browser: `getOrLaunchBrowser` -/

/-- What `getOrLaunchBrowser` does to the outside, in the order it does it. -/
inductive LaunchEvent where
  /-- One call of `config.IsDebugPortOpen()` and its answer. -/
  | probe (isOpen : Bool)
  /-- A successful `cmd.Start()` of the browser process. -/
  | start (exePath : GoString) (debugPort : Nat) (userDataDir : GoString)
  /-- A `time.Sleep` of the given number of milliseconds. -/
  | sleep (ms : Nat)
  /-- The call `rod.New().ControlURL(wsURL).MustConnect()`. -/
  | connect (wsURL : GoString)
  deriving DecidableEq, Repr

/-- The machine `getOrLaunchBrowser` runs on. Every answer may depend on what the
function has done so far. -/
structure LaunchLib where
  /-- The method `IsDebugPortOpen`: whether the debug port answers with status 200. -/
  isDebugPortOpen : BrowserConfig → List LaunchEvent → Bool
  /-- The method `WebSocketDebuggerURL`. -/
  webSocketDebuggerURL : BrowserConfig → List LaunchEvent → Except Error GoString
  /-- Outcome of `cmd.Start()`. -/
  cmdStart : BrowserConfig → List LaunchEvent → Except Error Unit

/-- The loop `for i := 0; i < 30; i++` of `getOrLaunchBrowser`, with `remaining = 30 - i`
iterations still allowed: sleep 500 ms, probe the port, `break` when it is open. -/
def waitLoop (lib : LaunchLib) (config : BrowserConfig) :
    Nat → List LaunchEvent → List LaunchEvent
  | 0, trace => trace
  | remaining + 1, trace =>
    let trace := trace ++ [.sleep 500]
    let isOpen := lib.isDebugPortOpen config trace
    let trace := trace ++ [.probe isOpen]
    if isOpen then trace else waitLoop lib config remaining trace

/-- The tail of `getOrLaunchBrowser`, shared by both branches: fetch the WebSocket URL
and connect. The browser handle is represented by the URL it is connected to;
`MustConnect` is taken to succeed. -/
def connectBrowser (lib : LaunchLib) (config : BrowserConfig) (trace : List LaunchEvent) :
    Except Error (GoString × Bool) × List LaunchEvent :=
  match lib.webSocketDebuggerURL config trace with
  | .error err => (.error (wrapError "failed to get WebSocket URL" err), trace)
  | .ok wsURL => (.ok (wsURL, false), trace ++ [.connect wsURL])

/-- The method `getOrLaunchBrowser`: the browser and the needs-close flag, or the error;
and the trace of what was done. -/
def BrowserAuth.getOrLaunchBrowser (lib : LaunchLib) (_b : BrowserAuth)
    (config : BrowserConfig) : Except Error (GoString × Bool) × List LaunchEvent :=
  let isOpen := lib.isDebugPortOpen config []
  let trace := [LaunchEvent.probe isOpen]
  if isOpen then
    connectBrowser lib config trace
  else
    match lib.cmdStart config trace with
    | .error err => (.error (wrapError "failed to launch browser" err), trace)
    | .ok () =>
      let trace := waitLoop lib config 30
        (trace ++ [.start config.ExePath config.DebugPort config.UserDataDir])
      let isOpen := lib.isDebugPortOpen config trace
      let trace := trace ++ [.probe isOpen]
      if !isOpen then
        (.error "browser debug port did not open after 15 seconds".toList, trace)
      else
        connectBrowser lib config trace

/-- The needs-close flag or the error of `getOrLaunchBrowser`, as `Authenticate` and
`AuthenticateAndCapture` receive it. -/
def BrowserAuth.launchOutcome (lib : LaunchLib) (b : BrowserAuth) (config : BrowserConfig) :
    Except Error Bool :=
  match (b.getOrLaunchBrowser lib config).1 with
  | .error err => .error err
  | .ok (_, needsClose) => .ok needsClose

/-- Lines 40-63 of `Authenticate`, which are lines 162-184 of `AuthenticateAndCapture`:
whether the call reaches `if needsClose` and registers `defer browser.MustClose()`. -/
def BrowserAuth.closesBrowserOnExit (env : Env) (b : BrowserAuth) (w : World)
    (targetURL : GoString) : Bool :=
  match env.urlParse targetURL with
  | .error _ => false
  | .ok _ =>
    match GetBrowserConfig env.browser b.browserType with
    | .error _ => false
    | .ok config =>
      match env.browser.getOrLaunchBrowser w.log config with
      | .error _ => false
      | .ok needsClose => if needsClose then true else false

/-- The probes of a trace, in order. -/
def probesOf : List LaunchEvent → List Bool
  | [] => []
  | .probe isOpen :: rest => isOpen :: probesOf rest
  | _ :: rest => probesOf rest

/-- The total time slept in a trace, in milliseconds. -/
def sleptMs : List LaunchEvent → Nat
  | [] => 0
  | .sleep ms :: rest => ms + sleptMs rest
  | _ :: rest => sleptMs rest

/-- The trace of loop iterations with the given probe answers. -/
def iterationsTrace (answers : List Bool) : List LaunchEvent :=
  answers.flatMap fun isOpen => [.sleep 500, .probe isOpen]

/-- A machine on which the browser already runs with its debug port open. -/
def runningLaunch : LaunchLib where
  isDebugPortOpen _ _ := true
  webSocketDebuggerURL _ _ := .ok "ws://127.0.0.1:9222/devtools/browser/1".toList
  cmdStart _ _ := .ok ()

/-- A machine on which the debug port opens once the launched browser has been given
1.5 seconds. -/
def slowLaunch : LaunchLib where
  isDebugPortOpen _ trace := decide (1500 ≤ sleptMs trace)
  webSocketDebuggerURL _ _ := .ok "ws://127.0.0.1:9222/devtools/browser/2".toList
  cmdStart _ _ := .ok ()

/-- A machine on which the launched browser never opens its debug port. -/
def deadLaunch : LaunchLib where
  isDebugPortOpen _ _ := false
  webSocketDebuggerURL _ _ := .error "connection refused".toList
  cmdStart _ _ := .ok ()

/-- The sample browser whose `getOrLaunchBrowser` is the embedded method on the given
machine. -/
def launchedBrowser (lib : LaunchLib) (b : BrowserAuth) : BrowserLib :=
  { workingBrowser with getOrLaunchBrowser := fun _ config => b.launchOutcome lib config }

/-! ## The stability detector of `Authenticate` and `AuthenticateAndCapture` -/

/-- One iteration of the stability detector past its sleep: what `page.Info()` gives
(the page URL, or the error) and the reading of the clock in that iteration. Times are
in nanoseconds. -/
structure Poll where
  info : Except Error GoString
  now : Int

/-- The variables `lastURL` and `stableTime` of the detector goroutine. `stableTime` is
`none` for the zero `time.Time` it is declared with. -/
structure DetectorState where
  lastURL : GoString := []
  stableTime : Option Int := none
  deriving DecidableEq, Repr

/-- The constant `stableThreshold`: `3 * time.Second`. -/
def stableThreshold : Int := 3 * 1000000000

/-- The largest `time.Duration`. -/
def maxDuration : Int := 2 ^ 63 - 1

/-- The call `time.Since(stableTime)` at clock reading `now`. The zero `time.Time` lies
in year 1, so the duration since it saturates at `maxDuration`. -/
def timeSince (now : Int) : Option Int → Int
  | none => maxDuration
  | some stableTime => now - stableTime

/-- The completion test of the detector in `Authenticate`:
`currentParsed.Host == originalHost && time.Since(stableTime) >= stableThreshold`. -/
def authenticateReady (originalHost : GoString) (currentParsed : URL) (st : DetectorState)
    (now : Int) : Bool :=
  currentParsed.Host == originalHost && decide (timeSince now st.stableTime ≥ stableThreshold)

/-- The completion test of the detector in `AuthenticateAndCapture`:
`isOnHost && isStable && isPastLanding`. -/
def captureReady (originalHost : GoString) (currentParsed : URL) (st : DetectorState)
    (now : Int) : Bool :=
  let isOnHost := currentParsed.Host == originalHost
  let isStable := decide (timeSince now st.stableTime ≥ stableThreshold)
  let isPastLanding :=
    currentParsed.Path != "/landing".toList && currentParsed.Path != "/landing/".toList
  isOnHost && isStable && isPastLanding

/-- How one iteration of the detector loop ends. -/
inductive DetectorStep where
  /-- The instruction `return` after `page.Info()` failed: no signal is sent. -/
  | stopped
  /-- The instruction `continue`, or the end of the loop body, with the variables as
  given. -/
  | next (st : DetectorState)
  /-- The send on `loginComplete` followed by `return`. -/
  | complete
  deriving DecidableEq, Repr

/-- The body of the detector loop past `time.Sleep`, for either completion test. -/
def detectorStep (urlParse : GoString → Except Error URL)
    (ready : URL → DetectorState → Int → Bool) (st : DetectorState) (p : Poll) :
    DetectorStep :=
  match p.info with
  | .error _ => .stopped
  | .ok currentURL =>
    match urlParse currentURL with
    | .error _ => .next st
    | .ok currentParsed =>
      if currentURL ≠ st.lastURL then
        .next { lastURL := currentURL, stableTime := some p.now }
      else if ready currentParsed st p.now then .complete
      else .next st

/-- The detector loop over the polls still to come, `i` being the number of the next
poll: the number of the poll at which completion is declared, if it is. The channel
`done` is left out: the detector runs undisturbed. -/
def runDetector (urlParse : GoString → Except Error URL)
    (ready : URL → DetectorState → Int → Bool) :
    DetectorState → List Poll → Nat → Option Nat
  | _, [], _ => none
  | st, p :: rest, i =>
    match detectorStep urlParse ready st p with
    | .stopped => none
    | .complete => some i
    | .next st => runDetector urlParse ready st rest (i + 1)

/-- The stability detector of `Authenticate`, started on a sequence of polls. -/
def authenticateDetector (urlParse : GoString → Except Error URL) (originalHost : GoString)
    (polls : List Poll) : Option Nat :=
  runDetector urlParse (authenticateReady originalHost) {} polls 0

/-- The stability detector of `AuthenticateAndCapture`, started on a sequence of polls. -/
def captureDetector (urlParse : GoString → Except Error URL) (originalHost : GoString)
    (polls : List Poll) : Option Nat :=
  runDetector urlParse (captureReady originalHost) {} polls 0

/-- Every polled URL is non-empty and is accepted by `url.Parse`. -/
def EveryURLParses (urlParse : GoString → Except Error URL) (polls : List Poll) : Prop :=
  ∀ q ∈ polls, ∀ u, q.info = .ok u → u ≠ [] ∧ ∃ parsed, urlParse u = .ok parsed

/-- The condition of the specification on the poll `i` at which completion is declared:
the polls `first`, `middle` right before it all showed the URL of poll `i` (so the
previous poll did), the poll before `first` did not (`first` is where that URL was first
observed), at least 3 seconds lie between `first` and poll `i`, and the URL's authority
is the original host. -/
def DeclaredOnStablePoll (urlParse : GoString → Except Error URL) (originalHost : GoString)
    (polls : List Poll) (i : Nat) : Prop :=
  ∃ before first middle p after url parsed,
    polls = before ++ first :: (middle ++ p :: after) ∧
    i = before.length + 1 + middle.length ∧
    first.info = .ok url ∧ (∀ q ∈ middle, q.info = .ok url) ∧ p.info = .ok url ∧
    (∀ q, before.getLast? = some q → q.info ≠ .ok url) ∧
    stableThreshold ≤ p.now - first.now ∧
    urlParse url = .ok parsed ∧ parsed.Host = originalHost

/-- The extra condition of the stricter variant: the URL of poll `i` is not the landing
path. -/
def PastLandingAt (urlParse : GoString → Except Error URL) (polls : List Poll) (i : Nat) :
    Prop :=
  ∃ p url parsed, polls[i]? = some p ∧ p.info = .ok url ∧ urlParse url = .ok parsed ∧
    parsed.Path ≠ "/landing".toList ∧ parsed.Path ≠ "/landing/".toList

/-- The page stays on the target URL: three polls, at 0 s, 1 s and 3 s. -/
def stablePolls : List Poll :=
  [{ info := .ok sampleURLText, now := 0 },
   { info := .ok sampleURLText, now := 1000000000 },
   { info := .ok sampleURLText, now := 3000000000 }]

/-- The page shows the target URL at 0 s, a URL that `url.Parse` rejects at 2 s, and the
target URL again at 4 s. -/
def interruptedPolls : List Poll :=
  [{ info := .ok sampleURLText, now := 0 },
   { info := .ok "https://app.example.com/%zz".toList, now := 2000000000 },
   { info := .ok sampleURLText, now := 4000000000 }]

/-! ## The wait for login completion: two goroutines and the caller

Lines 69-128 of `Authenticate` and 193-254 of `AuthenticateAndCapture`, as an
interleaving of three threads over the channels `loginComplete` (buffered, capacity 1)
and `done`. -/

/-- Where the calling goroutine stands: before `<-loginComplete`, between the receive
and `close(done)`, or past `close(done)`. -/
inductive CallerPc where
  | waiting
  | received
  | closed
  deriving DecidableEq, Repr

/-- Where the stability goroutine stands: at the `select` on `done` at the head of its
loop, inside the `default` branch (in `time.Sleep`, before `page.Info()`), or returned. -/
inductive StabilityPc where
  | loopHead
  | sleeping
  | exited
  deriving DecidableEq, Repr

/-- Where the manual-override goroutine stands: blocked in `reader.ReadString`, or
returned. -/
inductive ManualPc where
  | reading
  | exited
  deriving DecidableEq, Repr

/-- The state of the wait. `pollCount`, `pollsAfterClose` and `receivedCount` are
counters kept for the statements: the calls of `page.Info()`, those made after
`close(done)`, and the values the caller received. -/
structure LoginWait where
  buffered : Nat := 0
  doneClosed : Bool := false
  caller : CallerPc := .waiting
  stability : StabilityPc := .loopHead
  detector : DetectorState := {}
  manual : ManualPc := .reading
  pollCount : Nat := 0
  pollsAfterClose : Nat := 0
  receivedCount : Nat := 0
  deriving DecidableEq, Repr

/-- Which thread the scheduler lets take its next step, or what happens on standard
input. -/
inductive WaitAction where
  /-- The calling goroutine takes its next step. -/
  | caller
  /-- The stability goroutine takes its next step. -/
  | stability
  /-- A line arrives on standard input: `ReadString` returns without error. -/
  | enter
  /-- Standard input fails or ends: `ReadString` returns an error. -/
  | stdinError
  deriving DecidableEq, Repr

/-- The statement `select { case loginComplete <- true: default: }` on the channel of
capacity 1. -/
def trySend (s : LoginWait) : LoginWait :=
  if s.buffered < 1 then { s with buffered := s.buffered + 1 } else s

/-- One step of the wait; `none` when the chosen thread cannot move. `page k` is what
the `k`-th call of `page.Info()` and the clock give. -/
def LoginWait.step (urlParse : GoString → Except Error URL)
    (ready : URL → DetectorState → Int → Bool) (page : Nat → Poll) (s : LoginWait) :
    WaitAction → Option LoginWait
  | .caller =>
    match s.caller with
    | .waiting =>
      if 0 < s.buffered then
        some { s with buffered := s.buffered - 1, receivedCount := s.receivedCount + 1,
                      caller := .received }
      else none
    | .received => some { s with doneClosed := true, caller := .closed }
    | .closed => none
  | .stability =>
    match s.stability with
    | .loopHead =>
      if s.doneClosed then some { s with stability := .exited }
      else some { s with stability := .sleeping }
    | .sleeping =>
      let polled : LoginWait :=
        { s with pollCount := s.pollCount + 1,
                 pollsAfterClose :=
                   if s.doneClosed then s.pollsAfterClose + 1 else s.pollsAfterClose }
      match detectorStep urlParse ready s.detector (page s.pollCount) with
      | .stopped => some { polled with stability := .exited }
      | .next st => some { polled with detector := st, stability := .loopHead }
      | .complete => some { trySend polled with stability := .exited }
    | .exited => none
  | .enter =>
    match s.manual with
    | .reading => some { trySend s with manual := .exited }
    | .exited => none
  | .stdinError =>
    match s.manual with
    | .reading => some { s with manual := .exited }
    | .exited => none

/-- The wait under a schedule. -/
def LoginWait.run (urlParse : GoString → Except Error URL)
    (ready : URL → DetectorState → Int → Bool) (page : Nat → Poll) :
    LoginWait → List WaitAction → Option LoginWait
  | s, [] => some s
  | s, a :: schedule =>
    match s.step urlParse ready page a with
    | none => none
    | some s => LoginWait.run urlParse ready page s schedule

/-- A page that stays on the target URL, polled once a second. -/
def stablePage (k : Nat) : Poll :=
  { info := .ok sampleURLText, now := 1000000000 * (k : Int) }

/-- The stability detector wins: it polls at 0, 1, 2 and 3 seconds and declares
completion, the caller receives the signal and closes `done`, and nothing arrives on
standard input. -/
def stabilityWinsSchedule : List WaitAction :=
  [.stability, .stability, .stability, .stability, .stability, .stability, .stability,
   .stability, .caller, .caller]

/-- The manual override wins while the stability goroutine sleeps: the caller receives
the signal and closes `done`, then the stability goroutine wakes up. -/
def manualWinsSchedule : List WaitAction :=
  [.stability, .enter, .caller, .caller, .stability, .stability]

/-- What holds of the counters in every reachable state of the wait: the caller has
received nothing before its receive and one value after it, `done` is closed only past
the receive, and at most one poll is made after `close(done)`, by a stability goroutine
that was asleep at that moment. -/
def LoginWait.Consistent (s : LoginWait) : Prop :=
  (s.caller = .waiting → s.receivedCount = 0 ∧ s.doneClosed = false) ∧
  (s.caller ≠ .waiting → s.receivedCount = 1) ∧
  (s.doneClosed = false → s.pollsAfterClose = 0) ∧
  s.pollsAfterClose ≤ 1 ∧
  (s.pollsAfterClose = 1 → s.stability ≠ .sleeping)

/-! ## Lemmas on the string primitives -/

theorem hasSuffix_iff (s x : GoString) : hasSuffix s x = true ↔ ∃ pre, s = pre ++ x := by
  unfold hasSuffix
  constructor
  · intro h
    simp only [Bool.and_eq_true, decide_eq_true_eq, beq_iff_eq] at h
    refine ⟨s.take (s.length - x.length), ?_⟩
    conv_lhs => rw [← List.take_append_drop (s.length - x.length) s]
    rw [h.2]
  · rintro ⟨pre, rfl⟩
    simp

theorem trimPrefix_dot (s : GoString) : trimPrefix s ['.'] = stripLeadingDot s := by
  unfold trimPrefix hasPrefix
  cases s with
  | nil => simp [stripLeadingDot]
  | cons a t =>
    by_cases h : a = '.'
    · subst h
      simp [stripLeadingDot]
    · have : stripLeadingDot (a :: t) = a :: t := by
        unfold stripLeadingDot
        split
        · rename_i heq
          cases heq
          exact absurd rfl h
        · rfl
      simp [h, this]

theorem cookieMatchesDomain_eq (c : Cookie) (host : GoString) :
    cookieMatchesDomain c host =
      (c.Domain == [] || (stripLeadingDot c.Domain == stripLeadingDot host
        || hasSuffix (stripLeadingDot host) ('.' :: stripLeadingDot c.Domain))) := by
  unfold cookieMatchesDomain
  simp only [trimPrefix_dot]
  by_cases h1 : c.Domain = []
  · simp [h1]
  · by_cases h2 : stripLeadingDot c.Domain = stripLeadingDot host
    · simp [h1, h2]
    · cases h3 : hasSuffix (stripLeadingDot host) ('.' :: stripLeadingDot c.Domain) <;>
        simp [h1, h2, h3]

theorem cookieMatchesDomain_true_iff (c : Cookie) (host : GoString) :
    cookieMatchesDomain c host = true ↔ MatchesSpec c.Domain host := by
  rw [cookieMatchesDomain_eq]
  unfold MatchesSpec
  simp only [Bool.or_eq_true, beq_iff_eq, hasSuffix_iff]

/-! ## Domain Matcher theorems -/

/-- C1: `cookieMatchesDomain` returns true exactly when the cookie domain is empty, or,
after removing at most one leading dot from the domain and from the host, the two are
equal or the host ends with a dot followed by the domain; otherwise it returns false. -/
theorem cookieMatchesDomain_iff_spec (c : Cookie) (host : GoString) :
    (cookieMatchesDomain c host = true ↔ MatchesSpec c.Domain host) ∧
    (cookieMatchesDomain c host = false ↔ ¬ MatchesSpec c.Domain host) := by
  have key : cookieMatchesDomain c host = true ↔ MatchesSpec c.Domain host := by
    rw [cookieMatchesDomain_eq]
    unfold MatchesSpec
    simp only [Bool.or_eq_true, beq_iff_eq, hasSuffix_iff]
  refine ⟨key, ?_⟩
  rw [← key]
  cases cookieMatchesDomain c host <;> simp

/-- C2 as stated fails at the domain `.x`: with a dot prepended to the cookie domain only,
the cookie domain `..x` is matched against the host `.x` and the result is false. -/
theorem cookieMatchesDomain_dot_prepended_counterexample :
    cookieMatchesDomain { Domain := '.' :: ".x".toList } ".x".toList = false := by
  decide

/-- C2 (amended): for every domain `D`, the matcher is true for cookie domain `D` and
host `D`, and stays true when a dot is prepended to the host or to both; when a dot is
prepended to the cookie domain only, it is true exactly when `D` does not itself begin
with a dot. -/
theorem cookieMatchesDomain_self (D : GoString) :
    cookieMatchesDomain { Domain := D } D = true ∧
    cookieMatchesDomain { Domain := D } ('.' :: D) = true ∧
    cookieMatchesDomain { Domain := '.' :: D } ('.' :: D) = true ∧
    (cookieMatchesDomain { Domain := '.' :: D } D = true ↔ D.head? ≠ some '.') := by
  refine ⟨?_, ?_, ?_, ?_⟩
  · rw [cookieMatchesDomain_eq]
    simp
  · rw [cookieMatchesDomain_eq]
    simp only [Bool.or_eq_true, beq_iff_eq, hasSuffix_iff]
    cases D with
    | nil => simp
    | cons a t =>
      by_cases ha : a = '.'
      · subst ha
        right; right
        exact ⟨[], by simp [stripLeadingDot]⟩
      · right; left
        have : stripLeadingDot (a :: t) = a :: t := by
          rw [← trimPrefix_dot]
          simp [trimPrefix, hasPrefix, ha]
        rw [this]
        simp [stripLeadingDot]
  · rw [cookieMatchesDomain_eq]
    simp
  · rw [cookieMatchesDomain_eq]
    simp only [Bool.or_eq_true, beq_iff_eq, hasSuffix_iff]
    cases D with
    | nil => simp [stripLeadingDot]
    | cons a t =>
      by_cases ha : a = '.'
      · subst ha
        simp only [stripLeadingDot, List.head?_cons, ne_eq, not_true_eq_false, iff_false,
          not_or, not_exists]
        refine ⟨by simp, ?_, ?_⟩
        · intro h
          have := congrArg List.length h
          simp at this
        · intro pre h
          have := congrArg List.length h
          simp at this
          omega
      · have : stripLeadingDot (a :: t) = a :: t := by
          rw [← trimPrefix_dot]
          simp [trimPrefix, hasPrefix, ha]
        simp [stripLeadingDot, this, ha]

/-- Instance of the amended C2 at the domain `example.com`. -/
theorem cookieMatchesDomain_self_witness :
    cookieMatchesDomain { Domain := "example.com".toList } "example.com".toList = true ∧
    cookieMatchesDomain { Domain := ".example.com".toList } "example.com".toList = true :=
  ⟨(cookieMatchesDomain_self "example.com".toList).1,
   (cookieMatchesDomain_self "example.com".toList).2.2.2.2 (by decide)⟩

/-- C3: for a non-empty cookie domain `D` not beginning with a dot and a non-empty prefix
`P` not ending with a dot, the host `P ++ D` does not match the cookie domain `D`. -/
theorem cookieMatchesDomain_trailing_only (c : Cookie) (P : GoString)
    (hD : c.Domain ≠ []) (hDdot : c.Domain.head? ≠ some '.')
    (hP : P ≠ []) (hPdot : P.getLast? ≠ some '.') :
    cookieMatchesDomain c (P ++ c.Domain) = false := by
  have hstrip : stripLeadingDot c.Domain = c.Domain := by
    cases hd : c.Domain with
    | nil => exact absurd hd hD
    | cons a t =>
      rw [hd] at hDdot
      have ha : a ≠ '.' := by simpa using hDdot
      rw [← trimPrefix_dot]
      simp [trimPrefix, hasPrefix, ha]
  -- the host, after stripping, is still a non-empty prefix not ending in a dot, then `D`
  obtain ⟨Q, hQ, hQdot, hhost⟩ : ∃ Q : GoString, Q ≠ [] ∧ Q.getLast? ≠ some '.' ∧
      stripLeadingDot (P ++ c.Domain) = Q ++ c.Domain := by
    cases P with
    | nil => exact absurd rfl hP
    | cons a t =>
      by_cases ha : a = '.'
      · subst ha
        cases t with
        | nil => simp at hPdot
        | cons b u =>
          refine ⟨b :: u, by simp, ?_, by simp [stripLeadingDot]⟩
          simpa [List.getLast?_cons_cons] using hPdot
      · refine ⟨a :: t, by simp, hPdot, ?_⟩
        rw [← trimPrefix_dot]
        simp [trimPrefix, hasPrefix, ha]
  have hfalse : ¬ MatchesSpec c.Domain (P ++ c.Domain) := by
    unfold MatchesSpec
    rw [hstrip, hhost]
    rintro (h | h | ⟨pre, h⟩)
    · exact hD h
    · have hlen : 0 < Q.length := List.length_pos.mpr hQ
      have := congrArg List.length h
      rw [List.length_append] at this
      omega
    · have h1 : Q ++ c.Domain = (pre ++ ['.']) ++ c.Domain := by simp [h]
      have h2 : Q = pre ++ ['.'] := List.append_cancel_right h1
      rw [h2] at hQdot
      simp at hQdot
  cases hb : cookieMatchesDomain c (P ++ c.Domain) with
  | false => rfl
  | true => exact absurd ((cookieMatchesDomain_true_iff c (P ++ c.Domain)).mp hb) hfalse

/-- Instance of C3: `notexample.com` does not match the cookie domain `example.com`. -/
theorem cookieMatchesDomain_trailing_only_witness :
    cookieMatchesDomain { Domain := "example.com".toList }
      ("not".toList ++ "example.com".toList) = false :=
  cookieMatchesDomain_trailing_only { Domain := "example.com".toList } "not".toList
    (by decide) (by decide) (by decide) (by decide)

/-! ## Credential store theorems -/

theorem SaveCookies_ok_iff (js : JsonLib) (s : SessionManager) (w w' : World)
    (host : GoString) (cookies : List Cookie) :
    s.SaveCookies js w host cookies = (.ok (), w') ↔
      ∃ data, js.marshalIndent cookies = .ok data ∧ w.writable (s.getCookiePath host) = true ∧
        w' = { w with files := Function.update w.files (s.getCookiePath host) (some data) } := by
  unfold SessionManager.SaveCookies writeFile
  cases hm : js.marshalIndent cookies with
  | error e => simp
  | ok data =>
    cases hw : w.writable (s.getCookiePath host) with
    | false => simp [hw]
    | true =>
      simp only [hw, if_true, Prod.mk.injEq, true_and, Except.ok.injEq, exists_eq_left']
      exact eq_comm

theorem LoadCookies_of_file (js : JsonLib) (s : SessionManager) (w : World)
    (host data : GoString) (h : w.files (s.getCookiePath host) = some data) :
    s.LoadCookies js w host =
      (match js.unmarshal data with
        | .error err => .error (wrapError "failed to unmarshal cookies" err)
        | .ok cookies => .ok cookies, w) := by
  unfold SessionManager.LoadCookies statIsNotExist readFile
  simp only [h, Option.isNone_some, Bool.false_eq_true, if_false]
  cases js.unmarshal data <;> rfl

theorem LoadCookies_world (js : JsonLib) (s : SessionManager) (w : World) (host : GoString) :
    (s.LoadCookies js w host).2 = w := by
  unfold SessionManager.LoadCookies
  dsimp only
  split
  · rfl
  · split
    · rfl
    · split <;> rfl

/-- C4: `LoadCookies(H)` right after a successful `SaveCookies(H, C)` returns, with no
error, a list of the same length whose i-th cookie has the same name, value, domain,
path, secure flag, http-only flag and same-site policy as the i-th cookie of `C`
(`encoding/json` being taken to read back what it wrote for `C`). -/
theorem load_after_save (js : JsonLib) (s : SessionManager) (w w' : World) (host : GoString)
    (cookies : List Cookie)
    (hsave : s.SaveCookies js w host cookies = (.ok (), w'))
    (hjson : js.RoundTripsAt cookies) :
    ∃ loaded, s.LoadCookies js w' host = (.ok loaded, w') ∧
      loaded.length = cookies.length ∧
      ∀ (i : Nat) (h : i < cookies.length) (h' : i < loaded.length),
        SameRecorded (cookies.get ⟨i, h⟩) (loaded.get ⟨i, h'⟩) := by
  obtain ⟨data, hm, -, rfl⟩ := (SaveCookies_ok_iff js s w w' host cookies).mp hsave
  obtain ⟨loaded, hu, hall⟩ := hjson data hm
  refine ⟨loaded, ?_, hall.length_eq.symm, ?_⟩
  · rw [LoadCookies_of_file js s _ host data (by simp), hu]
  · intro i h h'
    exact List.Forall₂.get hall h h'

/-- Instance of C4: `sampleCookies` saved for `test.example.com` into the empty store. -/
theorem load_after_save_witness :
    ∃ loaded,
      sampleManager.LoadCookies sampleJson
        (sampleManager.SaveCookies sampleJson emptyWorld "test.example.com".toList
          sampleCookies).2 "test.example.com".toList =
        (.ok loaded, (sampleManager.SaveCookies sampleJson emptyWorld
          "test.example.com".toList sampleCookies).2) ∧
      loaded.length = sampleCookies.length ∧
      ∀ (i : Nat) (h : i < sampleCookies.length) (h' : i < loaded.length),
        SameRecorded (sampleCookies.get ⟨i, h⟩) (loaded.get ⟨i, h'⟩) :=
  load_after_save sampleJson sampleManager emptyWorld _ "test.example.com".toList sampleCookies
    rfl
    (by
      intro data hd
      refine ⟨sampleCookies, ?_, ?_⟩
      · have : data = "[session_id,user_pref]".toList := by
          have h2 : sampleJson.marshalIndent sampleCookies =
              .ok "[session_id,user_pref]".toList := rfl
          rw [h2] at hd
          exact (Except.ok.inj hd).symm
        subst this
        rfl
      · exact List.forall₂_same.mpr (fun c _ => ⟨rfl, rfl, rfl, rfl, rfl, rfl, rfl⟩))

/-- C9: after `SaveCookies(H, C1)` followed by a successful `SaveCookies(H, C2)`,
`LoadCookies(H)` returns exactly `C2`, whatever `C1` was and whatever the first save
did (`encoding/json` being taken to read back `C2` from what it wrote for `C2`). -/
theorem load_after_two_saves (js : JsonLib) (s : SessionManager) (w w₁ w₂ : World)
    (host : GoString) (C₁ C₂ : List Cookie) (r₁ : Except Error Unit)
    (h₁ : s.SaveCookies js w host C₁ = (r₁, w₁))
    (h₂ : s.SaveCookies js w₁ host C₂ = (.ok (), w₂))
    (hjson : ∀ data, js.marshalIndent C₂ = .ok data → js.unmarshal data = .ok C₂) :
    s.LoadCookies js w₂ host = (.ok C₂, w₂) := by
  have _ := h₁
  obtain ⟨data, hm, -, rfl⟩ := (SaveCookies_ok_iff js s w₁ w₂ host C₂).mp h₂
  rw [LoadCookies_of_file js s _ host data (by simp), hjson data hm]

/-- Instance of C9: `sampleCookies` then `otherCookies` saved for the same host. -/
theorem load_after_two_saves_witness :
    sampleManager.LoadCookies sampleJson
      (sampleManager.SaveCookies sampleJson
        (sampleManager.SaveCookies sampleJson emptyWorld "h.example.com".toList
          sampleCookies).2 "h.example.com".toList otherCookies).2 "h.example.com".toList =
      (.ok otherCookies,
        (sampleManager.SaveCookies sampleJson
          (sampleManager.SaveCookies sampleJson emptyWorld "h.example.com".toList
            sampleCookies).2 "h.example.com".toList otherCookies).2) :=
  load_after_two_saves sampleJson sampleManager emptyWorld _ _ "h.example.com".toList
    sampleCookies otherCookies _ rfl rfl
    (by
      intro data hd
      have h2 : sampleJson.marshalIndent otherCookies = .ok "[auth_token]".toList := rfl
      rw [h2] at hd
      have : data = "[auth_token]".toList := (Except.ok.inj hd).symm
      subst this
      rfl)

theorem LoadCookies_of_absent (js : JsonLib) (s : SessionManager) (w : World) (host : GoString)
    (h : w.files (s.getCookiePath host) = none) :
    s.LoadCookies js w host = (.ok [], w) := by
  unfold SessionManager.LoadCookies statIsNotExist
  simp [h]

/-- C10: for every store state and every host for which no session file exists,
`LoadCookies` returns the empty list and no error, and leaves the store unchanged. -/
theorem load_not_saved (js : JsonLib) (s : SessionManager) (w : World) (host : GoString)
    (h : w.files (s.getCookiePath host) = none) :
    s.LoadCookies js w host = (.ok [], w) := by
  unfold SessionManager.LoadCookies statIsNotExist
  simp [h]

/-- Instance of C10: loading `nonexistent.example.com` from the empty store. -/
theorem load_not_saved_witness :
    sampleManager.LoadCookies sampleJson emptyWorld "nonexistent.example.com".toList =
      (.ok [], emptyWorld) :=
  load_not_saved sampleJson sampleManager emptyWorld "nonexistent.example.com".toList rfl

/-! ## Plain request path -/

theorem addMatchingCookies_eq (req : Request) (cookies : List Cookie) (host : GoString) :
    addMatchingCookies req cookies host =
      { req with
        Cookies := req.Cookies ++ cookies.filter (fun k => cookieMatchesDomain k host) } := by
  unfold addMatchingCookies
  induction cookies generalizing req with
  | nil => simp
  | cons k ks ih =>
    simp only [List.foldl_cons]
    rw [ih]
    by_cases hk : cookieMatchesDomain k host = true
    · simp [hk, List.filter_cons]
    · simp [hk, List.filter_cons]

theorem do_eq (env : Env) (c : Client) (w : World) (req : Request) :
    c.do env w req =
      match env.urlParse (env.urlString req.URL) with
      | .error err => (.error (wrapError "failed to parse URL" err), w)
      | .ok u =>
        match (c.sessionManager.LoadCookies env.json w u.Host).1 with
        | .error err => (.error (wrapError "failed to load cookies" err), w)
        | .ok cookies =>
          (doResult (env.httpDo w.log
              { req with Cookies := req.Cookies ++
                  cookies.filter (fun k => cookieMatchesDomain k u.Host) }),
            w.record (.httpDo
              { req with Cookies := req.Cookies ++
                  cookies.filter (fun k => cookieMatchesDomain k u.Host) }
              (env.httpDo w.log
                { req with Cookies := req.Cookies ++
                    cookies.filter (fun k => cookieMatchesDomain k u.Host) }))) := by
  unfold Client.do
  cases hu : env.urlParse (env.urlString req.URL) with
  | error e => rfl
  | ok u =>
    simp only []
    have hw := LoadCookies_world env.json c.sessionManager w u.Host
    rcases hl : c.sessionManager.LoadCookies env.json w u.Host with ⟨r, w'⟩
    rw [hl] at hw
    simp only at hw
    subst hw
    cases r with
    | error e => rfl
    | ok cookies =>
      simp only [addMatchingCookies_eq, doResult]
      cases env.httpDo w'.log _ with
      | error e => rfl
      | ok resp => simp

theorem do_of_parse_error (env : Env) (c : Client) (w : World) (req : Request) (e : Error)
    (hu : env.urlParse (env.urlString req.URL) = .error e) :
    c.do env w req = (.error (wrapError "failed to parse URL" e), w) := by
  rw [do_eq, hu]

theorem do_of_load_error (env : Env) (c : Client) (w : World) (req : Request) (u : URL)
    (e : Error) (hu : env.urlParse (env.urlString req.URL) = .ok u)
    (hl : (c.sessionManager.LoadCookies env.json w u.Host).1 = .error e) :
    c.do env w req = (.error (wrapError "failed to load cookies" e), w) := by
  rw [do_eq, hu]
  simp only [hl]

theorem do_of_load_ok (env : Env) (c : Client) (w : World) (req : Request) (u : URL)
    (cookies : List Cookie) (hu : env.urlParse (env.urlString req.URL) = .ok u)
    (hl : (c.sessionManager.LoadCookies env.json w u.Host).1 = .ok cookies) :
    c.do env w req =
      (doResult (env.httpDo w.log
          { req with Cookies := req.Cookies ++
              cookies.filter (fun k => cookieMatchesDomain k u.Host) }),
        w.record (.httpDo
          { req with Cookies := req.Cookies ++
              cookies.filter (fun k => cookieMatchesDomain k u.Host) }
          (env.httpDo w.log
            { req with Cookies := req.Cookies ++
                cookies.filter (fun k => cookieMatchesDomain k u.Host) }))) := by
  rw [do_eq, hu]
  simp only [hl]

/-- C5: when the request's host is `u.Host` and `cookies` is the list stored for it, the
request `do` hands to the transport is the original one with exactly the stored cookies
that `cookieMatchesDomain` accepts for that host appended, in stored order. -/
theorem do_attaches_matching (env : Env) (c : Client) (w : World) (req : Request) (u : URL)
    (cookies : List Cookie)
    (hurl : env.urlParse (env.urlString req.URL) = .ok u)
    (hload : (c.sessionManager.LoadCookies env.json w u.Host).1 = .ok cookies) :
    (c.do env w req).2.log = w.log ++
      [Event.httpDo
        { req with Cookies := req.Cookies ++
            cookies.filter (fun k => cookieMatchesDomain k u.Host) }
        (env.httpDo w.log
          { req with Cookies := req.Cookies ++
              cookies.filter (fun k => cookieMatchesDomain k u.Host) })] := by
  rw [do_of_load_ok env c w req u cookies hurl hload]
  rfl

/-- Instance of C5: of the two cookies cached for `app.example.com`, the one for
`.example.com` is attached and the one for `other.com` is not. -/
theorem do_attaches_matching_witness :
    (sampleClient.do (sampleEnv workingBrowser server200) cachedWorld sampleRequest).2.log =
      [Event.httpDo
        { sampleRequest with
          Cookies := [{ Name := "session_id".toList, Value := "abc123".toList,
                        Domain := ".example.com".toList, Path := "/".toList,
                        Secure := true, HttpOnly := true }] }
        (.ok { StatusCode := 200, Body := "ok".toList })] :=
  do_attaches_matching (sampleEnv workingBrowser server200) sampleClient cachedWorld
    sampleRequest sampleURL sampleCookies rfl rfl

theorem plainRun_of_error (w : World) (e : Error) : PlainRun w (.error e, w) :=
  ⟨[], by simp, rfl, rfl, by simp [httpCount], by simp⟩

theorem do_plainRun (env : Env) (c : Client) (w : World) (req : Request) :
    PlainRun w (c.do env w req) := by
  cases hu : env.urlParse (env.urlString req.URL) with
  | error e =>
    rw [do_of_parse_error env c w req e hu]
    exact plainRun_of_error w _
  | ok u =>
    cases hl : (c.sessionManager.LoadCookies env.json w u.Host).1 with
    | error e =>
      rw [do_of_load_error env c w req u e hu hl]
      exact plainRun_of_error w _
    | ok cookies =>
      rw [do_of_load_ok env c w req u cookies hu hl]
      refine ⟨[_], rfl, rfl, by simp [authCount, Event.isAuth],
        by simp [httpCount, Event.isHttp], ?_⟩
      intro r resp hmem
      simp only [List.mem_singleton, Event.httpDo.injEq] at hmem
      simp only [← hmem.2, doResult]

theorem plainRun_of_newRequest (env : Env) (c : Client) (w : World)
    (mk : Except Error Request) :
    PlainRun w (match mk with
      | .error err => (.error (wrapError "failed to create request" err), w)
      | .ok req => c.do env w req) := by
  cases mk with
  | error e => exact plainRun_of_error w _
  | ok req => exact do_plainRun env c w req

/-- C8 as stated fails: with a malformed session file for the request's host, `do` fails
to load the cookies, issues no HTTP request and returns an error, although the server
would have answered. -/
theorem do_malformed_store_counterexample :
    httpCount (sampleClient.do (sampleEnv workingBrowser server401) malformedWorld
      sampleRequest).2.log = 0 ∧
    (sampleClient.do (sampleEnv workingBrowser server401) malformedWorld sampleRequest).1 =
      .error "failed to load cookies: failed to unmarshal cookies: invalid character".toList :=
  ⟨rfl, rfl⟩

/-- C8 (amended): `do`, `Get`, `Post`, `Put` and `Delete` never call `Authenticate`,
leave the files untouched and issue at most one HTTP request; whenever the transport
returns a response it is the result, unchanged and with no error, whatever its status
code (401 included); and `do` issues exactly one request when the request URL parses
and the cookies stored for its host load. -/
theorem plain_path_no_retry (env : Env) (c : Client) (w : World) :
    (∀ req, PlainRun w (c.do env w req)) ∧
    (∀ targetURL, PlainRun w (c.Get env w targetURL)) ∧
    (∀ targetURL contentType body, PlainRun w (c.Post env w targetURL contentType body)) ∧
    (∀ targetURL contentType body, PlainRun w (c.Put env w targetURL contentType body)) ∧
    (∀ targetURL, PlainRun w (c.Delete env w targetURL)) ∧
    (∀ req u cookies, env.urlParse (env.urlString req.URL) = .ok u →
      (c.sessionManager.LoadCookies env.json w u.Host).1 = .ok cookies →
      ∃ sent, (c.do env w req).2.log = w.log ++ [Event.httpDo sent (env.httpDo w.log sent)] ∧
        (c.do env w req).1 = doResult (env.httpDo w.log sent)) := by
  refine ⟨do_plainRun env c w, ?_, ?_, ?_, ?_, ?_⟩
  · intro targetURL
    exact plainRun_of_newRequest env c w _
  · intro targetURL contentType body
    exact plainRun_of_newRequest env c w _
  · intro targetURL contentType body
    exact plainRun_of_newRequest env c w _
  · intro targetURL
    exact plainRun_of_newRequest env c w _
  · intro req u cookies hurl hload
    rw [do_of_load_ok env c w req u cookies hurl hload]
    exact ⟨_, rfl, rfl⟩

/-- Instance of the amended C8: against a server answering 401, `do` issues one request
and returns the 401 response itself, with no error. -/
theorem plain_path_no_retry_witness :
    ∃ sent,
      (sampleClient.do (sampleEnv workingBrowser server401) cachedWorld sampleRequest).2.log =
        cachedWorld.log ++ [Event.httpDo sent
          (.ok { StatusCode := 401, Body := "unauthorized".toList })] ∧
      (sampleClient.do (sampleEnv workingBrowser server401) cachedWorld sampleRequest).1 =
        .ok { StatusCode := 401, Body := "unauthorized".toList } :=
  (plain_path_no_retry (sampleEnv workingBrowser server401) sampleClient cachedWorld).2.2.2.2.2
    sampleRequest sampleURL sampleCookies rfl rfl

/-! ## The `*WithAuth` methods -/

theorem GetWithAuth_eq (env : Env) (c : Client) (w : World) (targetURL : GoString) :
    c.GetWithAuth env w targetURL =
      c.withAuth env w targetURL (newRequest env "GET".toList targetURL [] none) := by
  unfold Client.GetWithAuth Client.withAuth Client.withAuthCore
  rfl

theorem PostWithAuth_eq (env : Env) (c : Client) (w : World)
    (targetURL contentType body : GoString) :
    c.PostWithAuth env w targetURL contentType body =
      c.withAuth env w targetURL
        (newRequest env "POST".toList targetURL contentType (some body)) := by
  unfold Client.PostWithAuth Client.withAuth Client.withAuthCore
  rfl

theorem SaveCookies_log (js : JsonLib) (s : SessionManager) (w : World) (host : GoString)
    (cookies : List Cookie) : (s.SaveCookies js w host cookies).2.log = w.log := by
  unfold SessionManager.SaveCookies writeFile
  cases js.marshalIndent cookies with
  | error e => rfl
  | ok data =>
    cases hw : w.writable (s.getCookiePath host) <;> simp [hw]

theorem authenticateFlow_log (env : Env) (b : BrowserAuth) (w : World) (targetURL : GoString) :
    (b.authenticateFlow env w targetURL).2.log = w.log := by
  unfold BrowserAuth.authenticateFlow
  cases env.urlParse targetURL with
  | error e => rfl
  | ok u =>
    dsimp only
    cases GetBrowserConfig env.browser b.browserType with
    | error e => rfl
    | ok config =>
      dsimp only
      cases env.browser.getOrLaunchBrowser w.log config with
      | error e => rfl
      | ok needsClose =>
        dsimp only
        cases b.extractCookies env.browser w.log u.Host with
        | error e => rfl
        | ok cookies =>
          dsimp only
          by_cases hc : cookies.length = 0
          · simp only [hc, if_true]
          · simp only [hc, if_false]
            have h := SaveCookies_log env.json b.sessionManager w u.Host cookies
            rcases hs : b.sessionManager.SaveCookies env.json w u.Host cookies with ⟨r, w'⟩
            rw [hs] at h
            cases r with
            | error e => exact h
            | ok x => exact h

theorem Authenticate_log (env : Env) (b : BrowserAuth) (w : World) (targetURL : GoString) :
    (b.Authenticate env w targetURL).2.log =
      w.log ++ [.authenticate targetURL (b.Authenticate env w targetURL).1] := by
  unfold BrowserAuth.Authenticate World.record
  simp only [authenticateFlow_log]

/-- What one call of `do` logs and returns. -/
theorem do_shape (env : Env) (c : Client) (w : World) (req : Request) :
    ((c.do env w req).2.log = w.log ∧ ∃ e, (c.do env w req).1 = .error e) ∨
    ∃ sent res, SameRequestLine req sent ∧
      (c.do env w req).2.log = w.log ++ [.httpDo sent res] ∧
      (c.do env w req).1 = doResult res := by
  cases hu : env.urlParse (env.urlString req.URL) with
  | error e =>
    rw [do_of_parse_error env c w req e hu]
    exact Or.inl ⟨rfl, _, rfl⟩
  | ok u =>
    cases hl : (c.sessionManager.LoadCookies env.json w u.Host).1 with
    | error e =>
      rw [do_of_load_error env c w req u e hu hl]
      exact Or.inl ⟨rfl, _, rfl⟩
    | ok cookies =>
      rw [do_of_load_ok env c w req u cookies hu hl]
      refine Or.inr ⟨_, _, ?_, rfl, rfl⟩
      exact ⟨rfl, rfl, rfl, rfl⟩

theorem withAuthCore_shape (env : Env) (c : Client) (w : World) (targetURL : GoString)
    (mk : Except Error Request) :
    ∃ evs, (c.withAuthCore env w targetURL mk).2.log = w.log ++ evs ∧
      CoreRun targetURL evs (c.withAuthCore env w targetURL mk).1 := by
  unfold Client.withAuthCore
  cases mk with
  | error e => exact ⟨[], by simp, CoreRun.notSent _⟩
  | ok req =>
    dsimp only
    have hd := do_shape env c w req
    rcases hdo : c.do env w req with ⟨r, w₁⟩
    rw [hdo] at hd
    dsimp only at hd
    rcases hd with ⟨hlog, e, he⟩ | ⟨sent, res, hsame, hlog, hres⟩
    · subst he
      exact ⟨[], by simp [hlog], CoreRun.notSent _⟩
    · subst hres
      cases res with
      | error e =>
        refine ⟨[.httpDo sent (.error e)], hlog, ?_⟩
        exact CoreRun.sent sent (.error e) (by intro resp h; cases h)
      | ok resp =>
        simp only [doResult]
        by_cases h401 : resp.StatusCode = StatusUnauthorized
        · simp only [h401, if_true]
          have ha := Authenticate_log env c.browserAuth w₁ targetURL
          rcases hau : c.browserAuth.Authenticate env w₁ targetURL with ⟨ra, w₂⟩
          rw [hau] at ha
          dsimp only at ha
          cases ra with
          | error e =>
            refine ⟨[.httpDo sent (.ok resp), .authenticate targetURL (.error e)], ?_, ?_⟩
            · simp [ha, hlog]
            · exact CoreRun.reauthFailed sent resp e h401
          | ok u =>
            cases u
            dsimp only
            have hd₂ := do_shape env c w₂ req
            rcases hd₂ with ⟨hlog₂, e, he⟩ | ⟨sent₂, res₂, hsame₂, hlog₂, hres₂⟩
            · refine ⟨[.httpDo sent (.ok resp), .authenticate targetURL (.ok ())], ?_, ?_⟩
              · simp [hlog₂, ha, hlog]
              · rw [he]
                exact CoreRun.retryNotSent sent resp e h401
            · refine ⟨[.httpDo sent (.ok resp), .authenticate targetURL (.ok ()),
                .httpDo sent₂ res₂], ?_, ?_⟩
              · simp [hlog₂, ha, hlog]
              · rw [hres₂]
                refine CoreRun.retried sent resp sent₂ res₂ h401 ?_
                obtain ⟨a1, a2, a3, a4⟩ := hsame
                obtain ⟨b1, b2, b3, b4⟩ := hsame₂
                exact ⟨a1.symm.trans b1, a2.symm.trans b2, a3.symm.trans b3, a4.symm.trans b4⟩
        · simp only [h401, if_false]
          refine ⟨[.httpDo sent (.ok resp)], hlog, ?_⟩
          exact CoreRun.sent sent (.ok resp)
            (by intro r h; cases h; exact h401)

theorem withAuth_shape (env : Env) (c : Client) (w : World) (targetURL : GoString)
    (mk : Except Error Request) (u : URL) (cookies : List Cookie)
    (hurl : env.urlParse targetURL = .ok u)
    (hload : (c.sessionManager.LoadCookies env.json w u.Host).1 = .ok cookies) :
    ∃ evs, (c.withAuth env w targetURL mk).2.log =
        w.log ++ ((if cookies.length = 0 then
          [.authenticate targetURL (c.browserAuth.Authenticate env w targetURL).1] else []) ++ evs) ∧
      CoreRun targetURL evs (c.withAuth env w targetURL mk).1 ∧
      (cookies.length = 0 → ∀ e, (c.browserAuth.Authenticate env w targetURL).1 = .error e →
        evs = [] ∧
        (c.withAuth env w targetURL mk).1 = .error (wrapError "authentication failed" e)) := by
  have hl : c.sessionManager.LoadCookies env.json w u.Host = (.ok cookies, w) :=
    Prod.ext hload (LoadCookies_world env.json c.sessionManager w u.Host)
  unfold Client.withAuth
  rw [hurl]
  dsimp only
  rw [hl]
  dsimp only
  by_cases hc : cookies.length = 0
  · simp only [hc, if_true]
    have ha := Authenticate_log env c.browserAuth w targetURL
    rcases hau : c.browserAuth.Authenticate env w targetURL with ⟨ra, w₁⟩
    rw [hau] at ha
    dsimp only at ha
    cases ra with
    | error e =>
      refine ⟨[], by simp [ha], CoreRun.notSent _, ?_⟩
      intro _ e' he'
      cases he'
      exact ⟨rfl, rfl⟩
    | ok x =>
      cases x
      dsimp only
      obtain ⟨evs, hlog, hrun⟩ := withAuthCore_shape env c w₁ targetURL mk
      refine ⟨evs, by simp [hlog, ha], hrun, ?_⟩
      intro _ e' he'
      cases he'
  · simp only [hc, if_false]
    obtain ⟨evs, hlog, hrun⟩ := withAuthCore_shape env c w targetURL mk
    exact ⟨evs, by simp [hlog], hrun, fun h => False.elim h⟩

theorem withAuth_run (env : Env) (c : Client) (w : World) (targetURL : GoString)
    (mk : Except Error Request) :
    ∃ ini evs, (c.withAuth env w targetURL mk).2.log = w.log ++ (ini ++ evs) ∧
      (∀ x ∈ ini, Event.isHttp x = false) ∧
      CoreRun targetURL evs (c.withAuth env w targetURL mk).1 := by
  cases hurl : env.urlParse targetURL with
  | error e =>
    refine ⟨[], [], ?_, by simp, ?_⟩
    · unfold Client.withAuth
      rw [hurl]
      simp
    · unfold Client.withAuth
      rw [hurl]
      exact CoreRun.notSent _
  | ok u =>
    cases hload : (c.sessionManager.LoadCookies env.json w u.Host).1 with
    | error e =>
      have hl : c.sessionManager.LoadCookies env.json w u.Host = (.error e, w) :=
        Prod.ext hload (LoadCookies_world env.json c.sessionManager w u.Host)
      refine ⟨[], [], ?_, by simp, ?_⟩
      · unfold Client.withAuth
        rw [hurl]
        dsimp only
        rw [hl]
        simp
      · unfold Client.withAuth
        rw [hurl]
        dsimp only
        rw [hl]
        exact CoreRun.notSent _
    | ok cookies =>
      obtain ⟨evs, hlog, hrun, -⟩ := withAuth_shape env c w targetURL mk u cookies hurl hload
      refine ⟨_, evs, hlog, ?_, hrun⟩
      intro x hx
      split at hx
      · simp only [List.mem_singleton] at hx
        subst hx
        rfl
      · simp at hx

theorem firstHttp_append_of_noHttp (ini evs : List Event)
    (h : ∀ x ∈ ini, Event.isHttp x = false) : firstHttp (ini ++ evs) = firstHttp evs := by
  induction ini with
  | nil => rfl
  | cons x xs ih =>
    have hx := h x (List.mem_cons_self x xs)
    cases x with
    | httpDo req res => simp [Event.isHttp] at hx
    | authenticate t r =>
      simp only [List.cons_append, firstHttp]
      exact ih (fun y hy => h y (List.mem_cons_of_mem _ hy))

theorem httpCount_append_of_noHttp (ini evs : List Event)
    (h : ∀ x ∈ ini, Event.isHttp x = false) : httpCount (ini ++ evs) = httpCount evs := by
  unfold httpCount
  rw [List.countP_append]
  have : List.countP Event.isHttp ini = 0 := by
    rw [List.countP_eq_zero]
    intro x hx
    simp [h x hx]
  omega

theorem retries_of_run (targetURL : GoString) (w : World)
    (out : Except Error Response × World) (ini evs : List Event)
    (hlog : out.2.log = w.log ++ (ini ++ evs))
    (hini : ∀ x ∈ ini, Event.isHttp x = false)
    (hrun : CoreRun targetURL evs out.1) :
    RetriesAtMostOnce targetURL w out := by
  obtain ⟨res, w'⟩ := out
  dsimp only at hlog hrun
  refine ⟨ini ++ evs, hlog, ?_, ?_⟩
  · rw [httpCount_append_of_noHttp ini evs hini]
    cases hrun <;> simp [httpCount, Event.isHttp]
  · intro req resp post hfirst h401
    rw [firstHttp_append_of_noHttp ini evs hini] at hfirst
    cases hrun with
    | notSent e => simp [firstHttp] at hfirst
    | sent r res h =>
      simp only [firstHttp, Option.some.injEq, Prod.mk.injEq] at hfirst
      exact absurd h401 (h resp hfirst.2.1)
    | reauthFailed r rs e h =>
      simp only [firstHttp, Option.some.injEq, Prod.mk.injEq] at hfirst
      obtain ⟨-, -, rfl⟩ := hfirst
      refine ⟨.error e, [], rfl, rfl, ?_, ?_⟩
      · intro e' he'
        cases he'
        exact ⟨rfl, rfl⟩
      · intro h'
        cases h'
    | retryNotSent r rs e h =>
      simp only [firstHttp, Option.some.injEq, Prod.mk.injEq] at hfirst
      obtain ⟨-, -, rfl⟩ := hfirst
      refine ⟨.ok (), [], rfl, rfl, ?_, ?_⟩
      · intro e' he'
        cases he'
      · intro _
        exact Or.inl ⟨rfl, e, rfl⟩
    | retried r rs r₂ res₂ h hsame =>
      simp only [firstHttp, Option.some.injEq, Prod.mk.injEq] at hfirst
      obtain ⟨rfl, -, rfl⟩ := hfirst
      refine ⟨.ok (), [.httpDo r₂ res₂], rfl, by simp [authCount, Event.isAuth], ?_, ?_⟩
      · intro e' he'
        cases he'
      · intro _
        exact Or.inr ⟨r₂, res₂, rfl, hsame, rfl⟩

theorem withAuth_retries (env : Env) (c : Client) (w : World) (targetURL : GoString)
    (mk : Except Error Request) :
    RetriesAtMostOnce targetURL w (c.withAuth env w targetURL mk) := by
  obtain ⟨ini, evs, hlog, hini, hrun⟩ := withAuth_run env c w targetURL mk
  exact retries_of_run targetURL w _ ini evs hlog hini hrun

theorem coreRun_head_isHttp (targetURL : GoString) (evs : List Event)
    (r : Except Error Response) (h : CoreRun targetURL evs r) :
    ∀ e rest, evs = e :: rest → e.isHttp = true := by
  intro e rest heq
  cases h <;> simp at heq <;> (rw [← heq.1]; rfl)

theorem withAuth_order (env : Env) (c : Client) (w : World) (targetURL : GoString)
    (mk : Except Error Request) (u : URL) (cookies : List Cookie)
    (hurl : env.urlParse targetURL = .ok u)
    (hload : (c.sessionManager.LoadCookies env.json w u.Host).1 = .ok cookies) :
    AuthBeforeRequest env c targetURL w cookies (c.withAuth env w targetURL mk) := by
  obtain ⟨evs, hlog, hrun, hfail⟩ := withAuth_shape env c w targetURL mk u cookies hurl hload
  refine ⟨_, hlog, ?_, ?_⟩
  · intro hc
    have hc' : cookies.length = 0 := by simp [hc]
    refine ⟨evs, by simp [hc'], ?_⟩
    intro e he
    exact hfail hc' e he
  · intro hc
    have hc' : ¬ cookies.length = 0 := by
      intro h
      exact hc (List.length_eq_zero.mp h)
    simp only [hc', if_false, List.nil_append]
    exact coreRun_head_isHttp targetURL evs _ hrun

/-- C6 as stated fails: with a session cached, a server answering 401 and a browser that
cannot be reached, `GetWithAuth` gets 401 on its first request, fails to re-authenticate
and returns that error; the request is not retried (one HTTP request in all). -/
theorem getWithAuth_reauth_failure_counterexample :
    (firstHttp (sampleClient.GetWithAuth (sampleEnv brokenBrowser server401) cachedWorld
        sampleURLText).2.log).map (fun t => t.2.1) =
      some (.ok { StatusCode := 401, Body := "unauthorized".toList }) ∧
    httpCount (sampleClient.GetWithAuth (sampleEnv brokenBrowser server401) cachedWorld
      sampleURLText).2.log = 1 ∧
    (sampleClient.GetWithAuth (sampleEnv brokenBrowser server401) cachedWorld
      sampleURLText).1 =
      .error ("re-authentication failed: failed to get browser: " ++
        "browser debug port did not open after 15 seconds").toList :=
  ⟨rfl, rfl, rfl⟩

/-- C6 (amended): in `GetWithAuth` and `PostWithAuth` at most two HTTP requests are
issued in every execution; when the first response is 401, `Authenticate` is called
exactly once more; if that call fails the re-authentication error is returned and the
request is not retried; if it succeeds the request is passed to `do` once more, which
issues at most one further request, and its outcome is returned as it is, a retry
response being returned unchanged even when it is also 401. -/
theorem withAuth_retries_at_most_once (env : Env) (c : Client) (w : World)
    (targetURL contentType body : GoString) :
    RetriesAtMostOnce targetURL w (c.GetWithAuth env w targetURL) ∧
    RetriesAtMostOnce targetURL w (c.PostWithAuth env w targetURL contentType body) := by
  rw [GetWithAuth_eq, PostWithAuth_eq]
  exact ⟨withAuth_retries env c w targetURL _, withAuth_retries env c w targetURL _⟩

/-- Instance of the amended C6: a cached session, a working browser and a server that
answers 401 to every request. -/
theorem withAuth_retries_at_most_once_witness :
    RetriesAtMostOnce sampleURLText cachedWorld
      (sampleClient.GetWithAuth (sampleEnv workingBrowser server401) cachedWorld
        sampleURLText) :=
  (withAuth_retries_at_most_once (sampleEnv workingBrowser server401) sampleClient cachedWorld
    sampleURLText [] []).1

/-- The run of the instance above: request, re-authentication, one retry, and the
second 401 response returned as it is. -/
theorem getWithAuth_retry_run :
    httpCount (sampleClient.GetWithAuth (sampleEnv workingBrowser server401) cachedWorld
      sampleURLText).2.log = 2 ∧
    authCount (sampleClient.GetWithAuth (sampleEnv workingBrowser server401) cachedWorld
      sampleURLText).2.log = 1 ∧
    (sampleClient.GetWithAuth (sampleEnv workingBrowser server401) cachedWorld
      sampleURLText).1 = .ok { StatusCode := 401, Body := "unauthorized".toList } :=
  ⟨rfl, rfl, rfl⟩

/-- C7: in `GetWithAuth` and `PostWithAuth`, when no cookies are cached for the URL's
host, `Authenticate` is invoked before any HTTP request, and if it fails no HTTP request
is sent and an error is returned; when at least one cookie is cached, the first action,
if any, is the HTTP request, so `Authenticate` is not invoked before it. -/
theorem withAuth_authenticates_first (env : Env) (c : Client) (w : World)
    (targetURL : GoString) (u : URL) (cookies : List Cookie)
    (hurl : env.urlParse targetURL = .ok u)
    (hload : (c.sessionManager.LoadCookies env.json w u.Host).1 = .ok cookies) :
    AuthBeforeRequest env c targetURL w cookies (c.GetWithAuth env w targetURL) ∧
    ∀ contentType body,
      AuthBeforeRequest env c targetURL w cookies
        (c.PostWithAuth env w targetURL contentType body) := by
  refine ⟨?_, ?_⟩
  · rw [GetWithAuth_eq]
    exact withAuth_order env c w targetURL _ u cookies hurl hload
  · intro contentType body
    rw [PostWithAuth_eq]
    exact withAuth_order env c w targetURL _ u cookies hurl hload

/-- Instance of C7: an empty store and a browser that cannot be reached. -/
theorem withAuth_authenticates_first_witness :
    AuthBeforeRequest (sampleEnv brokenBrowser server200) sampleClient sampleURLText
      emptyWorld []
      (sampleClient.GetWithAuth (sampleEnv brokenBrowser server200) emptyWorld sampleURLText) :=
  (withAuth_authenticates_first (sampleEnv brokenBrowser server200) sampleClient emptyWorld
    sampleURLText sampleURL [] rfl rfl).1

/-- The run of the instance above: the failed authentication is the only action, no
HTTP request is sent, and the error is returned. -/
theorem getWithAuth_no_session_run :
    httpCount (sampleClient.GetWithAuth (sampleEnv brokenBrowser server200) emptyWorld
      sampleURLText).2.log = 0 ∧
    authCount (sampleClient.GetWithAuth (sampleEnv brokenBrowser server200) emptyWorld
      sampleURLText).2.log = 1 ∧
    (sampleClient.GetWithAuth (sampleEnv brokenBrowser server200) emptyWorld
      sampleURLText).1 =
      .error ("authentication failed: failed to get browser: " ++
        "browser debug port did not open after 15 seconds").toList :=
  ⟨rfl, rfl, rfl⟩

/-! ## Token output theorems -/

theorem foldl_snoc_eq_map {α β : Type} (f : α → β) (l : List α) (acc : List β) :
    l.foldl (fun parts c => parts ++ [f c]) acc = acc ++ l.map f := by
  induction l generalizing acc with
  | nil => simp
  | cons a t ih => simp [ih]

theorem stringsJoin_pairs (cookies : List Cookie) :
    stringsJoin (cookies.map fun c => c.Name ++ "=".toList ++ c.Value) "; ".toList =
      cookiePairsText cookies := by
  induction cookies with
  | nil => rfl
  | cons c rest ih =>
    cases rest with
    | nil => simp [stringsJoin, cookiePairsText]
    | cons d rest' =>
      simp only [List.map_cons, stringsJoin, cookiePairsText] at ih ⊢
      rw [ih]
      simp

theorem FormatTokenOutput_eq (jwt : GoString) (cookies : List Cookie) :
    FormatTokenOutput jwt cookies =
      stringsJoin
        ((if jwt ≠ [] then ["JWT=".toList ++ jwt] else []) ++
          (if cookies ≠ [] then ["COOKIE=".toList ++ cookiePairsText cookies] else []))
        ['\n'] := by
  unfold FormatTokenOutput
  simp only [foldl_snoc_eq_map, List.nil_append, stringsJoin_pairs]
  by_cases hj : jwt = []
  · by_cases hc : cookies = []
    · simp [hj, hc]
    · have : cookies.length > 0 := List.length_pos.mpr hc
      simp [hj, hc, this]
  · by_cases hc : cookies = []
    · simp [hj, hc]
    · have : cookies.length > 0 := List.length_pos.mpr hc
      simp [hj, hc, this]

theorem FormatTokenOutput_cases (jwt : GoString) (cookies : List Cookie) :
    FormatTokenOutput jwt cookies =
      if jwt ≠ [] ∧ cookies ≠ [] then
        "JWT=".toList ++ jwt ++ ['\n'] ++ ("COOKIE=".toList ++ cookiePairsText cookies)
      else if jwt ≠ [] then
        "JWT=".toList ++ jwt
      else if cookies ≠ [] then
        "COOKIE=".toList ++ cookiePairsText cookies
      else
        [] := by
  rw [FormatTokenOutput_eq]
  by_cases hj : jwt = []
  · by_cases hc : cookies = []
    · simp [hj, hc, stringsJoin]
    · simp [hj, hc, stringsJoin]
  · by_cases hc : cookies = []
    · simp [hj, hc, stringsJoin]
    · simp [hj, hc, stringsJoin]

/-- C18: `FormatTokenOutput(T, C)` is the `JWT=` line (when `T` is non-empty) and the
`COOKIE=` line with the `name=value` pairs joined by `"; "` (when `C` is non-empty),
joined by a single newline with no trailing newline; it is empty when both are absent. -/
theorem FormatTokenOutput_eq_spec (jwt : GoString) (cookies : List Cookie) :
    FormatTokenOutput jwt cookies = FormatSpec jwt cookies := by
  rw [FormatTokenOutput_eq]
  unfold FormatSpec
  by_cases hj : jwt = []
  · by_cases hc : cookies = []
    · simp [hj, hc, stringsJoin]
    · simp [hj, hc, stringsJoin]
  · by_cases hc : cookies = []
    · simp [hj, hc, stringsJoin]
    · simp [hj, hc, stringsJoin]

/-- The test `TestFormatTokenOutput_BothPresent`, as an equation. -/
theorem FormatTokenOutput_both_present :
    FormatTokenOutput "tok".toList
      [{ Name := "a".toList, Value := "1".toList }, { Name := "b".toList, Value := "2".toList }] =
      "JWT=tok".toList ++ ['\n'] ++ "COOKIE=a=1; b=2".toList := by
  decide

theorem hasPrefix_cons_of_ne (c d : Char) (rest sub : GoString) (h : c ≠ d) :
    hasPrefix (c :: rest) (d :: sub) = false := by
  unfold hasPrefix
  simp [List.take, h]

theorem hasPrefix_append_self (p s : GoString) : hasPrefix (p ++ s) p = true := by
  unfold hasPrefix
  simp

theorem stringsContains_cons (c : Char) (rest sub : GoString) :
    stringsContains (c :: rest) sub = (hasPrefix (c :: rest) sub || stringsContains rest sub) := by
  simp [stringsContains]

theorem stringsContains_cookie_line (text : GoString) :
    stringsContains ("COOKIE=".toList ++ text) "JWT=".toList =
      stringsContains text "JWT=".toList := by
  have h1 : "COOKIE=".toList = ['C', 'O', 'O', 'K', 'I', 'E', '='] := rfl
  have h2 : "JWT=".toList = 'J' :: ['W', 'T', '='] := rfl
  rw [h1, h2]
  simp only [List.cons_append, List.nil_append, stringsContains_cons]
  rw [hasPrefix_cons_of_ne _ _ _ _ (by decide), hasPrefix_cons_of_ne _ _ _ _ (by decide),
    hasPrefix_cons_of_ne _ _ _ _ (by decide), hasPrefix_cons_of_ne _ _ _ _ (by decide),
    hasPrefix_cons_of_ne _ _ _ _ (by decide), hasPrefix_cons_of_ne _ _ _ _ (by decide),
    hasPrefix_cons_of_ne _ _ _ _ (by decide)]
  simp

theorem stringsContains_jwt_line (text : GoString) :
    stringsContains ("JWT=".toList ++ text) "COOKIE=".toList =
      stringsContains text "COOKIE=".toList := by
  have h1 : "JWT=".toList = ['J', 'W', 'T', '='] := rfl
  have h2 : "COOKIE=".toList = 'C' :: ['O', 'O', 'K', 'I', 'E', '='] := rfl
  rw [h1, h2]
  simp only [List.cons_append, List.nil_append, stringsContains_cons]
  rw [hasPrefix_cons_of_ne _ _ _ _ (by decide), hasPrefix_cons_of_ne _ _ _ _ (by decide),
    hasPrefix_cons_of_ne _ _ _ _ (by decide), hasPrefix_cons_of_ne _ _ _ _ (by decide)]
  simp

/-- C19 as stated fails: with an empty token and a cookie named `JWT` the output
`COOKIE=JWT=x` contains `JWT=`; and with no cookies and the token `COOKIE=1` the output
`JWT=COOKIE=1` contains `COOKIE=`. -/
theorem FormatTokenOutput_markers_counterexample :
    stringsContains
      (FormatTokenOutput [] [{ Name := "JWT".toList, Value := "x".toList }])
      "JWT=".toList = true ∧
    stringsContains (FormatTokenOutput "COOKIE=1".toList []) "COOKIE=".toList = true := by
  decide

/-- C19 (amended): `FormatTokenOutput("", C)` contains `JWT=` only when the cookies' own
joined `name=value` text contains it, `FormatTokenOutput(T, nil)` contains `COOKIE=` only
when `T` itself contains it, and the output begins with `JWT=` exactly when `T` is
non-empty. -/
theorem FormatTokenOutput_markers (jwt : GoString) (cookies : List Cookie) :
    stringsContains (FormatTokenOutput [] cookies) "JWT=".toList =
      stringsContains (cookiePairsText cookies) "JWT=".toList ∧
    stringsContains (FormatTokenOutput jwt []) "COOKIE=".toList =
      stringsContains jwt "COOKIE=".toList ∧
    (hasPrefix (FormatTokenOutput jwt cookies) "JWT=".toList = true ↔ jwt ≠ []) := by
  refine ⟨?_, ?_, ?_⟩
  · rw [FormatTokenOutput_cases]
    by_cases hc : cookies = []
    · simp [hc, cookiePairsText]
    · simp only [ne_eq, not_true_eq_false, false_and, if_false, hc, not_false_eq_true, if_true]
      exact stringsContains_cookie_line _
  · rw [FormatTokenOutput_cases]
    by_cases hj : jwt = []
    · simp [hj]
    · simp only [ne_eq, hj, not_false_eq_true, not_true_eq_false, and_false, if_false, if_true]
      exact stringsContains_jwt_line _
  · rw [FormatTokenOutput_cases]
    by_cases hj : jwt = []
    · by_cases hc : cookies = []
      · simp [hj, hc, hasPrefix]
      · have h2 : "JWT=".toList = 'J' :: ['W', 'T', '='] := rfl
        have h1 : "COOKIE=".toList = 'C' :: ['O', 'O', 'K', 'I', 'E', '='] := rfl
        simp only [hj, hc, ne_eq, not_true_eq_false, false_and, if_false, not_false_eq_true,
          if_true, iff_false, Bool.not_eq_true]
        rw [h1, h2]
        exact hasPrefix_cons_of_ne _ _ _ _ (by decide)
    · by_cases hc : cookies = []
      · simp only [hj, hc, ne_eq, not_false_eq_true, not_true_eq_false, and_false, if_false,
          if_true, iff_true]
        exact hasPrefix_append_self _ _
      · simp only [hj, hc, ne_eq, not_false_eq_true, and_self, if_true, iff_true]
        rw [List.append_assoc, List.append_assoc]
        exact hasPrefix_append_self _ _

/-! ## Token extraction theorems -/

theorem ParseAuth0Token_cons (unmarshal : GoString → Except Error auth0CacheEntry)
    (key value : GoString) (rest : List (GoString × GoString)) :
    ParseAuth0Token unmarshal ((key, value) :: rest) =
      if hasPrefix key auth0KeyPrefix = true then entryOutcome unmarshal value
      else ParseAuth0Token unmarshal rest := by
  by_cases h : hasPrefix key auth0KeyPrefix = true
  · simp only [ParseAuth0Token, h, Bool.not_true, Bool.false_eq_true, if_false, if_true,
      entryOutcome]
  · simp only [Bool.not_eq_true] at h
    simp [ParseAuth0Token, h]

/-- `ParseAuth0Token` returns the outcome of the first visited entry whose key has the
prefix, and the not-found error when there is none. -/
theorem ParseAuth0Token_eq_find (unmarshal : GoString → Except Error auth0CacheEntry)
    (visited : List (GoString × GoString)) :
    ParseAuth0Token unmarshal visited =
      match visited.find? (fun e => hasPrefix e.1 auth0KeyPrefix) with
      | some e => entryOutcome unmarshal e.2
      | none => ([], some "no Auth0 token found in localStorage".toList) := by
  induction visited with
  | nil => rfl
  | cons e rest ih =>
    obtain ⟨key, value⟩ := e
    rw [ParseAuth0Token_cons]
    by_cases h : hasPrefix key auth0KeyPrefix = true
    · simp [h, List.find?_cons]
    · simp only [Bool.not_eq_true] at h
      simp [h, List.find?_cons, ih]

/-- C15: for every storage map, the empty one included, in which no key begins with
`@@auth0spajs@@`, `ParseAuth0Token` fails and returns an empty token. -/
theorem ParseAuth0Token_no_key (unmarshal : GoString → Except Error auth0CacheEntry)
    (visited : List (GoString × GoString))
    (hnone : ∀ e ∈ visited, hasPrefix e.1 auth0KeyPrefix = false) :
    ParseAuth0Token unmarshal visited =
      ([], some "no Auth0 token found in localStorage".toList) := by
  rw [ParseAuth0Token_eq_find]
  have : visited.find? (fun e => hasPrefix e.1 auth0KeyPrefix) = none := by
    rw [List.find?_eq_none]
    intro e he
    simp [hnone e he]
  rw [this]

/-- Instance of C15: a map with one plain key. -/
theorem ParseAuth0Token_no_key_witness :
    ParseAuth0Token sampleAuth0Unmarshal [plainStorageEntry] =
      ([], some "no Auth0 token found in localStorage".toList) :=
  ParseAuth0Token_no_key sampleAuth0Unmarshal [plainStorageEntry] (by decide)

theorem ParseAuth0Token_of_only_key (unmarshal : GoString → Except Error auth0CacheEntry)
    (visited : List (GoString × GoString)) (key value : GoString)
    (hmap : (visited.map Prod.fst).Nodup)
    (hmem : (key, value) ∈ visited)
    (hkey : hasPrefix key auth0KeyPrefix = true)
    (honly : ∀ e ∈ visited, hasPrefix e.1 auth0KeyPrefix = true → e.1 = key) :
    ParseAuth0Token unmarshal visited = entryOutcome unmarshal value := by
  rw [ParseAuth0Token_eq_find]
  cases hf : visited.find? (fun e => hasPrefix e.1 auth0KeyPrefix) with
  | none =>
    rw [List.find?_eq_none] at hf
    exact absurd hkey (by simpa using hf (key, value) hmem)
  | some e =>
    have he : e ∈ visited := List.mem_of_find?_eq_some hf
    have hp : hasPrefix e.1 auth0KeyPrefix = true := by
      simpa using List.find?_some hf
    have hk : e.1 = key := honly e he hp
    have hv : e = (key, value) := by
      have := List.inj_on_of_nodup_map hmap he hmem (by simpa using hk)
      exact this
    simp [hv]

/-- C14: for every storage map in which exactly one key begins with `@@auth0spajs@@` and
that key's value decodes to an entry whose `body.access_token` is a non-empty string `X`,
`ParseAuth0Token` returns `X` with no error, whatever the other keys and values and
whatever the order of the visit. -/
theorem ParseAuth0Token_valid_entry (unmarshal : GoString → Except Error auth0CacheEntry)
    (visited : List (GoString × GoString)) (key value X : GoString) (entry : auth0CacheEntry)
    (hmap : (visited.map Prod.fst).Nodup)
    (hmem : (key, value) ∈ visited)
    (hkey : hasPrefix key auth0KeyPrefix = true)
    (honly : ∀ e ∈ visited, hasPrefix e.1 auth0KeyPrefix = true → e.1 = key)
    (hjson : unmarshal value = .ok entry)
    (htoken : entry.Body.AccessToken = X) (hX : X ≠ []) :
    ParseAuth0Token unmarshal visited = (X, none) := by
  rw [ParseAuth0Token_of_only_key unmarshal visited key value hmap hmem hkey honly]
  unfold entryOutcome
  rw [hjson]
  subst htoken
  simp [hX]

/-- Instance of C14: the cache entry among two other keys, as in the test
`TestParseAuth0Token_FindsKeyAmongOthers`. -/
theorem ParseAuth0Token_valid_entry_witness :
    ParseAuth0Token sampleAuth0Unmarshal
      [plainStorageEntry, sampleAuth0Entry, ("yet_another_key".toList, "123".toList)] =
      ("my-jwt-token".toList, none) :=
  ParseAuth0Token_valid_entry sampleAuth0Unmarshal
    [plainStorageEntry, sampleAuth0Entry, ("yet_another_key".toList, "123".toList)]
    sampleAuth0Entry.1 sampleAuth0Entry.2 "my-jwt-token".toList
    { Body := { AccessToken := "my-jwt-token".toList, ExpiresIn := 3600,
                TokenType := "Bearer".toList },
      ExpiresAt := 9999999999 }
    (by decide) (by decide) (by decide) (by decide) rfl rfl (by decide)

/-- C16: for every storage map whose only key beginning with `@@auth0spajs@@` has a value
that does not decode as the expected record, or decodes to a record whose
`body.access_token` is missing or empty, `ParseAuth0Token` fails and returns an empty
token. -/
theorem ParseAuth0Token_bad_entry (unmarshal : GoString → Except Error auth0CacheEntry)
    (visited : List (GoString × GoString)) (key value : GoString)
    (hmap : (visited.map Prod.fst).Nodup)
    (hmem : (key, value) ∈ visited)
    (hkey : hasPrefix key auth0KeyPrefix = true)
    (honly : ∀ e ∈ visited, hasPrefix e.1 auth0KeyPrefix = true → e.1 = key)
    (hbad : (∃ err, unmarshal value = .error err) ∨
      ∃ entry, unmarshal value = .ok entry ∧ entry.Body.AccessToken = []) :
    (ParseAuth0Token unmarshal visited).1 = [] ∧
    ∃ err, (ParseAuth0Token unmarshal visited).2 = some err := by
  rw [ParseAuth0Token_of_only_key unmarshal visited key value hmap hmem hkey honly]
  unfold entryOutcome
  rcases hbad with ⟨err, h⟩ | ⟨entry, h, hempty⟩
  · rw [h]
    exact ⟨rfl, _, rfl⟩
  · rw [h]
    simp [hempty]

/-- Instance of C16: a cache entry whose body has no `access_token`, as in the test
`TestParseAuth0Token_NoAccessToken`. -/
theorem ParseAuth0Token_bad_entry_witness :
    (ParseAuth0Token sampleAuth0Unmarshal
      [("@@auth0spajs@@::client::audience::scope".toList,
        "entry without access_token".toList)]).1 = [] ∧
    ∃ err, (ParseAuth0Token sampleAuth0Unmarshal
      [("@@auth0spajs@@::client::audience::scope".toList,
        "entry without access_token".toList)]).2 = some err :=
  ParseAuth0Token_bad_entry sampleAuth0Unmarshal
    [("@@auth0spajs@@::client::audience::scope".toList, "entry without access_token".toList)]
    "@@auth0spajs@@::client::audience::scope".toList "entry without access_token".toList
    (by decide) (by decide) (by decide) (by decide)
    (Or.inr ⟨{ Body := { ExpiresIn := 86400, TokenType := "Bearer".toList },
               ExpiresAt := 1740600000 }, rfl, rfl⟩)

/-- The two failures of C16 with their messages: a malformed value, as in the test
`TestParseAuth0Token_MalformedJSON`, and a missing token. -/
theorem ParseAuth0Token_bad_entry_runs :
    ParseAuth0Token sampleAuth0Unmarshal
      [("@@auth0spajs@@::client::audience::scope".toList, "not valid json".toList)] =
      ([], some "failed to parse Auth0 cache entry: invalid character".toList) ∧
    ParseAuth0Token sampleAuth0Unmarshal
      [("@@auth0spajs@@::client::audience::scope".toList,
        "entry without access_token".toList)] =
      ([], some "Auth0 cache entry has no access_token".toList) := by
  decide

/-- C17 as stated fails: a map with two cache entries holding different tokens gives
`my-jwt-token` when the first is visited first and `other-token` when the second is. -/
theorem ParseAuth0Token_order_counterexample :
    ParseAuth0Token sampleAuth0Unmarshal [sampleAuth0Entry, otherAuth0Entry] =
      ("my-jwt-token".toList, none) ∧
    ParseAuth0Token sampleAuth0Unmarshal [otherAuth0Entry, sampleAuth0Entry] =
      ("other-token".toList, none) := by
  decide

/-- C17 (amended): for every storage map in which all keys beginning with
`@@auth0spajs@@` lead to the same outcome (the same token or the same failure), in
particular whenever at most one key begins with it, the result of `ParseAuth0Token` is
the same whatever order the keys are visited in. -/
theorem ParseAuth0Token_order_independent
    (unmarshal : GoString → Except Error auth0CacheEntry)
    (visited visited' : List (GoString × GoString))
    (hperm : visited.Perm visited')
    (hsame : ∀ a ∈ visited, ∀ b ∈ visited,
      hasPrefix a.1 auth0KeyPrefix = true → hasPrefix b.1 auth0KeyPrefix = true →
      entryOutcome unmarshal a.2 = entryOutcome unmarshal b.2) :
    ParseAuth0Token unmarshal visited = ParseAuth0Token unmarshal visited' := by
  rw [ParseAuth0Token_eq_find, ParseAuth0Token_eq_find]
  cases hf : visited.find? (fun e => hasPrefix e.1 auth0KeyPrefix) with
  | none =>
    have hf' : visited'.find? (fun e => hasPrefix e.1 auth0KeyPrefix) = none := by
      rw [List.find?_eq_none] at hf ⊢
      intro e he
      exact hf e (hperm.mem_iff.mpr he)
    rw [hf']
  | some a =>
    have ha : a ∈ visited := List.mem_of_find?_eq_some hf
    have hpa : hasPrefix a.1 auth0KeyPrefix = true := by simpa using List.find?_some hf
    cases hf' : visited'.find? (fun e => hasPrefix e.1 auth0KeyPrefix) with
    | none =>
      rw [List.find?_eq_none] at hf'
      exact absurd hpa (by simpa using hf' a (hperm.mem_iff.mp ha))
    | some b =>
      have hb : b ∈ visited := hperm.mem_iff.mpr (List.mem_of_find?_eq_some hf')
      have hpb : hasPrefix b.1 auth0KeyPrefix = true := by simpa using List.find?_some hf'
      exact hsame a ha b hb hpa hpb

/-- Instance of the amended C17: one cache entry and one plain key, in both orders. -/
theorem ParseAuth0Token_order_independent_witness :
    ParseAuth0Token sampleAuth0Unmarshal [plainStorageEntry, sampleAuth0Entry] =
      ParseAuth0Token sampleAuth0Unmarshal [sampleAuth0Entry, plainStorageEntry] :=
  ParseAuth0Token_order_independent sampleAuth0Unmarshal
    [plainStorageEntry, sampleAuth0Entry] [sampleAuth0Entry, plainStorageEntry]
    (List.Perm.swap _ _ _)
    (by
      intro a ha b hb hpa hpb
      have hA : a = sampleAuth0Entry := by
        simp only [List.mem_cons, List.mem_singleton, List.not_mem_nil, or_false] at ha
        rcases ha with rfl | rfl
        · exact absurd hpa (by decide)
        · rfl
      have hB : b = sampleAuth0Entry := by
        simp only [List.mem_cons, List.mem_singleton, List.not_mem_nil, or_false] at hb
        rcases hb with rfl | rfl
        · exact absurd hpb (by decide)
        · rfl
      rw [hA, hB])

/-! ## Path lemmas -/

theorem splitOn_append_sep (xs ys : GoString) :
    (xs ++ '/' :: ys).splitOn '/' = xs.splitOn '/' ++ ys.splitOn '/' := by
  unfold List.splitOn
  induction xs with
  | nil => simp
  | cons hd tl ih =>
    rw [List.cons_append, List.splitOnP_cons, List.splitOnP_cons, ih]
    by_cases h : (hd == '/') = true
    · simp [h]
    · simp only [h, Bool.false_eq_true, if_false]
      cases hs : List.splitOnP (fun x => x == '/') tl with
      | nil => exact absurd hs (List.splitOnP_ne_nil _ _)
      | cons a rest => simp [List.modifyHead]

theorem splitOn_of_not_mem (n : GoString) (h : '/' ∉ n) : n.splitOn '/' = [n] := by
  unfold List.splitOn
  apply List.splitOnP_eq_single
  intro x hx hp
  rw [beq_iff_eq] at hp
  subst hp
  exact h hx

theorem intercalate_snoc (sep : GoString) (xs : List GoString) (n : GoString) :
    List.intercalate sep (xs ++ [n]) =
      if xs = [] then n else List.intercalate sep xs ++ sep ++ n := by
  induction xs with
  | nil => simp [List.intercalate]
  | cons a rest ih =>
    cases rest with
    | nil => simp [List.intercalate]
    | cons b rest' =>
      simp only [List.intercalate, List.cons_append, List.intersperse_cons_cons,
        List.flatten_cons, reduceCtorEq, if_false] at ih ⊢
      rw [ih]
      simp

theorem cleanStep_element (rooted : Bool) (stack : List GoString) (n : GoString)
    (h : IsPathElement n) : cleanStep rooted stack n = n :: stack := by
  unfold cleanStep
  obtain ⟨h1, -, h3, h4⟩ := h
  simp [h1, h3, h4]

/-- Joining a directory with a single path element appends the element to a prefix that
depends on the directory only. -/
theorem filepathJoin_element (dir : GoString) :
    ∃ pre : GoString, ∀ n, IsPathElement n → filepathJoin dir n = pre ++ n := by
  by_cases hd : dir = []
  · refine ⟨[], ?_⟩
    intro n hn
    have hne : n ≠ [] := hn.1
    have hroot : ¬ (n.head? = some '/') := by
      intro h
      cases n with
      | nil => exact hne rfl
      | cons a t =>
        simp only [List.head?_cons, Option.some.injEq] at h
        subst h
        exact hn.2.1 (List.mem_cons_self _ _)
    unfold filepathJoin filepathClean
    simp only [hd, ne_eq, not_true_eq_false, if_false, hne, not_false_eq_true, if_true]
    rw [splitOn_of_not_mem n hn.2.1]
    simp only [List.foldl_cons, List.foldl_nil, cleanStep_element _ _ n hn, hroot,
      decide_False, Bool.false_eq_true, if_false, List.reverse_cons, List.reverse_nil,
      List.nil_append]
    simp [List.intercalate, hne]
  · refine ⟨(if dir.head? = some '/' then ['/'] else []) ++
      (if ((dir.splitOn '/').foldl (cleanStep (decide (dir.head? = some '/'))) []).reverse = []
        then []
        else List.intercalate ['/']
          ((dir.splitOn '/').foldl (cleanStep (decide (dir.head? = some '/'))) []).reverse
            ++ ['/']), ?_⟩
    intro n hn
    have hne : n ≠ [] := hn.1
    have hpath : dir ++ '/' :: n ≠ [] := by simp
    have hhead : (dir ++ '/' :: n).head? = dir.head? := by
      cases dir with
      | nil => exact absurd rfl hd
      | cons a t => rfl
    unfold filepathJoin filepathClean
    simp only [hd, ne_eq, not_false_eq_true, if_true, hpath, if_false, hhead]
    rw [splitOn_append_sep, splitOn_of_not_mem n hn.2.1, List.foldl_append]
    simp only [List.foldl_cons, List.foldl_nil]
    rw [cleanStep_element _ _ n hn, List.reverse_cons, intercalate_snoc]
    generalize ((dir.splitOn '/').foldl (cleanStep (decide (dir.head? = some '/'))) []).reverse
      = S
    by_cases hr : dir.head? = some '/'
    · by_cases hs : S = []
      · simp [hr, hs]
      · simp [hr, hs]
    · by_cases hs : S = []
      · simp [hr, hs, hne]
      · simp [hr, hs]

theorem filepathJoin_element_injective (dir n₁ n₂ : GoString)
    (h₁ : IsPathElement n₁) (h₂ : IsPathElement n₂)
    (h : filepathJoin dir n₁ = filepathJoin dir n₂) : n₁ = n₂ := by
  obtain ⟨pre, hpre⟩ := filepathJoin_element dir
  rw [hpre n₁ h₁, hpre n₂ h₂] at h
  exact List.append_cancel_left h

theorem isPathElement_json (host : GoString) (h : '/' ∉ host) :
    IsPathElement (host ++ ".json".toList) := by
  refine ⟨by simp, ?_, ?_, ?_⟩
  · intro hm
    rw [List.mem_append] at hm
    rcases hm with hm | hm
    · exact h hm
    · revert hm
      decide
  · intro heq
    have := congrArg List.length heq
    simp at this
  · intro heq
    have := congrArg List.length heq
    simp at this

/-- Hosts without `/` are stored in distinct files. -/
theorem getCookiePath_injective (s : SessionManager) (h₁ h₂ : GoString)
    (hs₁ : '/' ∉ h₁) (hs₂ : '/' ∉ h₂)
    (h : s.getCookiePath h₁ = s.getCookiePath h₂) : h₁ = h₂ := by
  unfold SessionManager.getCookiePath at h
  have := filepathJoin_element_injective s.cacheDir _ _
    (isPathElement_json h₁ hs₁) (isPathElement_json h₂ hs₂) h
  exact List.append_cancel_right this

/-! ## Clearing sessions and the frame of the store operations -/

theorem LoadCookies_congr (js : JsonLib) (s : SessionManager) (w w' : World) (host : GoString)
    (h : w'.files (s.getCookiePath host) = w.files (s.getCookiePath host)) :
    (s.LoadCookies js w' host).1 = (s.LoadCookies js w host).1 := by
  unfold SessionManager.LoadCookies statIsNotExist readFile
  simp only [h]
  cases w.files (s.getCookiePath host) with
  | none => simp
  | some data =>
    simp only [Option.isNone_some, Bool.false_eq_true, if_false]
    cases js.unmarshal data <;> rfl

theorem SaveCookies_files_of_ne (js : JsonLib) (s : SessionManager) (w : World)
    (host : GoString) (cookies : List Cookie) (p : GoString)
    (hp : p ≠ s.getCookiePath host) :
    (s.SaveCookies js w host cookies).2.files p = w.files p := by
  unfold SessionManager.SaveCookies writeFile
  cases js.marshalIndent cookies with
  | error e => rfl
  | ok data =>
    cases hw : w.writable (s.getCookiePath host) with
    | false => simp [hw]
    | true => simp [hw, Function.update_noteq hp]

theorem Clear_of_absent (s : SessionManager) (w : World) (host : GoString)
    (h : w.files (s.getCookiePath host) = none) : s.Clear w host = (.ok (), w) := by
  unfold SessionManager.Clear statIsNotExist
  simp [h]

theorem Clear_of_removable (s : SessionManager) (w : World) (host data : GoString)
    (h : w.files (s.getCookiePath host) = some data)
    (hw : w.writable (s.getCookiePath host) = true) :
    s.Clear w host =
      (.ok (), { w with files := Function.update w.files (s.getCookiePath host) none }) := by
  unfold SessionManager.Clear statIsNotExist removeFile
  simp [h, hw]

theorem Clear_of_locked (s : SessionManager) (w : World) (host data : GoString)
    (h : w.files (s.getCookiePath host) = some data)
    (hw : w.writable (s.getCookiePath host) = false) :
    s.Clear w host =
      (.error (wrapError "failed to delete cookie file"
        ("remove ".toList ++ s.getCookiePath host ++ ": permission denied".toList)), w) := by
  unfold SessionManager.Clear statIsNotExist removeFile
  simp [h, hw]

theorem Clear_files_of_ne (s : SessionManager) (w : World) (host p : GoString)
    (hp : p ≠ s.getCookiePath host) : (s.Clear w host).2.files p = w.files p := by
  cases h : w.files (s.getCookiePath host) with
  | none => rw [Clear_of_absent s w host h]
  | some data =>
    cases hw : w.writable (s.getCookiePath host) with
    | false => rw [Clear_of_locked s w host data h hw]
    | true =>
      rw [Clear_of_removable s w host data h hw]
      simp [Function.update_noteq hp]

/-- C11 as stated fails: when the session file cannot be deleted, `Clear` returns the
deletion error and `LoadCookies` still returns the stored cookies afterwards. -/
theorem Clear_locked_counterexample :
    (sampleManager.Clear lockedWorld "app.example.com".toList).1 =
      .error ("failed to delete cookie file: " ++
        "remove /home/u/.omatic/auth/app.example.com.json: permission denied").toList ∧
    (sampleManager.LoadCookies sampleJson
      (sampleManager.Clear lockedWorld "app.example.com".toList).2
      "app.example.com".toList).1 = .ok otherCookies :=
  ⟨rfl, rfl⟩

/-- C11 (amended): `Clear(H)` returns no error when no session is stored for `H` and when
the stored file can be deleted, and returns the deletion error, leaving the store as it
was, when it cannot; after a `Clear(H)` that returned no error `LoadCookies(H)` returns
the empty list; and a second `Clear(H)` returns what the first returned and leaves the
store as the first left it. -/
theorem Clear_idempotent (js : JsonLib) (s : SessionManager) (w : World) (host : GoString) :
    (w.files (s.getCookiePath host) = none → s.Clear w host = (.ok (), w)) ∧
    (w.writable (s.getCookiePath host) = true → (s.Clear w host).1 = .ok ()) ∧
    (∀ err, (s.Clear w host).1 = .error err → (s.Clear w host).2 = w) ∧
    ((s.Clear w host).1 = .ok () →
      s.LoadCookies js (s.Clear w host).2 host = (.ok [], (s.Clear w host).2)) ∧
    s.Clear (s.Clear w host).2 host = s.Clear w host := by
  cases h : w.files (s.getCookiePath host) with
  | none =>
    rw [Clear_of_absent s w host h]
    refine ⟨fun _ => rfl, fun _ => rfl, fun _ _ => rfl, ?_, Clear_of_absent s w host h⟩
    intro _
    exact LoadCookies_of_absent js s w host h
  | some data =>
    cases hw : w.writable (s.getCookiePath host) with
    | false =>
      rw [Clear_of_locked s w host data h hw]
      refine ⟨(fun h' => by cases h'), (fun h' => by cases h'), fun _ _ => rfl, ?_,
        Clear_of_locked s w host data h hw⟩
      intro h'
      cases h'
    | true =>
      rw [Clear_of_removable s w host data h hw]
      refine ⟨(fun h' => by cases h'), fun _ => rfl, (fun _ h' => by cases h'), ?_, ?_⟩
      · intro _
        exact LoadCookies_of_absent js s _ host (by simp)
      · exact Clear_of_absent s _ host (by simp)

/-- Instance of the amended C11: clearing the session cached for `app.example.com`. -/
theorem Clear_idempotent_witness :
    sampleManager.LoadCookies sampleJson
      (sampleManager.Clear cachedWorld "app.example.com".toList).2 "app.example.com".toList =
      (.ok [], (sampleManager.Clear cachedWorld "app.example.com".toList).2) :=
  (Clear_idempotent sampleJson sampleManager cachedWorld "app.example.com".toList).2.2.2.1 rfl

/-- C13 as stated fails: the distinct hosts `a` and `./a` share one file, so saving a
session for `a` changes what `LoadCookies` returns for `./a`. -/
theorem distinct_hosts_counterexample :
    sampleManager.getCookiePath "a".toList = sampleManager.getCookiePath "./a".toList ∧
    (sampleManager.LoadCookies sampleJson emptyWorld "./a".toList).1 = .ok [] ∧
    (sampleManager.LoadCookies sampleJson
      (sampleManager.SaveCookies sampleJson emptyWorld "a".toList otherCookies).2
      "./a".toList).1 = .ok otherCookies :=
  ⟨by decide, rfl, rfl⟩

theorem frame_of_path_ne (js : JsonLib) (s : SessionManager) (w : World) (H₁ H₂ : GoString)
    (cookies : List Cookie) (hp : s.getCookiePath H₂ ≠ s.getCookiePath H₁) :
    (s.LoadCookies js (s.SaveCookies js w H₁ cookies).2 H₂).1 = (s.LoadCookies js w H₂).1 ∧
    (s.LoadCookies js (s.Clear w H₁).2 H₂).1 = (s.LoadCookies js w H₂).1 :=
  ⟨LoadCookies_congr js s w _ H₂ (SaveCookies_files_of_ne js s w H₁ cookies _ hp),
   LoadCookies_congr js s w _ H₂ (Clear_files_of_ne s w H₁ _ hp)⟩

/-- C13 (amended): for every two distinct hosts that contain no `/` and every store
state, `SaveCookies(H1, C)` and `Clear(H1)` do not change what `LoadCookies(H2)` returns:
such hosts are stored in distinct files. -/
theorem distinct_hosts_frame (js : JsonLib) (s : SessionManager) (w : World)
    (H₁ H₂ : GoString) (cookies : List Cookie)
    (hs₁ : '/' ∉ H₁) (hs₂ : '/' ∉ H₂) (hne : H₁ ≠ H₂) :
    s.getCookiePath H₁ ≠ s.getCookiePath H₂ ∧
    (s.LoadCookies js (s.SaveCookies js w H₁ cookies).2 H₂).1 = (s.LoadCookies js w H₂).1 ∧
    (s.LoadCookies js (s.Clear w H₁).2 H₂).1 = (s.LoadCookies js w H₂).1 := by
  have hp : s.getCookiePath H₁ ≠ s.getCookiePath H₂ :=
    fun h => hne (getCookiePath_injective s H₁ H₂ hs₁ hs₂ h)
  exact ⟨hp, frame_of_path_ne js s w H₁ H₂ cookies (Ne.symm hp)⟩

/-- Instance of the amended C13: a session cached for `app.example.com` is not touched
by saving or clearing `other.example.com`. -/
theorem distinct_hosts_frame_witness :
    sampleManager.getCookiePath "other.example.com".toList ≠
      sampleManager.getCookiePath "app.example.com".toList ∧
    (sampleManager.LoadCookies sampleJson
      (sampleManager.SaveCookies sampleJson cachedWorld "other.example.com".toList
        otherCookies).2 "app.example.com".toList).1 =
      (sampleManager.LoadCookies sampleJson cachedWorld "app.example.com".toList).1 ∧
    (sampleManager.LoadCookies sampleJson
      (sampleManager.Clear cachedWorld "other.example.com".toList).2
      "app.example.com".toList).1 =
      (sampleManager.LoadCookies sampleJson cachedWorld "app.example.com".toList).1 :=
  distinct_hosts_frame sampleJson sampleManager cachedWorld "other.example.com".toList
    "app.example.com".toList otherCookies (by decide) (by decide) (by decide)

/-! ## Listing sessions -/

theorem hasSuffix_append_self (h x : GoString) : hasSuffix (h ++ x) x = true := by
  rw [hasSuffix_iff]
  exact ⟨h, rfl⟩

theorem trimSuffix_append_self (h x : GoString) : trimSuffix (h ++ x) x = h := by
  unfold trimSuffix
  rw [hasSuffix_append_self]
  simp

theorem eq_trimSuffix_append (n x : GoString) (h : hasSuffix n x = true) :
    n = trimSuffix n x ++ x := by
  obtain ⟨pre, rfl⟩ := (hasSuffix_iff n x).mp h
  rw [trimSuffix_append_self]

theorem listHosts_foldl (x : GoString) (entries : List DirEntry) (acc : List GoString) :
    entries.foldl
      (fun hosts entry =>
        if entry.IsDir = true then hosts
        else if hasSuffix entry.Name x = true then
          hosts ++ [trimSuffix entry.Name x]
        else hosts) acc =
    acc ++ (entries.filter fun e => !e.IsDir && hasSuffix e.Name x).map
      fun e => trimSuffix e.Name x := by
  induction entries generalizing acc with
  | nil => simp
  | cons e rest ih =>
    rw [List.foldl_cons, ih]
    cases hd : e.IsDir with
    | true => simp [hd, List.filter_cons]
    | false =>
      cases hs : hasSuffix e.Name x with
      | true => simp [hd, hs, List.filter_cons]
      | false => simp [hd, hs, List.filter_cons]

theorem ListSessions_of_entries (readDir : World → GoString → Except Error (List DirEntry))
    (s : SessionManager) (w : World) (entries : List DirEntry)
    (h : readDir w s.cacheDir = .ok entries) :
    s.ListSessions readDir w =
      (.ok ((entries.filter fun e => !e.IsDir && hasSuffix e.Name ".json".toList).map
        fun e => trimSuffix e.Name ".json".toList), w) := by
  unfold SessionManager.ListSessions
  rw [h]
  simp only [listHosts_foldl, List.nil_append]

theorem mem_listed_hosts (entries : List DirEntry) (host : GoString) :
    host ∈ (entries.filter fun e => !e.IsDir && hasSuffix e.Name ".json".toList).map
        (fun e => trimSuffix e.Name ".json".toList) ↔
      ({ Name := host ++ ".json".toList, IsDir := false } : DirEntry) ∈ entries := by
  simp only [List.mem_map, List.mem_filter, Bool.and_eq_true, Bool.not_eq_true']
  constructor
  · rintro ⟨e, ⟨he, hd, hs⟩, rfl⟩
    have hn := eq_trimSuffix_append e.Name _ hs
    have : e = { Name := trimSuffix e.Name ".json".toList ++ ".json".toList, IsDir := false } := by
      cases e
      simp only [DirEntry.mk.injEq]
      exact ⟨hn, hd⟩
    rw [← this]
    exact he
  · intro he
    exact ⟨_, ⟨he, rfl, hasSuffix_append_self _ _⟩, trimSuffix_append_self _ _⟩

theorem nodup_listed_hosts (entries : List DirEntry)
    (h : (entries.map DirEntry.Name).Nodup) :
    ((entries.filter fun e => !e.IsDir && hasSuffix e.Name ".json".toList).map
        fun e => trimSuffix e.Name ".json".toList).Nodup := by
  have hent : entries.Nodup := List.Nodup.of_map _ h
  have hfil := hent.filter (fun e => !e.IsDir && hasSuffix e.Name ".json".toList)
  refine List.Nodup.map_on ?_ hfil
  intro a ha b hb hab
  simp only [List.mem_filter, Bool.and_eq_true, Bool.not_eq_true'] at ha hb
  have hna := eq_trimSuffix_append a.Name _ ha.2.2
  have hnb := eq_trimSuffix_append b.Name _ hb.2.2
  have hname : a.Name = b.Name := by rw [hna, hnb, hab]
  exact List.inj_on_of_nodup_map h ha.1 hb.1 hname

theorem saveAll_files (js : JsonLib) (s : SessionManager)
    (sessions : List (GoString × List Cookie)) (w w' : World)
    (h : s.saveAll js w sessions = (.ok (), w')) (p : GoString) :
    (w'.files p).isSome = true ↔
      (w.files p).isSome = true ∨ ∃ host ∈ sessions.map Prod.fst, p = s.getCookiePath host := by
  induction sessions generalizing w with
  | nil =>
    simp only [SessionManager.saveAll, Prod.mk.injEq, true_and] at h
    subst h
    simp
  | cons x rest ih =>
    obtain ⟨host, cookies⟩ := x
    simp only [SessionManager.saveAll] at h
    rcases hs : s.SaveCookies js w host cookies with ⟨r, w₁⟩
    rw [hs] at h
    cases r with
    | error e => simp at h
    | ok u =>
      cases u
      simp only at h
      obtain ⟨data, -, -, hw₁⟩ := (SaveCookies_ok_iff js s w w₁ host cookies).mp hs
      rw [ih w₁ h]
      subst hw₁
      simp only [List.map_cons, List.mem_cons, exists_eq_or_imp]
      by_cases hp : p = s.getCookiePath host
      · subst hp
        simp
      · simp [Function.update_noteq hp, hp]

/-- C12 as stated fails: after a session is saved for the host `./a` into the empty
store, the directory holds the file `a.json` and `ListSessions` returns the host `a`,
not `./a`. -/
theorem ListSessions_counterexample :
    (sampleManager.saveAll sampleJson emptyWorld [("./a".toList, otherCookies)]).1 = .ok () ∧
    (sampleManager.ListSessions (sampleReadDir ["a.json".toList, "b.json".toList])
      (sampleManager.saveAll sampleJson emptyWorld [("./a".toList, otherCookies)]).2).1 =
      .ok ["a".toList] :=
  ⟨rfl, rfl⟩

theorem not_mem_of_isPathElement_json (host : GoString)
    (h : IsPathElement (host ++ ".json".toList)) : '/' ∉ host :=
  fun hm => h.2.1 (List.mem_append_left _ hm)

/-- C12 (amended): after sessions are saved for any finite set of distinct hosts that
contain no `/` into an empty store, `ListSessions` returns each of those hosts exactly
once and nothing else, in some order. -/
theorem ListSessions_after_saves (js : JsonLib)
    (readDir : World → GoString → Except Error (List DirEntry))
    (s : SessionManager) (w w' : World) (sessions : List (GoString × List Cookie))
    (entries : List DirEntry)
    (hempty : ∀ p, w.files p = none)
    (hnodup : (sessions.map Prod.fst).Nodup)
    (hslash : ∀ host ∈ sessions.map Prod.fst, '/' ∉ host)
    (hsave : s.saveAll js w sessions = (.ok (), w'))
    (hdir : readDir w' s.cacheDir = .ok entries)
    (hlist : IsDirListing w' s.cacheDir entries) :
    ∃ hosts, s.ListSessions readDir w' = (.ok hosts, w') ∧
      hosts.Perm (sessions.map Prod.fst) := by
  refine ⟨_, ListSessions_of_entries readDir s w' entries hdir, ?_⟩
  obtain ⟨hnames, helem, hfiles⟩ := hlist
  rw [List.perm_ext_iff_of_nodup (nodup_listed_hosts entries hnames) hnodup]
  intro host
  rw [mem_listed_hosts]
  have hfile : ∀ p, (w'.files p).isSome = true ↔
      ∃ h ∈ sessions.map Prod.fst, p = s.getCookiePath h := by
    intro p
    rw [saveAll_files js s sessions w w' hsave p]
    simp [hempty p]
  constructor
  · intro he
    have hel := helem _ he
    have hs : '/' ∉ host := not_mem_of_isPathElement_json host hel
    obtain ⟨h', hmem, hp⟩ := (hfile _).mp ((hfiles _ hel).mp he)
    have : host = h' := getCookiePath_injective s host h' hs (hslash h' hmem) hp
    rw [this]
    exact hmem
  · intro hmem
    have hel := isPathElement_json host (hslash host hmem)
    exact (hfiles _ hel).mpr ((hfile _).mpr ⟨host, hmem, rfl⟩)

theorem isDirListing_sampleReadDir (names : List GoString) (w : World) (dir : GoString)
    (hnodup : names.Nodup) (helem : ∀ n ∈ names, IsPathElement n)
    (hcover : ∀ n, IsPathElement n → (w.files (filepathJoin dir n)).isSome = true →
      n ∈ names) :
    IsDirListing w dir
      ((names.filter fun n => (w.files (filepathJoin dir n)).isSome).map
        fun n => { Name := n, IsDir := false }) := by
  refine ⟨?_, ?_, ?_⟩
  · rw [List.map_map]
    have : (DirEntry.Name ∘ fun n => ({ Name := n, IsDir := false } : DirEntry)) = id := rfl
    rw [this, List.map_id]
    exact hnodup.filter _
  · intro e he
    simp only [List.mem_map, List.mem_filter] at he
    obtain ⟨n, ⟨hn, -⟩, rfl⟩ := he
    exact helem n hn
  · intro name hel
    simp only [List.mem_map, List.mem_filter, DirEntry.mk.injEq, and_true, exists_eq_right]
    constructor
    · intro h
      exact h.2
    · intro h
      exact ⟨hcover name hel h, h⟩

/-- Instance of the amended C12: the three hosts of `TestSessionManager_ListSessions`. -/
theorem ListSessions_after_saves_witness :
    ∃ hosts,
      sampleManager.ListSessions
        (sampleReadDir ["host3.example.com.json".toList, "host1.example.com.json".toList,
          "host2.example.com.json".toList])
        (sampleManager.saveAll sampleJson emptyWorld
          [("host1.example.com".toList, otherCookies),
           ("host2.example.com".toList, otherCookies),
           ("host3.example.com".toList, otherCookies)]).2 =
        (.ok hosts,
          (sampleManager.saveAll sampleJson emptyWorld
            [("host1.example.com".toList, otherCookies),
             ("host2.example.com".toList, otherCookies),
             ("host3.example.com".toList, otherCookies)]).2) ∧
      hosts.Perm ["host1.example.com".toList, "host2.example.com".toList,
        "host3.example.com".toList] :=
  ListSessions_after_saves sampleJson
    (sampleReadDir ["host3.example.com.json".toList, "host1.example.com.json".toList,
      "host2.example.com.json".toList])
    sampleManager emptyWorld _
    [("host1.example.com".toList, otherCookies),
     ("host2.example.com".toList, otherCookies),
     ("host3.example.com".toList, otherCookies)]
    _ (fun _ => rfl) (by decide) (by decide) rfl rfl
    (isDirListing_sampleReadDir _ _ _ (by decide)
      (by
        intro n hn
        simp only [List.mem_cons, List.mem_singleton, List.not_mem_nil, or_false] at hn
        rcases hn with rfl | rfl | rfl
        · exact isPathElement_json "host3.example.com".toList (by decide)
        · exact isPathElement_json "host1.example.com".toList (by decide)
        · exact isPathElement_json "host2.example.com".toList (by decide))
      (by
        intro n hel hfile
        have hsaved := (saveAll_files sampleJson sampleManager
          [("host1.example.com".toList, otherCookies),
           ("host2.example.com".toList, otherCookies),
           ("host3.example.com".toList, otherCookies)] emptyWorld _ rfl
          (filepathJoin sampleManager.cacheDir n)).mp hfile
        rcases hsaved with h | ⟨host, hmem, hp⟩
        · simp [emptyWorld] at h
        · have hn : n = host ++ ".json".toList := by
            have hslash : '/' ∉ host := by
              simp only [List.map_cons, List.map_nil, List.mem_cons, List.mem_singleton,
                List.not_mem_nil, or_false] at hmem
              rcases hmem with rfl | rfl | rfl <;> decide
            exact filepathJoin_element_injective sampleManager.cacheDir n _ hel
              (isPathElement_json host hslash) hp
          simp only [List.map_cons, List.map_nil, List.mem_cons, List.mem_singleton,
            List.not_mem_nil, or_false] at hmem
          rcases hmem with rfl | rfl | rfl <;> (rw [hn]; decide)))

/-! ## Persisting the captured cookies -/

theorem SaveCookies_error_world (js : JsonLib) (s : SessionManager) (w : World)
    (host : GoString) (cookies : List Cookie) (e : Error)
    (h : (s.SaveCookies js w host cookies).1 = .error e) :
    (s.SaveCookies js w host cookies).2 = w := by
  unfold SessionManager.SaveCookies writeFile at h ⊢
  cases hm : js.marshalIndent cookies with
  | error e' => rfl
  | ok data =>
    rw [hm] at h
    cases hw : w.writable (s.getCookiePath host) with
    | false => simp [hw]
    | true => simp [hw] at h

theorem authenticateFlow_of_capture (env : Env) (b : BrowserAuth) (w : World)
    (targetURL : GoString) (u : URL) (config : BrowserConfig) (needsClose : Bool)
    (cookies : List Cookie)
    (hurl : env.urlParse targetURL = .ok u)
    (hconfig : GetBrowserConfig env.browser b.browserType = .ok config)
    (hbrowser : env.browser.getOrLaunchBrowser w.log config = .ok needsClose)
    (hcapture : b.extractCookies env.browser w.log u.Host = .ok cookies) :
    b.authenticateFlow env w targetURL =
      if cookies.length = 0 then
        (.error "no cookies captured - login may have failed".toList, w)
      else
        match b.sessionManager.SaveCookies env.json w u.Host cookies with
        | (.error err, w) => (.error (wrapError "failed to save cookies" err), w)
        | (.ok (), w) => (.ok (), w) := by
  unfold BrowserAuth.authenticateFlow
  rw [hurl]
  dsimp only
  rw [hconfig]
  dsimp only
  rw [hbrowser]
  dsimp only
  rw [hcapture]

/-- C20 as stated fails: with one cookie captured but a store that cannot be written,
`Authenticate` returns the save error and nothing is persisted: `LoadCookies` returns
the empty list, not the captured one. -/
theorem Authenticate_save_failure_counterexample :
    sampleClient.browserAuth.extractCookies workingBrowser readOnlyWorld.log
      "app.example.com".toList = .ok otherCookies ∧
    (sampleClient.browserAuth.Authenticate (sampleEnv workingBrowser server200) readOnlyWorld
      sampleURLText).1 =
      .error ("failed to save cookies: failed to write cookie file: " ++
        "open /home/u/.omatic/auth/app.example.com.json: permission denied").toList ∧
    (sampleManager.LoadCookies sampleJson
      (sampleClient.browserAuth.Authenticate (sampleEnv workingBrowser server200)
        readOnlyWorld sampleURLText).2 "app.example.com".toList).1 = .ok [] :=
  ⟨rfl, rfl, rfl⟩

/-- C20 (amended): after a completed login flow, when zero cookies were captured
`Authenticate` returns an error and leaves the files of the store unchanged; when at
least one cookie was captured it saves the captured list under the target URL's host:
if that save fails, `Authenticate` returns the save error and the files are unchanged;
if it succeeds, `Authenticate` returns no error and `LoadCookies(host)` then returns the
captured list (`encoding/json` being taken to read back the list from what it wrote). -/
theorem Authenticate_persists (env : Env) (b : BrowserAuth) (w : World)
    (targetURL : GoString) (u : URL) (config : BrowserConfig) (needsClose : Bool)
    (cookies : List Cookie)
    (hurl : env.urlParse targetURL = .ok u)
    (hconfig : GetBrowserConfig env.browser b.browserType = .ok config)
    (hbrowser : env.browser.getOrLaunchBrowser w.log config = .ok needsClose)
    (hcapture : b.extractCookies env.browser w.log u.Host = .ok cookies) :
    (cookies = [] →
      (b.Authenticate env w targetURL).1 =
        .error "no cookies captured - login may have failed".toList ∧
      (b.Authenticate env w targetURL).2.files = w.files) ∧
    (cookies ≠ [] → ∀ err,
      (b.sessionManager.SaveCookies env.json w u.Host cookies).1 = .error err →
      (b.Authenticate env w targetURL).1 = .error (wrapError "failed to save cookies" err) ∧
      (b.Authenticate env w targetURL).2.files = w.files) ∧
    (cookies ≠ [] →
      (b.sessionManager.SaveCookies env.json w u.Host cookies).1 = .ok () →
      (b.Authenticate env w targetURL).1 = .ok () ∧
      (b.Authenticate env w targetURL).2.files =
        (b.sessionManager.SaveCookies env.json w u.Host cookies).2.files ∧
      ((∀ data, env.json.marshalIndent cookies = .ok data →
          env.json.unmarshal data = .ok cookies) →
        (b.sessionManager.LoadCookies env.json (b.Authenticate env w targetURL).2 u.Host).1 =
          .ok cookies)) := by
  have hflow := authenticateFlow_of_capture env b w targetURL u config needsClose cookies
    hurl hconfig hbrowser hcapture
  unfold BrowserAuth.Authenticate
  rw [hflow]
  refine ⟨?_, ?_, ?_⟩
  · intro hc
    subst hc
    exact ⟨rfl, rfl⟩
  · intro hc err hsave
    have hlen : ¬ cookies.length = 0 := fun h => hc (List.length_eq_zero.mp h)
    have hw := SaveCookies_error_world env.json b.sessionManager w u.Host cookies err hsave
    rcases hs : b.sessionManager.SaveCookies env.json w u.Host cookies with ⟨r, w₁⟩
    rw [hs] at hsave hw
    dsimp only at hsave hw
    subst hsave
    subst hw
    rw [if_neg hlen]
    exact ⟨rfl, rfl⟩
  · intro hc hsave
    have hlen : ¬ cookies.length = 0 := fun h => hc (List.length_eq_zero.mp h)
    rcases hs : b.sessionManager.SaveCookies env.json w u.Host cookies with ⟨r, w₁⟩
    rw [hs] at hsave
    dsimp only at hsave
    subst hsave
    rw [if_neg hlen]
    refine ⟨rfl, rfl, ?_⟩
    intro hjson
    obtain ⟨data, hm, -, hw₁⟩ :=
      (SaveCookies_ok_iff env.json b.sessionManager w w₁ u.Host cookies).mp hs
    have hload : b.sessionManager.LoadCookies env.json w₁ u.Host = (.ok cookies, w₁) := by
      rw [LoadCookies_of_file env.json b.sessionManager w₁ u.Host data (by rw [hw₁]; simp),
        hjson data hm]
    have hrec := LoadCookies_congr env.json b.sessionManager w₁
      (w₁.record (.authenticate targetURL (.ok ()))) u.Host rfl
    rw [hload] at hrec
    exact hrec

/-- Instance of the amended C20: the login captures `auth_token` and the store is
writable, so the cookie is persisted for `app.example.com`. -/
theorem Authenticate_persists_witness :
    (sampleManager.LoadCookies sampleJson
      (sampleClient.browserAuth.Authenticate (sampleEnv workingBrowser server200) emptyWorld
        sampleURLText).2 "app.example.com".toList).1 = .ok otherCookies :=
  ((Authenticate_persists (sampleEnv workingBrowser server200) sampleClient.browserAuth
    emptyWorld sampleURLText sampleURL
    { BrowserType := BrowserEdge, ExePath := "msedge.exe".toList,
      UserDataDir := "$LOCALAPPDATA/Microsoft/EdgeDebug".toList, DebugPort := 9222 }
    false otherCookies rfl rfl rfl rfl).2.2 (by decide) rfl).2.2
    (by
      intro data hd
      have h2 : sampleJson.marshalIndent otherCookies = .ok "[auth_token]".toList := rfl
      have hj : (sampleEnv workingBrowser server200).json = sampleJson := rfl
      rw [hj] at hd ⊢
      rw [h2] at hd
      have : data = "[auth_token]".toList := (Except.ok.inj hd).symm
      subst this
      rfl)

/-! ## The two domain matchers -/

theorem isCookieRelevant_eq (cookie : NetworkCookie) (targetHost : GoString) :
    isCookieRelevant cookie targetHost =
      (cookie.Domain == [] || (stripLeadingDot cookie.Domain == stripLeadingDot targetHost
        || hasSuffix (stripLeadingDot targetHost) ('.' :: stripLeadingDot cookie.Domain))) := by
  unfold isCookieRelevant
  simp only [trimPrefix_dot]
  by_cases h1 : cookie.Domain = []
  · simp [h1]
  · have e1 : (cookie.Domain == []) = false := beq_false_of_ne h1
    simp only [e1, Bool.false_eq_true, if_false, Bool.false_or]
    by_cases h2 : stripLeadingDot cookie.Domain = stripLeadingDot targetHost
    · rw [h2]
    · have e2 : (stripLeadingDot cookie.Domain == stripLeadingDot targetHost) = false :=
        beq_false_of_ne h2
      have e3 : (stripLeadingDot targetHost == stripLeadingDot cookie.Domain) = false :=
        beq_false_of_ne (fun h => h2 h.symm)
      rw [e2, e3]

/-- C29: for every cookie domain and host, the browser-side matcher `isCookieRelevant`
and the client-side matcher `cookieMatchesDomain` return the same result. -/
theorem isCookieRelevant_eq_cookieMatchesDomain (cookie : NetworkCookie) (c : Cookie)
    (host : GoString) (hdomain : cookie.Domain = c.Domain) :
    isCookieRelevant cookie host = cookieMatchesDomain c host := by
  rw [isCookieRelevant_eq, cookieMatchesDomain_eq, hdomain]

/-- Instance of C29: the domain `.omaticcloud.io` against `aks-dev.omaticcloud.io`. -/
theorem isCookieRelevant_eq_cookieMatchesDomain_witness :
    isCookieRelevant { Domain := ".omaticcloud.io".toList } "aks-dev.omaticcloud.io".toList =
      cookieMatchesDomain { Domain := ".omaticcloud.io".toList }
        "aks-dev.omaticcloud.io".toList :=
  isCookieRelevant_eq_cookieMatchesDomain { Domain := ".omaticcloud.io".toList }
    { Domain := ".omaticcloud.io".toList } "aks-dev.omaticcloud.io".toList rfl

/-- The cases of `TestIsCookieRelevant`, on both matchers. -/
theorem isCookieRelevant_tests :
    isCookieRelevant { Domain := "example.com".toList } "example.com".toList = true ∧
    isCookieRelevant { Domain := ".example.com".toList } "example.com".toList = true ∧
    isCookieRelevant { Domain := ".omaticcloud.io".toList } "aks-dev.omaticcloud.io".toList
      = true ∧
    isCookieRelevant { Domain := "other.com".toList } "example.com".toList = false ∧
    isCookieRelevant { Domain := "example.com".toList } "notexample.com".toList = false ∧
    isCookieRelevant { Domain := [] } "any.host.com".toList = true := by
  decide

theorem stripLeadingDot_subset (s : GoString) (x : Char) (h : x ∈ stripLeadingDot s) :
    x ∈ s := by
  unfold stripLeadingDot at h
  split at h
  · exact List.mem_cons_of_mem _ h
  · exact h

theorem stripLeadingDot_host_port (name port : GoString) :
    ∃ name', stripLeadingDot (name ++ ':' :: port) = name' ++ ':' :: port := by
  cases name with
  | nil => exact ⟨[], by simp [stripLeadingDot]⟩
  | cons a t =>
    by_cases ha : a = '.'
    · subst ha
      exact ⟨t, by simp [stripLeadingDot]⟩
    · refine ⟨a :: t, ?_⟩
      rw [← trimPrefix_dot]
      simp [trimPrefix, hasPrefix, ha]

theorem cookieMatchesDomain_host_port (c : Cookie) (name port : GoString)
    (hport : port ≠ []) (hdigits : ∀ x ∈ port, x.isDigit = true)
    (hD : c.Domain ≠ []) (hcolon : ':' ∉ c.Domain) :
    cookieMatchesDomain c (name ++ ':' :: port) = false := by
  have _ := hport
  obtain ⟨name', hhost⟩ := stripLeadingDot_host_port name port
  have hd' : ':' ∉ stripLeadingDot c.Domain :=
    fun h => hcolon (stripLeadingDot_subset _ _ h)
  have hfalse : ¬ MatchesSpec c.Domain (name ++ ':' :: port) := by
    unfold MatchesSpec
    rw [hhost]
    rintro (h | h | ⟨pre, h⟩)
    · exact hD h
    · apply hd'
      rw [h]
      simp
    · rw [List.append_eq_append_iff] at h
      rcases h with ⟨a, -, ha⟩ | ⟨a, -, ha⟩
      · cases a with
        | nil =>
          simp only [List.nil_append, List.cons.injEq] at ha
          exact absurd ha.1 (by decide)
        | cons x a' =>
          simp only [List.cons_append, List.cons.injEq] at ha
          have hdot : '.' ∈ port := by
            rw [ha.2]
            simp
          exact absurd (hdigits '.' hdot) (by decide)
      · have hmem : ':' ∈ '.' :: stripLeadingDot c.Domain := by
          rw [ha]
          simp
        simp only [List.mem_cons] at hmem
        rcases hmem with hmem | hmem
        · exact absurd hmem (by decide)
        · exact hd' hmem
  cases hb : cookieMatchesDomain c (name ++ ':' :: port) with
  | false => rfl
  | true => exact absurd ((cookieMatchesDomain_true_iff c _).mp hb) hfalse

/-- C30: for every request host of the form `name:port` with a non-empty all-digit port
and every non-empty cookie domain without `:`, `cookieMatchesDomain` is false; so for
such a host, and stored cookies whose non-empty domains contain no `:`, the request `do`
hands to the transport carries, of the stored cookies, exactly those whose domain is
empty. -/
theorem cookieMatchesDomain_explicit_port (name port : GoString)
    (hport : port ≠ []) (hdigits : ∀ x ∈ port, x.isDigit = true) :
    (∀ c : Cookie, c.Domain ≠ [] → ':' ∉ c.Domain →
      cookieMatchesDomain c (name ++ ':' :: port) = false) ∧
    (∀ (env : Env) (c : Client) (w : World) (req : Request) (u : URL) (cookies : List Cookie),
      env.urlParse (env.urlString req.URL) = .ok u →
      u.Host = name ++ ':' :: port →
      (c.sessionManager.LoadCookies env.json w u.Host).1 = .ok cookies →
      (∀ k ∈ cookies, k.Domain ≠ [] → ':' ∉ k.Domain) →
      (c.do env w req).2.log = w.log ++
        [Event.httpDo
          { req with Cookies := req.Cookies ++ cookies.filter (fun k => k.Domain == []) }
          (env.httpDo w.log
            { req with Cookies := req.Cookies ++
                cookies.filter (fun k => k.Domain == []) })]) := by
  refine ⟨fun c hD hcolon => cookieMatchesDomain_host_port c name port hport hdigits hD hcolon,
    ?_⟩
  intro env c w req u cookies hurl hhost hload hdomains
  have hfilter : cookies.filter (fun k => cookieMatchesDomain k u.Host) =
      cookies.filter (fun k => k.Domain == []) := by
    apply List.filter_congr
    intro k hk
    by_cases hD : k.Domain = []
    · simp [hD, cookieMatchesDomain]
    · rw [hhost, cookieMatchesDomain_host_port k name port hport hdigits hD (hdomains k hk hD)]
      simp [hD]
  rw [do_of_load_ok env c w req u cookies hurl hload, hfilter]
  rfl

/-- Instance of C30: the domain `example.com` against the host `example.com:8080`. -/
theorem cookieMatchesDomain_explicit_port_witness :
    cookieMatchesDomain { Domain := "example.com".toList } "example.com:8080".toList = false :=
  (cookieMatchesDomain_explicit_port "example.com".toList "8080".toList (by decide)
    (by decide)).1 { Domain := "example.com".toList } (by decide) (by decide)

/-! ## Same-site conversion -/

theorem convertCookies_eq_map (rodCookies : List NetworkCookie) :
    convertCookies rodCookies =
      rodCookies.map fun c =>
        { Name := c.Name, Value := c.Value, Path := c.Path, Domain := c.Domain,
          Expires := c.Expires, Secure := c.Secure, HttpOnly := c.HTTPOnly,
          SameSite := convertSameSite c.SameSite } := by
  unfold convertCookies
  rw [foldl_snoc_eq_map]
  simp

/-- C24: cookie conversion maps the browser's same-site value `Strict` to Strict, `Lax`
to Lax, `None` to None and every other string, the empty one included, to Unspecified,
both in the switch inside `extractCookies` and in `convertSameSite`; the cookies those
functions produce carry the mapped value. -/
theorem sameSite_conversion :
    IsSameSiteMapping sameSiteOfString ∧ IsSameSiteMapping convertSameSite ∧
    (∀ (lib : BrowserLib) (b : BrowserAuth) (log : List Event) (host result : GoString)
        (raws : List rawCookie),
      lib.storageGetCookies log = .ok result → lib.parseCookiesResponse result = .ok raws →
      ∃ cookies, b.extractCookies lib log host = .ok cookies ∧
        cookies.map (fun k => k.SameSite) = raws.map (fun c => sameSiteOfString c.SameSite)) ∧
    (∀ rodCookies : List NetworkCookie,
      (convertCookies rodCookies).map (fun k => k.SameSite) =
        rodCookies.map (fun c => convertSameSite c.SameSite)) := by
  refine ⟨⟨by decide, by decide, by decide, by decide, ?_⟩,
    ⟨by decide, by decide, by decide, by decide, ?_⟩, ?_, ?_⟩
  · intro s h1 h2 h3
    unfold sameSiteOfString
    rw [if_neg h1, if_neg h2, if_neg h3]
  · intro s h1 h2 h3
    unfold convertSameSite NetworkCookieSameSiteStrict NetworkCookieSameSiteLax
      NetworkCookieSameSiteNone
    rw [if_neg h1, if_neg h2, if_neg h3]
  · intro lib b log host result raws hget hparse
    have hex : b.extractCookies lib log host =
        .ok (raws.map fun c =>
          { Name := c.Name, Value := c.Value, Path := c.Path, Domain := c.Domain,
            Expires := c.Expires, Secure := c.Secure, HttpOnly := c.HTTPOnly,
            SameSite := sameSiteOfString c.SameSite }) := by
      unfold BrowserAuth.extractCookies
      rw [hget]
      dsimp only
      rw [hparse]
    exact ⟨_, hex, by simp [List.map_map, Function.comp]⟩
  · intro rodCookies
    rw [convertCookies_eq_map]
    simp [List.map_map, Function.comp]

/-- Instance of C24 on an unrecognised value. -/
theorem sameSite_conversion_witness :
    sameSiteOfString "Extended".toList = .SameSiteDefaultMode ∧
    convertSameSite "Extended".toList = .SameSiteDefaultMode :=
  ⟨sameSite_conversion.1.2.2.2.2 "Extended".toList (by decide) (by decide) (by decide),
   sameSite_conversion.2.1.2.2.2.2 "Extended".toList (by decide) (by decide) (by decide)⟩

/-! ## Capturing credentials -/

theorem AuthenticateAndCapture_world (env : Env) (page : PageLib) (b : BrowserAuth)
    (w : World) (targetURL : GoString) :
    (b.AuthenticateAndCapture env page w targetURL).2 = w := by
  unfold BrowserAuth.AuthenticateAndCapture
  cases env.urlParse targetURL with
  | error e => rfl
  | ok u =>
    dsimp only
    cases GetBrowserConfig env.browser b.browserType with
    | error e => rfl
    | ok config =>
      dsimp only
      cases env.browser.getOrLaunchBrowser w.log config with
      | error e => rfl
      | ok needsClose =>
        dsimp only
        cases b.extractCookies env.browser w.log u.Host with
        | error e => rfl
        | ok cookies => rfl

theorem AuthenticateAndCapture_of_capture (env : Env) (page : PageLib) (b : BrowserAuth)
    (w : World) (targetURL : GoString) (u : URL) (config : BrowserConfig) (needsClose : Bool)
    (cookies : List Cookie)
    (hurl : env.urlParse targetURL = .ok u)
    (hconfig : GetBrowserConfig env.browser b.browserType = .ok config)
    (hbrowser : env.browser.getOrLaunchBrowser w.log config = .ok needsClose)
    (hcapture : b.extractCookies env.browser w.log u.Host = .ok cookies) :
    b.AuthenticateAndCapture env page w targetURL =
      (.ok { Cookies := cookies,
             LocalStorage :=
               match ExtractLocalStorage page w.log with
               | .error _ => []
               | .ok localStorage => localStorage }, w) := by
  unfold BrowserAuth.AuthenticateAndCapture
  rw [hurl]
  dsimp only
  rw [hconfig]
  dsimp only
  rw [hbrowser]
  dsimp only
  rw [hcapture]

/-- C21: `AuthenticateAndCapture` never writes to the Credential Store: whatever the
outcome of the call, the world after it is the world before it; and on success the
result holds the cookies `extractCookies` captured and the storage map read from the
page (the empty map when reading it failed). -/
theorem AuthenticateAndCapture_frame (env : Env) (page : PageLib) (b : BrowserAuth)
    (w : World) (targetURL : GoString) :
    (b.AuthenticateAndCapture env page w targetURL).2 = w ∧
    (b.AuthenticateAndCapture env page w targetURL).2.files = w.files ∧
    ∀ result, (b.AuthenticateAndCapture env page w targetURL).1 = .ok result →
      ∃ u, env.urlParse targetURL = .ok u ∧
        b.extractCookies env.browser w.log u.Host = .ok result.Cookies ∧
        (ExtractLocalStorage page w.log = .ok result.LocalStorage ∨
          (result.LocalStorage = [] ∧ ∃ err, ExtractLocalStorage page w.log = .error err)) := by
  refine ⟨AuthenticateAndCapture_world env page b w targetURL,
    by rw [AuthenticateAndCapture_world], ?_⟩
  intro result hres
  unfold BrowserAuth.AuthenticateAndCapture at hres
  cases hurl : env.urlParse targetURL with
  | error e => rw [hurl] at hres; cases hres
  | ok u =>
    rw [hurl] at hres
    dsimp only at hres
    cases hconfig : GetBrowserConfig env.browser b.browserType with
    | error e => rw [hconfig] at hres; cases hres
    | ok config =>
      rw [hconfig] at hres
      dsimp only at hres
      cases hbrowser : env.browser.getOrLaunchBrowser w.log config with
      | error e => rw [hbrowser] at hres; cases hres
      | ok needsClose =>
        rw [hbrowser] at hres
        dsimp only at hres
        cases hcapture : b.extractCookies env.browser w.log u.Host with
        | error e => rw [hcapture] at hres; cases hres
        | ok cookies =>
          rw [hcapture] at hres
          dsimp only at hres
          have hr := Except.ok.inj hres
          subst hr
          refine ⟨u, rfl, hcapture, ?_⟩
          cases hst : ExtractLocalStorage page w.log with
          | error e => exact Or.inr ⟨rfl, e, rfl⟩
          | ok ls => exact Or.inl rfl

/-- Instance of C21: a login that captures one cookie and two storage entries. -/
theorem AuthenticateAndCapture_frame_witness :
    (sampleClient.browserAuth.AuthenticateAndCapture (sampleEnv workingBrowser server200)
      workingPage emptyWorld sampleURLText) =
      (.ok { Cookies := otherCookies,
             LocalStorage := [sampleAuth0Entry, plainStorageEntry] }, emptyWorld) :=
  Prod.ext rfl
    (AuthenticateAndCapture_frame (sampleEnv workingBrowser server200) workingPage
      sampleClient.browserAuth emptyWorld sampleURLText).1

/-- C22 as stated fails: when the login completes with zero cookies captured,
`AuthenticateAndCapture` returns the empty cookie list with the storage map and no
error, while `Authenticate` returns an error. -/
theorem AuthenticateAndCapture_zero_cookies_counterexample :
    sampleClient.browserAuth.extractCookies emptyBrowser emptyWorld.log
      "app.example.com".toList = .ok [] ∧
    (sampleClient.browserAuth.AuthenticateAndCapture (sampleEnv emptyBrowser server200)
      workingPage emptyWorld sampleURLText).1 =
      .ok { Cookies := [], LocalStorage := [sampleAuth0Entry, plainStorageEntry] } ∧
    (sampleClient.browserAuth.Authenticate (sampleEnv emptyBrowser server200) emptyWorld
      sampleURLText).1 = .error "no cookies captured - login may have failed".toList :=
  ⟨rfl, rfl, rfl⟩

/-- C22 (amended): every completed login flow that captures zero cookies ends in an
error in `Authenticate`; `AuthenticateAndCapture` makes no such check and returns the
empty cookie list together with the storage map, with no error. -/
theorem zero_cookies_outcome (env : Env) (page : PageLib) (b : BrowserAuth) (w : World)
    (targetURL : GoString) (u : URL) (config : BrowserConfig) (needsClose : Bool)
    (hurl : env.urlParse targetURL = .ok u)
    (hconfig : GetBrowserConfig env.browser b.browserType = .ok config)
    (hbrowser : env.browser.getOrLaunchBrowser w.log config = .ok needsClose)
    (hcapture : b.extractCookies env.browser w.log u.Host = .ok []) :
    (b.Authenticate env w targetURL).1 =
      .error "no cookies captured - login may have failed".toList ∧
    ∃ storage, (b.AuthenticateAndCapture env page w targetURL).1 =
      .ok { Cookies := [], LocalStorage := storage } := by
  constructor
  · unfold BrowserAuth.Authenticate
    rw [authenticateFlow_of_capture env b w targetURL u config needsClose [] hurl hconfig
      hbrowser hcapture]
    rfl
  · rw [AuthenticateAndCapture_of_capture env page b w targetURL u config needsClose []
      hurl hconfig hbrowser hcapture]
    exact ⟨_, rfl⟩

/-- Instance of the amended C22: the sample browser that captures no cookie. -/
theorem zero_cookies_outcome_witness :
    (sampleClient.browserAuth.Authenticate (sampleEnv emptyBrowser server200) emptyWorld
      sampleURLText).1 = .error "no cookies captured - login may have failed".toList ∧
    ∃ storage, (sampleClient.browserAuth.AuthenticateAndCapture
      (sampleEnv emptyBrowser server200) workingPage emptyWorld sampleURLText).1 =
      .ok { Cookies := [], LocalStorage := storage } :=
  zero_cookies_outcome (sampleEnv emptyBrowser server200) workingPage sampleClient.browserAuth
    emptyWorld sampleURLText sampleURL sampleConfig false rfl rfl rfl rfl

/-- C23: when the login flow has completed and the cookies are captured, a failure to
read the page's storage (the script evaluation fails, or its output does not decode as
a map of strings) does not fail `AuthenticateAndCapture`: it returns the captured
cookies with an empty storage map. -/
theorem AuthenticateAndCapture_storage_failure (env : Env) (page : PageLib) (b : BrowserAuth)
    (w : World) (targetURL : GoString) (u : URL) (config : BrowserConfig) (needsClose : Bool)
    (cookies : List Cookie)
    (hurl : env.urlParse targetURL = .ok u)
    (hconfig : GetBrowserConfig env.browser b.browserType = .ok config)
    (hbrowser : env.browser.getOrLaunchBrowser w.log config = .ok needsClose)
    (hcapture : b.extractCookies env.browser w.log u.Host = .ok cookies)
    (hfail : (∃ err, page.evalLocalStorage w.log = .error err) ∨
      ∃ jsonStr err, page.evalLocalStorage w.log = .ok jsonStr ∧
        page.unmarshalStorage jsonStr = .error err) :
    b.AuthenticateAndCapture env page w targetURL =
      (.ok { Cookies := cookies, LocalStorage := [] }, w) := by
  rw [AuthenticateAndCapture_of_capture env page b w targetURL u config needsClose cookies
    hurl hconfig hbrowser hcapture]
  have hstorage : ∃ err, ExtractLocalStorage page w.log = .error err := by
    unfold ExtractLocalStorage ParseLocalStorageJSON
    rcases hfail with ⟨err, h⟩ | ⟨jsonStr, err, h1, h2⟩
    · rw [h]
      exact ⟨_, rfl⟩
    · rw [h1]
      dsimp only
      rw [h2]
      exact ⟨_, rfl⟩
  obtain ⟨err, herr⟩ := hstorage
  rw [herr]

/-- Instance of C23: a page that does not allow script evaluation. -/
theorem AuthenticateAndCapture_storage_failure_witness :
    sampleClient.browserAuth.AuthenticateAndCapture (sampleEnv workingBrowser server200)
      brokenPage emptyWorld sampleURLText =
      (.ok { Cookies := otherCookies, LocalStorage := [] }, emptyWorld) :=
  AuthenticateAndCapture_storage_failure (sampleEnv workingBrowser server200) brokenPage
    sampleClient.browserAuth emptyWorld sampleURLText sampleURL sampleConfig false otherCookies
    rfl rfl rfl rfl (Or.inl ⟨_, rfl⟩)

/-- The other failure of C23: the storage script returns text that is not a JSON object
of strings, as in `TestParseLocalStorageJSON_Malformed`. -/
theorem AuthenticateAndCapture_malformed_storage_run :
    ParseLocalStorageJSON malformedPage "not json".toList =
      .error "failed to parse localStorage JSON: invalid character".toList ∧
    sampleClient.browserAuth.AuthenticateAndCapture (sampleEnv workingBrowser server200)
      malformedPage emptyWorld sampleURLText =
      (.ok { Cookies := otherCookies, LocalStorage := [] }, emptyWorld) :=
  ⟨rfl, rfl⟩

/-! ## Attaching to or launching the browser -/

theorem iterationsTrace_cons (a : Bool) (answers : List Bool) :
    iterationsTrace (a :: answers) = .sleep 500 :: .probe a :: iterationsTrace answers := by
  simp [iterationsTrace, List.flatMap_cons]

theorem sleptMs_append (s t : List LaunchEvent) : sleptMs (s ++ t) = sleptMs s + sleptMs t := by
  induction s with
  | nil => simp [sleptMs]
  | cons e s ih => cases e <;> simp [sleptMs, ih, Nat.add_assoc]

theorem sleptMs_iterationsTrace (answers : List Bool) :
    sleptMs (iterationsTrace answers) = 500 * answers.length := by
  induction answers with
  | nil => rfl
  | cons a answers ih =>
    rw [iterationsTrace_cons]
    simp only [sleptMs, ih, List.length_cons]
    omega

theorem probesOf_append (s t : List LaunchEvent) : probesOf (s ++ t) = probesOf s ++ probesOf t := by
  induction s with
  | nil => simp [probesOf]
  | cons e s ih => cases e <;> simp [probesOf, ih]

theorem probesOf_iterationsTrace (answers : List Bool) :
    probesOf (iterationsTrace answers) = answers := by
  induction answers with
  | nil => rfl
  | cons a answers ih =>
    rw [iterationsTrace_cons]
    simp only [probesOf, ih]

theorem waitLoop_spec (lib : LaunchLib) (config : BrowserConfig) :
    ∀ (n : Nat) (trace : List LaunchEvent), ∃ answers : List Bool,
      waitLoop lib config n trace = trace ++ iterationsTrace answers ∧
      answers.length ≤ n ∧
      (∀ a ∈ answers.dropLast, a = false) ∧
      (answers.length < n → answers.getLast? = some true) ∧
      ∀ k a, answers[k]? = some a →
        a = lib.isDebugPortOpen config
          (trace ++ iterationsTrace (answers.take k) ++ [.sleep 500]) := by
  intro n
  induction n with
  | zero =>
    intro trace
    refine ⟨[], ?_, Nat.le_refl _, ?_, ?_, ?_⟩
    · simp [waitLoop, iterationsTrace]
    · intro a ha
      simp at ha
    · intro h
      simp at h
    · intro k a h
      simp at h
  | succ n ih =>
    intro trace
    cases hopen : lib.isDebugPortOpen config (trace ++ [.sleep 500]) with
    | true =>
      refine ⟨[true], ?_, ?_, ?_, ?_, ?_⟩
      · simp [waitLoop, hopen, iterationsTrace]
      · simp
      · intro a ha
        simp at ha
      · intro _
        rfl
      · intro k a h
        cases k with
        | zero =>
          simp at h
          simp [iterationsTrace, hopen, ← h]
        | succ k => simp at h
    | false =>
      obtain ⟨answers, htrace, hlen, hfalse, hlast, horacle⟩ :=
        ih (trace ++ [.sleep 500] ++ [.probe false])
      refine ⟨false :: answers, ?_, ?_, ?_, ?_, ?_⟩
      · simp only [waitLoop, hopen]
        rw [iterationsTrace_cons]
        simpa using htrace
      · simpa using hlen
      · intro a ha
        cases answers with
        | nil => simp at ha
        | cons x rest =>
          rw [List.dropLast_cons₂] at ha
          rcases List.mem_cons.mp ha with h | h
          · exact h
          · exact hfalse a h
      · intro h
        have h2 : answers.length < n := by simpa using h
        have h3 := hlast h2
        cases answers with
        | nil => simp at h3
        | cons x rest => simpa using h3
      · intro k a h
        cases k with
        | zero =>
          simp at h
          simp [iterationsTrace, hopen, ← h]
        | succ k =>
          have h2 : answers[k]? = some a := by simpa using h
          have h3 := horacle k a h2
          rw [h3, List.take_succ_cons, iterationsTrace_cons]
          simp

theorem connectBrowser_needsClose (lib : LaunchLib) (config : BrowserConfig)
    (trace : List LaunchEvent) (browser : GoString) (needsClose : Bool)
    (h : (connectBrowser lib config trace).1 = .ok (browser, needsClose)) :
    needsClose = false := by
  unfold connectBrowser at h
  cases hws : lib.webSocketDebuggerURL config trace with
  | error err => rw [hws] at h; cases h
  | ok wsURL =>
    rw [hws] at h
    cases h
    rfl

theorem connectBrowser_trace (lib : LaunchLib) (config : BrowserConfig)
    (trace : List LaunchEvent) :
    ∃ tail, (connectBrowser lib config trace).2 = trace ++ tail ∧
      (tail = [] ∨ ∃ wsURL, tail = [.connect wsURL]) := by
  unfold connectBrowser
  cases lib.webSocketDebuggerURL config trace with
  | error err => exact ⟨[], by simp, Or.inl rfl⟩
  | ok wsURL => exact ⟨[.connect wsURL], rfl, Or.inr ⟨wsURL, rfl⟩⟩

theorem connectBrowser_ne_timeout (lib : LaunchLib) (config : BrowserConfig)
    (trace : List LaunchEvent) :
    (connectBrowser lib config trace).1 ≠
      .error "browser debug port did not open after 15 seconds".toList := by
  unfold connectBrowser
  cases lib.webSocketDebuggerURL config trace with
  | error err =>
    intro h
    have h2 := Except.error.inj h
    simp [wrapError] at h2
  | ok wsURL =>
    intro h
    cases h

theorem getOrLaunchBrowser_needsClose (lib : LaunchLib) (b : BrowserAuth)
    (config : BrowserConfig) (browser : GoString) (needsClose : Bool)
    (h : (b.getOrLaunchBrowser lib config).1 = .ok (browser, needsClose)) :
    needsClose = false := by
  unfold BrowserAuth.getOrLaunchBrowser at h
  dsimp only at h
  cases hopen : lib.isDebugPortOpen config [] with
  | true =>
    rw [hopen] at h
    exact connectBrowser_needsClose lib config _ browser needsClose h
  | false =>
    rw [hopen] at h
    simp only [Bool.false_eq_true, if_false] at h
    cases hstart : lib.cmdStart config [.probe false] with
    | error err => rw [hstart] at h; cases h
    | ok u =>
      rw [hstart] at h
      dsimp only at h
      split at h
      · cases h
      · exact connectBrowser_needsClose lib config _ browser needsClose h

theorem launchOutcome_ok (lib : LaunchLib) (b : BrowserAuth) (config : BrowserConfig)
    (needsClose : Bool) (h : b.launchOutcome lib config = .ok needsClose) :
    needsClose = false := by
  unfold BrowserAuth.launchOutcome at h
  cases hres : (b.getOrLaunchBrowser lib config).1 with
  | error err => rw [hres] at h; cases h
  | ok r =>
    obtain ⟨browser, flag⟩ := r
    rw [hres] at h
    cases h
    exact getOrLaunchBrowser_needsClose lib b config browser _ hres

/-- C26: `getOrLaunchBrowser` never reports that the browser must be closed. On every
successful return, by attaching or after launching, the needs-close result is `false`;
so when `Authenticate` or `AuthenticateAndCapture` receives the flag from this method,
the branch `if needsClose` that registers `browser.MustClose()` is not taken. -/
theorem getOrLaunchBrowser_never_needs_close (lib : LaunchLib) (b : BrowserAuth)
    (config : BrowserConfig) :
    (∀ browser needsClose,
      (b.getOrLaunchBrowser lib config).1 = .ok (browser, needsClose) → needsClose = false) ∧
    (∀ needsClose, b.launchOutcome lib config = .ok needsClose → needsClose = false) ∧
    ∀ (env : Env) (machine : List Event → LaunchLib) (w : World) (targetURL : GoString),
      (∀ log cfg, env.browser.getOrLaunchBrowser log cfg = b.launchOutcome (machine log) cfg) →
      b.closesBrowserOnExit env w targetURL = false := by
  refine ⟨getOrLaunchBrowser_needsClose lib b config, launchOutcome_ok lib b config, ?_⟩
  intro env machine w targetURL hlaunch
  unfold BrowserAuth.closesBrowserOnExit
  cases env.urlParse targetURL with
  | error err => rfl
  | ok u =>
    dsimp only
    cases GetBrowserConfig env.browser b.browserType with
    | error err => rfl
    | ok cfg =>
      dsimp only
      cases hres : env.browser.getOrLaunchBrowser w.log cfg with
      | error err => rfl
      | ok needsClose =>
        rw [hlaunch] at hres
        rw [launchOutcome_ok (machine w.log) b cfg needsClose hres]
        rfl

/-- Instance of C26: attaching to a running browser and launching a slow one both give
needs-close `false`, and `Authenticate` over the attached browser does not register the
close. -/
theorem getOrLaunchBrowser_never_needs_close_witness :
    (sampleClient.browserAuth.getOrLaunchBrowser runningLaunch sampleConfig).1 =
      .ok ("ws://127.0.0.1:9222/devtools/browser/1".toList, false) ∧
    (sampleClient.browserAuth.getOrLaunchBrowser slowLaunch sampleConfig).1 =
      .ok ("ws://127.0.0.1:9222/devtools/browser/2".toList, false) ∧
    sampleClient.browserAuth.closesBrowserOnExit
      (sampleEnv (launchedBrowser runningLaunch sampleClient.browserAuth) server200)
      emptyWorld sampleURLText = false :=
  ⟨rfl, rfl,
    (getOrLaunchBrowser_never_needs_close runningLaunch sampleClient.browserAuth
      sampleConfig).2.2
      (sampleEnv (launchedBrowser runningLaunch sampleClient.browserAuth) server200)
      (fun _ => runningLaunch) emptyWorld sampleURLText (fun _ _ => rfl)⟩

theorem getOrLaunchBrowser_launched (lib : LaunchLib) (b : BrowserAuth)
    (config : BrowserConfig)
    (hclosed : lib.isDebugPortOpen config [] = false)
    (hstart : lib.cmdStart config [.probe false] = .ok ()) :
    b.getOrLaunchBrowser lib config =
      if lib.isDebugPortOpen config (waitLoop lib config 30
          [.probe false, .start config.ExePath config.DebugPort config.UserDataDir]) = false
      then
        (.error "browser debug port did not open after 15 seconds".toList,
          waitLoop lib config 30
            [.probe false, .start config.ExePath config.DebugPort config.UserDataDir] ++
            [.probe false])
      else
        connectBrowser lib config
          (waitLoop lib config 30
            [.probe false, .start config.ExePath config.DebugPort config.UserDataDir] ++
            [.probe true]) := by
  unfold BrowserAuth.getOrLaunchBrowser
  dsimp only
  rw [hclosed]
  simp only [Bool.false_eq_true, if_false]
  rw [hstart]
  dsimp only
  cases hfinal : lib.isDebugPortOpen config (waitLoop lib config 30
      ([.probe false] ++ [.start config.ExePath config.DebugPort config.UserDataDir])) with
  | true =>
    have hfinal2 : lib.isDebugPortOpen config (waitLoop lib config 30
        [.probe false, .start config.ExePath config.DebugPort config.UserDataDir]) = true :=
      hfinal
    rw [hfinal2]
    simp
  | false =>
    have hfinal2 : lib.isDebugPortOpen config (waitLoop lib config 30
        [.probe false, .start config.ExePath config.DebugPort config.UserDataDir]) = false :=
      hfinal
    rw [hfinal2]
    simp

theorem getOrLaunchBrowser_slept (lib : LaunchLib) (b : BrowserAuth)
    (config : BrowserConfig) : sleptMs (b.getOrLaunchBrowser lib config).2 ≤ 15000 := by
  cases hclosed : lib.isDebugPortOpen config [] with
  | true =>
    unfold BrowserAuth.getOrLaunchBrowser
    dsimp only
    rw [hclosed]
    simp only [if_true]
    obtain ⟨tail, htail, hshape⟩ := connectBrowser_trace lib config [.probe true]
    rw [htail, sleptMs_append]
    rcases hshape with h | ⟨wsURL, h⟩ <;> simp [h, sleptMs]
  | false =>
    cases hstart : lib.cmdStart config [.probe false] with
    | error err =>
      unfold BrowserAuth.getOrLaunchBrowser
      dsimp only
      rw [hclosed]
      simp only [Bool.false_eq_true, if_false]
      rw [hstart]
      simp [sleptMs]
    | ok u =>
      rw [getOrLaunchBrowser_launched lib b config hclosed hstart]
      obtain ⟨answers, htrace, hlen, -⟩ := waitLoop_spec lib config 30
        [.probe false, .start config.ExePath config.DebugPort config.UserDataDir]
      split
      · rw [htrace, sleptMs_append, sleptMs_append, sleptMs_iterationsTrace]
        have h1 : sleptMs [.probe false,
          .start config.ExePath config.DebugPort config.UserDataDir] = 0 := rfl
        have h2 : sleptMs [.probe false] = 0 := rfl
        rw [h1, h2]
        omega
      · obtain ⟨tail, htail, hshape⟩ := connectBrowser_trace lib config
          (waitLoop lib config 30
            [.probe false, .start config.ExePath config.DebugPort config.UserDataDir] ++
            [.probe true])
        rw [htail, htrace, sleptMs_append, sleptMs_append, sleptMs_append,
          sleptMs_iterationsTrace]
        have h1 : sleptMs [.probe false,
          .start config.ExePath config.DebugPort config.UserDataDir] = 0 := rfl
        have h2 : sleptMs [.probe true] = 0 := rfl
        have h3 : sleptMs tail = 0 := by
          rcases hshape with h | ⟨wsURL, h⟩ <;> rw [h] <;> rfl
        rw [h1, h2, h3]
        omega

/-- C27: `getOrLaunchBrowser` never waits indefinitely: in every run it sleeps at most
15 seconds in total. After launching a browser (the first probe found the port closed
and the process started), the wait loop runs at most 30 iterations, each a 500 ms sleep
followed by one probe of the debug port; every probe before the last iteration found
the port closed, and a loop of fewer than 30 iterations ended on a probe that found it
open. The function then returns the timeout error exactly when the probe made after the
loop finds the port closed. -/
theorem getOrLaunchBrowser_wait_bounded (lib : LaunchLib) (b : BrowserAuth)
    (config : BrowserConfig) :
    sleptMs (b.getOrLaunchBrowser lib config).2 ≤ 15000 ∧
    (lib.isDebugPortOpen config [] = false →
      lib.cmdStart config [.probe false] = .ok () →
      ∃ answers : List Bool,
        waitLoop lib config 30
            [.probe false, .start config.ExePath config.DebugPort config.UserDataDir] =
          [.probe false, .start config.ExePath config.DebugPort config.UserDataDir] ++
            iterationsTrace answers ∧
        answers.length ≤ 30 ∧
        (∀ a ∈ answers.dropLast, a = false) ∧
        (answers.length < 30 → answers.getLast? = some true) ∧
        (∀ k a, answers[k]? = some a →
          a = lib.isDebugPortOpen config
            ([.probe false, .start config.ExePath config.DebugPort config.UserDataDir] ++
              iterationsTrace (answers.take k) ++ [.sleep 500])) ∧
        (∃ tail, (b.getOrLaunchBrowser lib config).2 =
            [.probe false, .start config.ExePath config.DebugPort config.UserDataDir] ++
              iterationsTrace answers ++
              .probe (lib.isDebugPortOpen config (waitLoop lib config 30
                [.probe false, .start config.ExePath config.DebugPort config.UserDataDir])) ::
              tail ∧
          (tail = [] ∨ ∃ wsURL, tail = [.connect wsURL])) ∧
        ((b.getOrLaunchBrowser lib config).1 =
            .error "browser debug port did not open after 15 seconds".toList ↔
          lib.isDebugPortOpen config (waitLoop lib config 30
            [.probe false, .start config.ExePath config.DebugPort config.UserDataDir]) =
            false)) := by
  refine ⟨getOrLaunchBrowser_slept lib b config, ?_⟩
  intro hclosed hstart
  obtain ⟨answers, htrace, hlen, hfalse, hlast, horacle⟩ := waitLoop_spec lib config 30
    [.probe false, .start config.ExePath config.DebugPort config.UserDataDir]
  refine ⟨answers, htrace, hlen, hfalse, hlast, horacle, ?_, ?_⟩
  · rw [getOrLaunchBrowser_launched lib b config hclosed hstart]
    cases hfinal : lib.isDebugPortOpen config (waitLoop lib config 30
        [.probe false, .start config.ExePath config.DebugPort config.UserDataDir]) with
    | false =>
      refine ⟨[], ?_, Or.inl rfl⟩
      simp only [if_true]
      rw [htrace]
    | true =>
      simp only [Bool.true_eq_false, if_false]
      obtain ⟨tail, htail, hshape⟩ := connectBrowser_trace lib config
        (waitLoop lib config 30
          [.probe false, .start config.ExePath config.DebugPort config.UserDataDir] ++
          [.probe true])
      refine ⟨tail, ?_, hshape⟩
      rw [htail, htrace]
      simp
  · rw [getOrLaunchBrowser_launched lib b config hclosed hstart]
    cases hfinal : lib.isDebugPortOpen config (waitLoop lib config 30
        [.probe false, .start config.ExePath config.DebugPort config.UserDataDir]) with
    | false => simp
    | true =>
      simp only [Bool.true_eq_false, if_false, iff_false]
      exact connectBrowser_ne_timeout lib config _

/-- Instance of C27: on a machine where the launched browser never opens its port, the
loop runs 30 iterations, 15 seconds are slept, and the timeout error is returned. -/
theorem getOrLaunchBrowser_wait_bounded_witness :
    sleptMs (sampleClient.browserAuth.getOrLaunchBrowser deadLaunch sampleConfig).2 ≤ 15000 ∧
    (sampleClient.browserAuth.getOrLaunchBrowser deadLaunch sampleConfig).1 =
      .error "browser debug port did not open after 15 seconds".toList :=
  ⟨(getOrLaunchBrowser_wait_bounded deadLaunch sampleClient.browserAuth sampleConfig).1,
    match (getOrLaunchBrowser_wait_bounded deadLaunch sampleClient.browserAuth
      sampleConfig).2 rfl rfl with
    | ⟨_, _, _, _, _, _, _, htimeout⟩ => htimeout.mpr rfl⟩

/-- Runs of `getOrLaunchBrowser`: a port that opens after 1.5 seconds is found at the
third iteration, and a port that never opens costs 30 iterations and 31 probes. -/
theorem getOrLaunchBrowser_runs :
    (sampleClient.browserAuth.getOrLaunchBrowser slowLaunch sampleConfig).2 =
      [.probe false, .start "msedge.exe".toList 9222 "$LOCALAPPDATA/Microsoft/EdgeDebug".toList,
        .sleep 500, .probe false, .sleep 500, .probe false, .sleep 500, .probe true,
        .probe true, .connect "ws://127.0.0.1:9222/devtools/browser/2".toList] ∧
    sleptMs (sampleClient.browserAuth.getOrLaunchBrowser deadLaunch sampleConfig).2 = 15000 ∧
    (probesOf (sampleClient.browserAuth.getOrLaunchBrowser deadLaunch sampleConfig).2).length
      = 32 := by
  refine ⟨by decide, by decide, by decide⟩

/-! ## The stability detector -/

theorem getLast?_append_cons_mem {α : Type} (before : List α) (first : α) (middle : List α)
    (q : α) (h : (before ++ first :: middle).getLast? = some q) : q ∈ first :: middle := by
  rw [List.getLast?_append_cons] at h
  exact List.mem_of_getLast?_eq_some h

theorem runDetector_stable (urlParse : GoString → Except Error URL)
    (ready : URL → DetectorState → Int → Bool) :
    ∀ (rest pre : List Poll) (st : DetectorState) (i : Nat),
      EveryURLParses urlParse (pre ++ rest) →
      ((pre = [] ∧ st = {}) ∨
        ∃ before first middle, pre = before ++ first :: middle ∧
          first.info = .ok st.lastURL ∧ st.stableTime = some first.now ∧
          (∀ q ∈ middle, q.info = .ok st.lastURL) ∧
          (∀ q, before.getLast? = some q → q.info ≠ .ok st.lastURL)) →
      runDetector urlParse ready st rest pre.length = some i →
      ∃ before first middle p after url parsed,
        pre ++ rest = before ++ first :: (middle ++ p :: after) ∧
        i = before.length + 1 + middle.length ∧
        first.info = .ok url ∧ (∀ q ∈ middle, q.info = .ok url) ∧ p.info = .ok url ∧
        (∀ q, before.getLast? = some q → q.info ≠ .ok url) ∧
        urlParse url = .ok parsed ∧
        ready parsed { lastURL := url, stableTime := some first.now } p.now = true := by
  intro rest
  induction rest with
  | nil =>
    intro pre st i _ _ hrun
    simp [runDetector] at hrun
  | cons p rest ih =>
    intro pre st i hall hinv hrun
    have hall2 : EveryURLParses urlParse ((pre ++ [p]) ++ rest) := by
      simpa using hall
    have hlen : (pre ++ [p]).length = pre.length + 1 := by simp
    unfold runDetector at hrun
    cases hinfo : p.info with
    | error e => simp [detectorStep, hinfo] at hrun
    | ok u =>
      obtain ⟨hne, parsed, hparse⟩ := hall p (by simp) u hinfo
      by_cases hu : u = st.lastURL
      · subst hu
        rcases hinv with ⟨_, hst⟩ | ⟨before, first, middle, hpre, hfirst, htime, hmid, hbefore⟩
        · rw [hst] at hne
          exact absurd rfl hne
        · cases hready : ready parsed st p.now with
          | true =>
            simp only [detectorStep, hinfo, hparse, ne_eq, not_true_eq_false, if_false,
              hready, if_true] at hrun
            have hi : pre.length = i := Option.some.inj hrun
            refine ⟨before, first, middle, p, rest, st.lastURL, parsed, ?_, ?_, hfirst, hmid,
              ?_, hbefore, ?_, ?_⟩
            · rw [hpre]
              simp
            · rw [← hi, hpre]
              simp
              omega
            · exact hinfo
            · exact hparse
            · have hst : st = { lastURL := st.lastURL, stableTime := some first.now } := by
                cases st
                simp at htime
                simp [htime]
              rw [← hst]
              exact hready
          | false =>
            simp only [detectorStep, hinfo, hparse, ne_eq, not_true_eq_false, if_false,
              hready, Bool.false_eq_true] at hrun
            rw [← hlen] at hrun
            have hres := ih (pre ++ [p]) st i hall2
              (Or.inr ⟨before, first, middle ++ [p], by rw [hpre]; simp, hfirst, htime,
                by
                  intro q hq
                  rcases List.mem_append.mp hq with h | h
                  · exact hmid q h
                  · rw [List.mem_singleton.mp h, hinfo],
                hbefore⟩) hrun
            simpa using hres
      · simp only [detectorStep, hinfo, hparse, ne_eq, hu, not_false_eq_true, if_true] at hrun
        rw [← hlen] at hrun
        have hres := ih (pre ++ [p]) { lastURL := u, stableTime := some p.now } i hall2
          (Or.inr ⟨pre, p, [], rfl, hinfo, rfl, by simp, by
            intro q hq hqu
            rcases hinv with ⟨hpre, _⟩ | ⟨before, first, middle, hpre, hfirst, _, hmid, _⟩
            · rw [hpre] at hq
              simp at hq
            · rw [hpre] at hq
              have hmem := getLast?_append_cons_mem before first middle q hq
              have hq2 : q.info = .ok st.lastURL := by
                rcases List.mem_cons.mp hmem with h | h
                · rw [h]
                  exact hfirst
                · exact hmid q h
              rw [hq2] at hqu
              exact hu (Except.ok.inj hqu).symm⟩) hrun
        simpa using hres

theorem runDetector_complete (urlParse : GoString → Except Error URL)
    (ready : URL → DetectorState → Int → Bool) :
    ∀ (rest : List Poll) (st : DetectorState) (k i : Nat),
      runDetector urlParse ready st rest k = some i →
      ∃ st2 p url parsed, k ≤ i ∧ rest[i - k]? = some p ∧ p.info = .ok url ∧
        urlParse url = .ok parsed ∧ url = st2.lastURL ∧ ready parsed st2 p.now = true := by
  intro rest
  induction rest with
  | nil =>
    intro st k i hrun
    simp [runDetector] at hrun
  | cons p rest ih =>
    intro st k i hrun
    unfold runDetector at hrun
    cases hstep : detectorStep urlParse ready st p with
    | stopped => rw [hstep] at hrun; cases hrun
    | complete =>
      rw [hstep] at hrun
      have hi : k = i := Option.some.inj hrun
      unfold detectorStep at hstep
      cases hinfo : p.info with
      | error e => rw [hinfo] at hstep; cases hstep
      | ok u =>
        rw [hinfo] at hstep
        dsimp only at hstep
        cases hparse : urlParse u with
        | error e => rw [hparse] at hstep; cases hstep
        | ok parsed =>
          rw [hparse] at hstep
          dsimp only at hstep
          by_cases hu : u = st.lastURL
          · cases hready : ready parsed st p.now with
            | false => simp [hu, hready] at hstep
            | true =>
              refine ⟨st, p, u, parsed, Nat.le_of_eq hi, ?_, hinfo, hparse, hu, hready⟩
              rw [hi]
              simp
          · simp [hu] at hstep
    | next st2 =>
      rw [hstep] at hrun
      obtain ⟨st3, q, url, parsed, hle, hq, hrest⟩ := ih st2 (k + 1) i hrun
      refine ⟨st3, q, url, parsed, by omega, ?_, hrest⟩
      have hik : i - k = (i - (k + 1)) + 1 := by omega
      rw [hik, List.getElem?_cons_succ]
      exact hq

theorem DeclaredOnStablePoll_previous (urlParse : GoString → Except Error URL)
    (originalHost : GoString) (polls : List Poll) (i : Nat)
    (h : DeclaredOnStablePoll urlParse originalHost polls i) :
    ∃ prev p url, 1 ≤ i ∧ polls[i - 1]? = some prev ∧ polls[i]? = some p ∧
      prev.info = .ok url ∧ p.info = .ok url := by
  obtain ⟨before, first, middle, p, after, url, parsed, hpolls, hi, hfirst, hmid, hp, -⟩ := h
  have hlen : (before ++ first :: middle).length = i := by
    simp
    omega
  have hpolls2 : polls = (before ++ first :: middle) ++ p :: after := by
    rw [hpolls]
    simp
  cases hlast : (before ++ first :: middle).getLast? with
  | none => simp at hlast
  | some prev =>
    have hmem := getLast?_append_cons_mem before first middle prev hlast
    refine ⟨prev, p, url, by omega, ?_, ?_, ?_, hp⟩
    · rw [hpolls2, List.getElem?_append_left (by omega), ← hlen,
        ← List.getLast?_eq_getElem?]
      exact hlast
    · rw [hpolls2, List.getElem?_append_right (by omega), hlen]
      simp
    · rcases List.mem_cons.mp hmem with h | h
      · rw [h]
        exact hfirst
      · exact hmid prev h

theorem runDetector_declared (urlParse : GoString → Except Error URL)
    (ready : URL → DetectorState → Int → Bool) (originalHost : GoString)
    (hready : ∀ parsed st now, ready parsed st now = true →
      parsed.Host = originalHost ∧ stableThreshold ≤ timeSince now st.stableTime)
    (polls : List Poll) (i : Nat) (hrun : runDetector urlParse ready {} polls 0 = some i) :
    (∃ p url parsed, polls[i]? = some p ∧ p.info = .ok url ∧ urlParse url = .ok parsed ∧
      parsed.Host = originalHost) ∧
    (EveryURLParses urlParse polls → DeclaredOnStablePoll urlParse originalHost polls i) := by
  constructor
  · obtain ⟨st2, p, url, parsed, -, hp, hinfo, hparse, -, hr⟩ :=
      runDetector_complete urlParse ready polls {} 0 i hrun
    exact ⟨p, url, parsed, by simpa using hp, hinfo, hparse, (hready _ _ _ hr).1⟩
  · intro hall
    obtain ⟨before, first, middle, p, after, url, parsed, hpolls, hi, hfirst, hmid, hp,
      hbefore, hparse, hr⟩ :=
      runDetector_stable urlParse ready polls [] {} i (by simpa using hall)
        (Or.inl ⟨rfl, rfl⟩) hrun
    exact ⟨before, first, middle, p, after, url, parsed, by simpa using hpolls, hi, hfirst,
      hmid, hp, hbefore, (hready _ _ _ hr).2, hparse, (hready _ _ _ hr).1⟩

theorem authenticateReady_true (originalHost : GoString) (parsed : URL) (st : DetectorState)
    (now : Int) (h : authenticateReady originalHost parsed st now = true) :
    parsed.Host = originalHost ∧ stableThreshold ≤ timeSince now st.stableTime := by
  unfold authenticateReady at h
  simpa using h

theorem captureReady_true (originalHost : GoString) (parsed : URL) (st : DetectorState)
    (now : Int) (h : captureReady originalHost parsed st now = true) :
    (parsed.Host = originalHost ∧ stableThreshold ≤ timeSince now st.stableTime) ∧
    parsed.Path ≠ "/landing".toList ∧ parsed.Path ≠ "/landing/".toList := by
  unfold captureReady at h
  simp only [Bool.and_eq_true, beq_iff_eq, decide_eq_true_eq, bne_iff_ne, ne_eq] at h
  exact ⟨⟨h.1.1, h.1.2⟩, h.2.1, h.2.2⟩

/-- C25 as stated fails: when a poll in between shows a URL that `url.Parse` rejects,
the detector skips it without touching `lastURL`, and declares completion at the next
poll although the URL of the poll before it was a different one. -/
theorem stability_detector_counterexample :
    authenticateDetector sampleUrlParse "app.example.com".toList interruptedPolls = some 2 ∧
    captureDetector sampleUrlParse "app.example.com".toList interruptedPolls = some 2 ∧
    ¬ ∃ prev p url, interruptedPolls[1]? = some prev ∧ interruptedPolls[2]? = some p ∧
      prev.info = .ok url ∧ p.info = .ok url := by
  refine ⟨by decide, by decide, ?_⟩
  rintro ⟨prev, p, url, hprev, hp, hprevURL, hpURL⟩
  have h1 : prev = { info := .ok "https://app.example.com/%zz".toList, now := 2000000000 } :=
    (Option.some.inj hprev).symm
  have h2 : p = { info := .ok sampleURLText, now := 4000000000 } := (Option.some.inj hp).symm
  rw [h1] at hprevURL
  rw [h2] at hpURL
  have h3 := (Except.ok.inj hprevURL).trans (Except.ok.inj hpURL).symm
  revert h3
  decide

/-- C25 (amended): the stability detector declares completion only on a poll whose URL
parses and has the original host as authority; in the `AuthenticateAndCapture` variant
additionally only when its path is neither `/landing` nor `/landing/`. When every
polled URL is non-empty and parses, the poll is one where the URL is identical to the
URL of the previous poll and at least 3 seconds have passed since the poll at which
that URL was first observed. -/
theorem stability_detector_completion (urlParse : GoString → Except Error URL)
    (originalHost : GoString) (polls : List Poll) (i : Nat) :
    (authenticateDetector urlParse originalHost polls = some i →
      (∃ p url parsed, polls[i]? = some p ∧ p.info = .ok url ∧ urlParse url = .ok parsed ∧
        parsed.Host = originalHost) ∧
      (EveryURLParses urlParse polls →
        DeclaredOnStablePoll urlParse originalHost polls i ∧
        ∃ prev p url, 1 ≤ i ∧ polls[i - 1]? = some prev ∧ polls[i]? = some p ∧
          prev.info = .ok url ∧ p.info = .ok url)) ∧
    (captureDetector urlParse originalHost polls = some i →
      (∃ p url parsed, polls[i]? = some p ∧ p.info = .ok url ∧ urlParse url = .ok parsed ∧
        parsed.Host = originalHost) ∧
      PastLandingAt urlParse polls i ∧
      (EveryURLParses urlParse polls →
        DeclaredOnStablePoll urlParse originalHost polls i ∧
        ∃ prev p url, 1 ≤ i ∧ polls[i - 1]? = some prev ∧ polls[i]? = some p ∧
          prev.info = .ok url ∧ p.info = .ok url)) := by
  constructor
  · intro hrun
    have h := runDetector_declared urlParse (authenticateReady originalHost) originalHost
      (authenticateReady_true originalHost) polls i hrun
    exact ⟨h.1, fun hall =>
      ⟨h.2 hall, DeclaredOnStablePoll_previous urlParse originalHost polls i (h.2 hall)⟩⟩
  · intro hrun
    have h := runDetector_declared urlParse (captureReady originalHost) originalHost
      (fun parsed st now hr => (captureReady_true originalHost parsed st now hr).1) polls i hrun
    refine ⟨h.1, ?_, fun hall =>
      ⟨h.2 hall, DeclaredOnStablePoll_previous urlParse originalHost polls i (h.2 hall)⟩⟩
    obtain ⟨st2, p, url, parsed, -, hp, hinfo, hparse, -, hr⟩ :=
      runDetector_complete urlParse (captureReady originalHost) polls {} 0 i hrun
    exact ⟨p, url, parsed, by simpa using hp, hinfo, hparse,
      (captureReady_true originalHost parsed st2 p.now hr).2⟩

/-- Instance of the amended C25: a page that stays on the target URL is declared
complete at the poll made 3 seconds after the first. -/
theorem stability_detector_completion_witness :
    authenticateDetector sampleUrlParse "app.example.com".toList stablePolls = some 2 ∧
    captureDetector sampleUrlParse "app.example.com".toList stablePolls = some 2 ∧
    DeclaredOnStablePoll sampleUrlParse "app.example.com".toList stablePolls 2 ∧
    PastLandingAt sampleUrlParse stablePolls 2 := by
  have hall : EveryURLParses sampleUrlParse stablePolls := by
    intro q hq u hu
    simp only [stablePolls, List.mem_cons, List.mem_singleton, List.not_mem_nil,
      or_false] at hq
    have hu2 : u = sampleURLText := by
      rcases hq with h | h | h <;> rw [h] at hu <;> exact (Except.ok.inj hu).symm
    rw [hu2]
    exact ⟨by decide, sampleURL, rfl⟩
  have h := stability_detector_completion sampleUrlParse "app.example.com".toList
    stablePolls 2
  exact ⟨by decide, by decide, ((h.1 (by decide)).2 hall).1, (h.2 (by decide)).2.1⟩

/-- A first poll that shows the empty URL equals the initial `lastURL`, and with the
zero `stableTime` the detector declares completion at once when the original host is
empty too. -/
theorem authenticateDetector_empty_url_run :
    authenticateDetector (fun s => if s = [] then .ok {} else .error "invalid".toList) []
      [{ info := .ok [], now := 0 }] = some 0 := by
  decide

/-! ## The wait for login completion -/

theorem trySend_fields (s : LoginWait) :
    (trySend s).doneClosed = s.doneClosed ∧ (trySend s).caller = s.caller ∧
    (trySend s).stability = s.stability ∧ (trySend s).manual = s.manual ∧
    (trySend s).pollsAfterClose = s.pollsAfterClose ∧
    (trySend s).receivedCount = s.receivedCount ∧ (trySend s).pollCount = s.pollCount := by
  unfold trySend
  split <;> simp

theorem step_manual (urlParse : GoString → Except Error URL)
    (ready : URL → DetectorState → Int → Bool) (page : Nat → Poll) (s t : LoginWait)
    (a : WaitAction) (henter : a ≠ .enter) (herror : a ≠ .stdinError)
    (h : s.step urlParse ready page a = some t) : t.manual = s.manual := by
  cases a with
  | enter => exact absurd rfl henter
  | stdinError => exact absurd rfl herror
  | caller =>
    simp only [LoginWait.step] at h
    split at h
    · split at h
      · cases h
        rfl
      · cases h
    · cases h
      rfl
    · cases h
  | stability =>
    simp only [LoginWait.step] at h
    split at h
    · split at h <;> cases h <;> rfl
    · split at h
      · cases h
        rfl
      · cases h
        rfl
      · cases h
        exact (trySend_fields _).2.2.2.1
    · cases h

theorem run_manual (urlParse : GoString → Except Error URL)
    (ready : URL → DetectorState → Int → Bool) (page : Nat → Poll) :
    ∀ (schedule : List WaitAction) (s t : LoginWait),
      WaitAction.enter ∉ schedule → WaitAction.stdinError ∉ schedule →
      LoginWait.run urlParse ready page s schedule = some t → t.manual = s.manual := by
  intro schedule
  induction schedule with
  | nil =>
    intro s t _ _ h
    cases h
    rfl
  | cons a schedule ih =>
    intro s t henter herror h
    simp only [LoginWait.run] at h
    cases hstep : s.step urlParse ready page a with
    | none => rw [hstep] at h; cases h
    | some s2 =>
      rw [hstep] at h
      have h1 := ih s2 t (fun hm => henter (List.mem_cons_of_mem _ hm))
        (fun hm => herror (List.mem_cons_of_mem _ hm)) h
      have h2 := step_manual urlParse ready page s s2 a
        (fun ha => henter (by rw [ha]; exact List.mem_cons_self _ _))
        (fun ha => herror (by rw [ha]; exact List.mem_cons_self _ _)) hstep
      rw [h1, h2]

theorem step_consistent (urlParse : GoString → Except Error URL)
    (ready : URL → DetectorState → Int → Bool) (page : Nat → Poll) (s t : LoginWait)
    (a : WaitAction) (hs : s.Consistent)
    (h : s.step urlParse ready page a = some t) : t.Consistent := by
  obtain ⟨h1, h2, h3, h4, h5⟩ := hs
  cases a with
  | caller =>
    simp only [LoginWait.step] at h
    split at h
    · rename_i hc
      split at h
      · cases h
        obtain ⟨hr, hd⟩ := h1 hc
        refine ⟨by simp, by simp [hr], by simpa using h3, h4, h5⟩
      · cases h
    · rename_i hc
      cases h
      have hr := h2 (by rw [hc]; simp)
      exact ⟨by simp, by simpa using hr, by simp, h4, h5⟩
    · cases h
  | stability =>
    simp only [LoginWait.step] at h
    split at h
    · rename_i hst
      split at h
      · cases h
        exact ⟨h1, h2, h3, h4, by simp⟩
      · rename_i hd
        cases h
        have hp := h3 (by simpa using hd)
        exact ⟨h1, h2, h3, h4, by simp [hp]⟩
    · rename_i hst
      have hpad : s.pollsAfterClose = 0 := by
        have := h5
        rw [hst] at this
        simp at this
        omega
      split at h
      · cases h
        refine ⟨h1, h2, ?_, ?_, by simp⟩
        · intro hd
          simp at hd
          simp [hd]
          exact h3 hd
        · simp
          split <;> omega
      · cases h
        refine ⟨h1, h2, ?_, ?_, by simp⟩
        · intro hd
          simp at hd
          simp [hd]
          exact h3 hd
        · simp
          split <;> omega
      · cases h
        have hf := trySend_fields
          { s with pollCount := s.pollCount + 1,
                   pollsAfterClose :=
                     if s.doneClosed then s.pollsAfterClose + 1 else s.pollsAfterClose }
        obtain ⟨f1, f2, f3, f4, f5, f6, f7⟩ := hf
        refine ⟨?_, ?_, ?_, ?_, by simp⟩
        · intro hc
          simp only [f2] at hc
          simp only [f6, f1]
          exact h1 hc
        · intro hc
          simp only [f2] at hc
          simp only [f6]
          exact h2 hc
        · intro hd
          simp only [f1] at hd
          simp only [f5]
          simp [hd]
          exact h3 hd
        · simp only [f5]
          split <;> omega
    · cases h
  | enter =>
    simp only [LoginWait.step] at h
    split at h
    · cases h
      obtain ⟨f1, f2, f3, f4, f5, f6, f7⟩ := trySend_fields s
      refine ⟨?_, ?_, ?_, ?_, ?_⟩
      · intro hc
        simp only [f2] at hc
        simp only [f6, f1]
        exact h1 hc
      · intro hc
        simp only [f2] at hc
        simp only [f6]
        exact h2 hc
      · intro hd
        simp only [f1] at hd
        simp only [f5]
        exact h3 hd
      · simp only [f5]
        exact h4
      · intro hp
        simp only [f5] at hp
        simp only [f3]
        exact h5 hp
    · cases h
  | stdinError =>
    simp only [LoginWait.step] at h
    split at h
    · cases h
      exact ⟨h1, h2, h3, h4, h5⟩
    · cases h

theorem run_consistent (urlParse : GoString → Except Error URL)
    (ready : URL → DetectorState → Int → Bool) (page : Nat → Poll) :
    ∀ (schedule : List WaitAction) (s t : LoginWait), s.Consistent →
      LoginWait.run urlParse ready page s schedule = some t → t.Consistent := by
  intro schedule
  induction schedule with
  | nil =>
    intro s t hs h
    cases h
    exact hs
  | cons a schedule ih =>
    intro s t hs h
    simp only [LoginWait.run] at h
    cases hstep : s.step urlParse ready page a with
    | none => rw [hstep] at h; cases h
    | some s2 =>
      rw [hstep] at h
      exact ih s2 t (step_consistent urlParse ready page s s2 a hs hstep) h

/-- In every schedule of the wait the signal is received at most once, exactly once
when the caller is past its receive, and at most one poll is made after `close(done)`. -/
theorem run_received_once (urlParse : GoString → Except Error URL)
    (ready : URL → DetectorState → Int → Bool) (page : Nat → Poll)
    (schedule : List WaitAction) (t : LoginWait)
    (h : LoginWait.run urlParse ready page {} schedule = some t) :
    t.receivedCount ≤ 1 ∧ (t.caller ≠ .waiting → t.receivedCount = 1) ∧
    t.pollsAfterClose ≤ 1 := by
  have hc := run_consistent urlParse ready page schedule {} t
    ⟨fun _ => ⟨rfl, rfl⟩, fun h => absurd rfl h, fun _ => rfl, by decide,
      fun h => by cases h⟩ h
  obtain ⟨h1, h2, -, h4, -⟩ := hc
  refine ⟨?_, h2, h4⟩
  by_cases hw : t.caller = .waiting
  · rw [(h1 hw).1]
    omega
  · rw [h2 hw]

/-- C28: runs of the wait in which work is left over after completion. When the
stability detector declares completion and nothing arrives on standard input, the
signal is received once and `done` is closed, but the manual-override goroutine still
waits in `ReadString`. When the manual override declares completion while the stability
goroutine sleeps, the stability goroutine polls the page once more after `close(done)`
before it returns. -/
theorem loginWait_leftover_work :
    ((LoginWait.run sampleUrlParse (authenticateReady "app.example.com".toList) stablePage
        {} stabilityWinsSchedule).map
      fun s => (s.receivedCount, s.doneClosed, s.stability, s.manual)) =
      some (1, true, .exited, .reading) ∧
    ((LoginWait.run sampleUrlParse (captureReady "app.example.com".toList) stablePage
        {} stabilityWinsSchedule).map
      fun s => (s.receivedCount, s.doneClosed, s.stability, s.manual)) =
      some (1, true, .exited, .reading) ∧
    ((LoginWait.run sampleUrlParse (authenticateReady "app.example.com".toList) stablePage
        {} manualWinsSchedule).map
      fun s => (s.receivedCount, s.doneClosed, s.pollCount, s.pollsAfterClose,
        s.stability)) = some (1, true, 1, 1, .exited) ∧
    ((LoginWait.run sampleUrlParse (captureReady "app.example.com".toList) stablePage
        {} manualWinsSchedule).map
      fun s => (s.receivedCount, s.doneClosed, s.pollCount, s.pollsAfterClose,
        s.stability)) = some (1, true, 1, 1, .exited) := by
  refine ⟨by decide, by decide, by decide, by decide⟩

/-- After the stability detector has won, the manual-override goroutine keeps waiting
under every continuation of the schedule in which nothing arrives on standard input. -/
theorem manual_waits_on (continuation : List WaitAction) (t : LoginWait)
    (henter : WaitAction.enter ∉ continuation)
    (herror : WaitAction.stdinError ∉ continuation)
    (h : LoginWait.run sampleUrlParse (authenticateReady "app.example.com".toList)
      stablePage {} (stabilityWinsSchedule ++ continuation) = some t) :
    t.manual = .reading :=
  run_manual sampleUrlParse (authenticateReady "app.example.com".toList) stablePage
    (stabilityWinsSchedule ++ continuation) {} t
    (by
      intro hm
      rcases List.mem_append.mp hm with h1 | h1
      · revert h1
        decide
      · exact henter h1)
    (by
      intro hm
      rcases List.mem_append.mp hm with h1 | h1
      · revert h1
        decide
      · exact herror h1) h

end Fetch
